import Mathlib

/-!
# Verification of the Azure → LeanIX reconciliation scripts

Shallow embedding of `azure_to_leanix_v2.py` (the reconciler) and of the
application-id cache of `azure_to_leanix.py` (the v1 script).

The remote LeanIX catalog is modelled as an explicit state (`Catalog`): a list
of fact sheets, a list of relations, and a fresh-id counter.  Every HTTP call
of the script becomes a state transition together with an emitted `ApiEvent`
recording which endpoint was hit; the reconciler's functions are translated
one-to-one, keeping the source's names and control flow.  Python strings are
`String`, Python dicts keyed by strings are association lists, Python `None`
is `Option`, raised exceptions are `Except` values handled exactly where the
source has `try`/`except`.  Report metadata (timestamps, user names) are taken
from a `RunCtx` since `datetime.now()`/`getpass` are ambient inputs.
-/

namespace AzLx

/-- Model of Python `str.upper()` restricted to the ASCII range
(`Char.toUpper` flips exactly the ASCII letters, like Python does on
ASCII data). -/
def pyUpper (s : String) : String := ⟨s.data.map Char.toUpper⟩

/-- Model of Python `str.lower()` restricted to the ASCII range. -/
def pyLower (s : String) : String := ⟨s.data.map Char.toLower⟩

/-- Model of Python `str.split()` (no separator argument): split on runs of
whitespace, discarding empty pieces.  `acc` is the current word, reversed. -/
def pySplitWs : List Char → List Char → List (List Char)
  | [], acc => if acc.isEmpty then [] else [acc.reverse]
  | c :: cs, acc =>
    if c.isWhitespace then
      if acc.isEmpty then pySplitWs cs [] else acc.reverse :: pySplitWs cs []
    else pySplitWs cs (c :: acc)

/-- Model of Python `str.strip()`: drop leading and trailing whitespace. -/
def pyStripChars (cs : List Char) : List Char :=
  ((cs.dropWhile Char.isWhitespace).reverse.dropWhile Char.isWhitespace).reverse

/-- `normalize_application_name` (v2, lines 146-150):
`" ".join(name.split()).strip().lower()`, with `""` for a falsy name. -/
def normalize_application_name (name : String) : String :=
  if name = "" then ""
  else ⟨(pyStripChars (List.intercalate [' '] (pySplitWs name.data []))).map Char.toLower⟩

/-- `PROJECT_APP_MAPPING` (v2, lines 29-40), as an association list. -/
def PROJECT_APP_MAPPING : List (String × String) :=
  [("123", "Auth0-CA"),
   ("ABC", "Auth0-EU"),
   ("huhu", "Auth0-US"),
   ("hihi", "Auth0-VN"),
   ("xemay", "Auth0-AS"),
   ("xedap", "Azure AD-Vingroup"),
   ("xetai", "Battery Swap App"),
   ("xeoto", "Car Tracker"),
   ("xebo", "Connected Car Portal-AS"),
   ("xeheo", "Connected Car Portal-CA")]

/-- A resource tag, `{'Key': ..., 'Value': ...}` as produced by
`list_azure_resources`. -/
structure Tag where
  key : String
  value : String
  deriving DecidableEq

/-- A cloud resource as assembled by `list_azure_resources` (v2, lines
122-130). -/
structure Resource where
  rid : String
  rname : String
  service : String
  provider : String
  location : String
  subscription_id : String
  tags : List Tag
  deriving DecidableEq

/-- A LeanIX fact sheet (remote entity).  `fsType` is `"ITComponent"` or
`"Application"`; `description` and `lifecycleStart` record the creation
payload of `create_it_component_factsheet`. -/
structure FactSheet where
  id : Nat
  fsType : String
  name : String
  status : String
  description : String
  lifecycleStart : String
  deriving DecidableEq

/-- A LeanIX relation (remote entity), as in the payload of
`create_relation` (v2, lines 337-345). -/
structure Relation where
  id : Nat
  fromId : Nat
  toId : Nat
  rtype : String
  status : String
  activeFrom : String
  deriving DecidableEq

/-- The remote catalog state.  `nextId` models the server allocating fresh
ids for created fact sheets and relations. -/
structure Catalog where
  factSheets : List FactSheet
  relations : List Relation
  nextId : Nat
  deriving DecidableEq

/-- One HTTP request issued by the script (the endpoint and its key
parameters).  Searches and gets are reads; `createFactSheet`,
`createRelation` and `deleteRelation` are the write requests. -/
inductive ApiEvent where
  | searchITComponent (name : String)
  | createFactSheet (name : String)
  | searchApplicationFilter (name : String)
  | searchApplicationQuery (name : String)
  | getRelations (factsheet_id : Nat)
  | createRelation (fromId toId : Nat)
  | getFactSheet (factsheet_id : Nat)
  | deleteRelation (app_id relation_id : Nat)
  deriving DecidableEq

/-- `true` exactly on the two creation requests (fact-sheet POST and
relation POST). -/
def ApiEvent.isCreate : ApiEvent → Bool
  | .createFactSheet _ => true
  | .createRelation _ _ => true
  | _ => false

/-- `true` exactly on write requests (creates and deletes). -/
def ApiEvent.isWrite : ApiEvent → Bool
  | .createFactSheet _ => true
  | .createRelation _ _ => true
  | .deleteRelation _ _ => true
  | _ => false

/-- `true` exactly on the relation-creation POST. -/
def ApiEvent.isCreateRelation : ApiEvent → Bool
  | .createRelation _ _ => true
  | _ => false

/-- The script-side state threaded through a run: the remote catalog plus the
trace of requests issued so far. -/
structure St where
  catalog : Catalog
  events : List ApiEvent
  deriving DecidableEq

/-- Record one HTTP request in the trace. -/
def emit (s : St) (e : ApiEvent) : St :=
  { s with events := s.events ++ [e] }

/-- Ambient run inputs: `get_current_date`, `get_current_timestamp`,
`get_current_user`. -/
structure RunCtx where
  today : String
  timestamp : String
  user : String
  deriving DecidableEq

/-- The server-side filtered search plus client-side loop of
`get_existing_it_component` (v2, lines 187-202): fact sheets of type
`ITComponent` whose name equals `display_name`, first match returned. -/
def findITC (c : Catalog) (display_name : String) : Option FactSheet :=
  (c.factSheets.filter (fun fs => fs.fsType == "ITComponent" && fs.name == display_name)).find?
    (fun fs => fs.name == display_name)

/-- `GET /factSheets/{id}` server behaviour: first fact sheet with that id. -/
def findById (c : Catalog) (factsheet_id : Nat) : Option FactSheet :=
  c.factSheets.find? (fun fs => fs.id == factsheet_id)

/-- `GET /factSheets/{id}/relations` server behaviour: the relations whose
`fromId` is the given fact sheet. -/
def relationsOf (c : Catalog) (factsheet_id : Nat) : List Relation :=
  c.relations.filter (fun r => r.fromId == factsheet_id)

/-- `get_existing_it_component` (v2, lines 174-205).  `requestFails` models
the GET request raising; the `except` branch (lines 203-205) swallows the
error and returns `None`, indistinguishable from genuine absence. -/
def get_existing_it_component (s : St) (service_name : String) (requestFails : Bool) :
    Option FactSheet × St :=
  let display_name := "AZURE-" ++ pyUpper service_name
  let s := emit s (.searchITComponent display_name)
  if requestFails then (none, s) else (findITC s.catalog display_name, s)

/-- `create_it_component_factsheet` (v2, lines 207-256): double-check for an
existing component, then POST the creation payload.  `lookupFails` is passed
to the inner existence check. -/
def create_it_component_factsheet (s : St) (resource : Resource) (ctx : RunCtx)
    (lookupFails : Bool) : FactSheet × St :=
  let display_name := "AZURE-" ++ pyUpper resource.service
  let q := get_existing_it_component s resource.service lookupFails
  match q.1 with
  | some existing => (existing, q.2)
  | none =>
    let s := emit q.2 (.createFactSheet display_name)
    let fs : FactSheet :=
      { id := s.catalog.nextId, fsType := "ITComponent", name := display_name,
        status := "ACTIVE", description := "Azure " ++ resource.service ++ " resource",
        lifecycleStart := ctx.today }
    (fs, { s with catalog := { s.catalog with
             factSheets := s.catalog.factSheets ++ [fs],
             nextId := s.catalog.nextId + 1 } })

/-- The pure search-and-match logic of `get_application_id` over a fact-sheet
list: exact-name filtered search first, then the broader query (modelled as
all Application sheets), matching by normalized name in both passes. -/
def resolveApp (factSheets : List FactSheet) (app_name : String) : Except String Nat :=
  let normalized_name := normalize_application_name app_name
  let data := factSheets.filter (fun fs => fs.fsType == "Application" && fs.name == app_name)
  match data.find? (fun fs => normalize_application_name fs.name == normalized_name) with
  | some fs => .ok fs.id
  | none =>
    let alt := factSheets.filter (fun fs => fs.fsType == "Application")
    match alt.find? (fun fs => normalize_application_name fs.name == normalized_name) with
    | some fs => .ok fs.id
    | none => .error ("Application not found: " ++ app_name)

/-- `get_application_id` (v2, lines 258-308).  The server-side
`filter=name="..."` search is modelled as exact name match (URL-encoding of
the filter value elided); the fallback `query` search is modelled as
returning all Application fact sheets.  The alternative search request is
only issued when the first pass found no normalized-name match; a miss in
both raises `Application not found` (an `Except.error`). -/
def get_application_id (s : St) (app_name : String) : Except String Nat × St :=
  let normalized_name := normalize_application_name app_name
  let s1 := emit s (.searchApplicationFilter app_name)
  let data := s1.catalog.factSheets.filter
    (fun fs => fs.fsType == "Application" && fs.name == app_name)
  match data.find? (fun fs => normalize_application_name fs.name == normalized_name) with
  | some fs => (.ok fs.id, s1)
  | none =>
    let s2 := emit s1 (.searchApplicationQuery app_name)
    let alt := s2.catalog.factSheets.filter (fun fs => fs.fsType == "Application")
    match alt.find? (fun fs => normalize_application_name fs.name == normalized_name) with
    | some fs => (.ok fs.id, s2)
    | none => (.error ("Application not found: " ++ app_name), s2)

/-- `check_existing_relation` (v2, lines 310-326): scan the component's
relation list for a relation whose `toId` is the application. -/
def check_existing_relation (s : St) (it_component_id app_id : Nat) : Option Relation × St :=
  let s := emit s (.getRelations it_component_id)
  ((relationsOf s.catalog it_component_id).find? (fun r => r.toId == app_id), s)

/-- `create_relation` (v2, lines 328-355): re-check existence, then POST a
new relation with `status ACTIVE` and `activeFrom` = today. -/
def create_relation (s : St) (it_component_id app_id : Nat) (ctx : RunCtx) : Relation × St :=
  let q := check_existing_relation s it_component_id app_id
  match q.1 with
  | some existing_relation => (existing_relation, q.2)
  | none =>
    let s := emit q.2 (.createRelation it_component_id app_id)
    let r : Relation :=
      { id := s.catalog.nextId, fromId := it_component_id, toId := app_id,
        rtype := "relITComponentToApplication", status := "ACTIVE", activeFrom := ctx.today }
    (r, { s with catalog := { s.catalog with
            relations := s.catalog.relations ++ [r],
            nextId := s.catalog.nextId + 1 } })

/-- The project tag of a resource, as selected by the `next(...)` generator
in `process_it_component` (v2, lines 472-477) and
`map_resources_by_app_and_service` (lines 362-363): the first tag whose key
lowercases to `"project"` and whose value is a key of
`PROJECT_APP_MAPPING`. -/
def getProjectTag (resource : Resource) : Option String :=
  (resource.tags.find? (fun tag =>
    pyLower tag.key == "project" && (PROJECT_APP_MAPPING.lookup tag.value).isSome)).map Tag.value

/-- Insert `service_name` into the service set of `app_name` (the
`app_service_map[app_name].add(service_name)` step, with Python's `set`
modelled as a duplicate-free list). -/
def addService (m : List (String × List String)) (app_name service_name : String) :
    List (String × List String) :=
  match m with
  | [] => [(app_name, [service_name])]
  | (k, vs) :: rest =>
    if k == app_name then
      (k, if vs.contains service_name then vs else vs ++ [service_name]) :: rest
    else (k, vs) :: addService rest app_name service_name

/-- `map_resources_by_app_and_service` (v2, lines 357-373): application name
(via the mapping) → set of lowercased service names it currently has
resources for.  The `lookup = none` branch is unreachable because
`getProjectTag` already checked membership. -/
def map_resources_by_app_and_service (current_resources : List Resource) :
    List (String × List String) :=
  current_resources.foldl (fun acc resource =>
    match getProjectTag resource with
    | none => acc
    | some project_tag =>
      match PROJECT_APP_MAPPING.lookup project_tag with
      | none => acc
      | some app_name => addService acc app_name (pyLower resource.service)) []

/-- Membership test `app_name in app_service_map and service_name in
app_service_map[app_name]` used by the cleanup pass. -/
def mapHas (m : List (String × List String)) (app_name service_name : String) : Bool :=
  match m.lookup app_name with
  | some services => services.contains service_name
  | none => false

/-- `get_factsheet_by_id` (v2, lines 375-384); a missing sheet (or failed
request) yields the empty dict, modelled as `none`. -/
def get_factsheet_by_id (s : St) (factsheet_id : Nat) : Option FactSheet × St :=
  let s := emit s (.getFactSheet factsheet_id)
  (findById s.catalog factsheet_id, s)

/-- `delete_relation` (v2, lines 386-396): DELETE the relation by id
(nominal success; the `except` branch returning `False` models only
transport failures, which the claims do not exercise). -/
def delete_relation (s : St) (app_id relation_id : Nat) : Bool × St :=
  let s := emit s (.deleteRelation app_id relation_id)
  (true, { s with catalog := { s.catalog with
            relations := s.catalog.relations.filter (fun r => !(r.id == relation_id)) } })

/-- One pruned-relation record of the cleanup pass (v2, lines 445-453). -/
structure DeletedRecord where
  relation_id : Nat
  it_component_name : String
  service : String
  application_id : Nat
  application_name : String
  timestamp : String
  user : String
  deriving DecidableEq

/-- The `for relation in existing_relations` loop of
`cleanup_it_component_relations` (v2, lines 428-455). -/
def cleanupLoop (s : St) (queue : List Relation) (it_component_name service_name : String)
    (app_service_map : List (String × List String)) (ctx : RunCtx) :
    List DeletedRecord × St :=
  match queue with
  | [] => ([], s)
  | relation :: rest =>
    let app_id := relation.toId
    let q := get_factsheet_by_id s app_id
    match q.1 with
    | none => cleanupLoop q.2 rest it_component_name service_name app_service_map ctx
    | some app_details =>
      let app_name := app_details.name
      if mapHas app_service_map app_name service_name then
        cleanupLoop q.2 rest it_component_name service_name app_service_map ctx
      else
        let d := delete_relation q.2 app_id relation.id
        if d.1 then
          let record : DeletedRecord :=
            { relation_id := relation.id, it_component_name := it_component_name,
              service := service_name, application_id := app_id,
              application_name := app_name, timestamp := ctx.timestamp, user := ctx.user }
          let rec_rest := cleanupLoop d.2 rest it_component_name service_name app_service_map ctx
          (record :: rec_rest.1, rec_rest.2)
        else cleanupLoop d.2 rest it_component_name service_name app_service_map ctx

/-- `cleanup_it_component_relations` (v2, lines 398-460): fetch the
component, derive its service name from the `AZURE-` prefix, list its
relations, recompute the app → services map from the current resources, and
delete every relation whose application no longer appears with this
service. -/
def cleanup_it_component_relations (s : St) (it_component_id : Nat)
    (current_resources : List Resource) (ctx : RunCtx) : List DeletedRecord × St :=
  let q := get_factsheet_by_id s it_component_id
  let it_component_name := (q.1.map FactSheet.name).getD ""
  if !("AZURE-".data.isPrefixOf it_component_name.data) then ([], q.2)
  else
    let service_name := pyLower ⟨it_component_name.data.drop 6⟩
    let s1 := emit q.2 (.getRelations it_component_id)
    let existing_relations := relationsOf s1.catalog it_component_id
    if existing_relations.isEmpty then ([], s1)
    else
      let app_service_map := map_resources_by_app_and_service current_resources
      cleanupLoop s1 existing_relations it_component_name service_name app_service_map ctx

/-- One entry of the per-resource `relations` report list
(v2, lines 511-523): either a processed relation with its status
(`"existing"`/`"new"`) or an error record. -/
structure RelationEntry where
  project : String
  application : String
  relation : Option Relation
  status : Option String
  error : Option String
  deriving DecidableEq

/-- The per-resource result dict of `process_it_component`
(v2, lines 534-540). -/
structure Report where
  it_component : FactSheet
  relations : List RelationEntry
  deleted_relations : List DeletedRecord
  timestamp : String
  user : String
  deriving DecidableEq

/-- `process_it_component` (v2, lines 462-543): resolve the project tag
(skip if absent), find-or-create the IT component, resolve the application
and find-or-create the relation (application failures are caught into an
error entry, lines 517-523), then run the cleanup pass when the component
pre-existed and the full resource set was supplied. -/
def process_it_component (s : St) (resource : Resource)
    (all_resources : Option (List Resource)) (ctx : RunCtx) : Option Report × St :=
  match getProjectTag resource with
  | none => (none, s)
  | some project_tag =>
    let q1 := get_existing_it_component s resource.service false
    let existing_component := q1.1
    let q2 :=
      match existing_component with
      | some c => (c, q1.2)
      | none => create_it_component_factsheet q1.2 resource ctx false
    let it_component := q2.1
    let app_name := (PROJECT_APP_MAPPING.lookup project_tag).getD ""
    let q3 := get_application_id q2.2 app_name
    let q4 : RelationEntry × St :=
      match q3.1 with
      | .error e =>
        ({ project := project_tag, application := app_name, relation := none,
           status := none, error := some e }, q3.2)
      | .ok app_id =>
        let q5 := check_existing_relation q3.2 it_component.id app_id
        match q5.1 with
        | some existing_relation =>
          ({ project := project_tag, application := app_name,
             relation := some existing_relation, status := some "existing",
             error := none }, q5.2)
        | none =>
          let q6 := create_relation q5.2 it_component.id app_id ctx
          ({ project := project_tag, application := app_name, relation := some q6.1,
             status := some "new", error := none }, q6.2)
    let q7 : List DeletedRecord × St :=
      match all_resources, existing_component with
      | some all, some _ => cleanup_it_component_relations q4.2 it_component.id all ctx
      | _, _ => ([], q4.2)
    (some { it_component := it_component, relations := [q4.1],
            deleted_relations := q7.1, timestamp := ctx.timestamp, user := ctx.user }, q7.2)

/-- The `for resource in resources` loop of `main` (v2, lines 555-565):
every resource is processed with the full list as `all_resources`; falsy
(`None`) results are not appended.  In the model `process_it_component` is
total, so `main`'s per-resource `except` branch is unreachable. -/
def processList (s : St) (pending : List Resource) (all : List Resource) (ctx : RunCtx) :
    List Report × St :=
  match pending with
  | [] => ([], s)
  | r :: rest =>
    let p := process_it_component s r (some all) ctx
    let q := processList p.2 rest all ctx
    match p.1 with
    | some result => (result :: q.1, q.2)
    | none => (q.1, q.2)

/-- One full reconciliation run of `main` (v2, lines 545-589) against a given
catalog: resource listing and authentication are external inputs; the event
trace starts empty so that `(main_run c rs ctx).2.events` is exactly the
requests issued by this run. -/
def main_run (c : Catalog) (resources : List Resource) (ctx : RunCtx) : List Report × St :=
  processList ⟨c, []⟩ resources resources ctx

/-!
## The v1 script (`azure_to_leanix.py`)

Only `create_leanix_components` is embedded (steps 2 and 3, lines 194-273):
it is the part that owns the `app_ids` resolved-application-id cache.  The
token exchange at its top is external I/O, modelled as already done.
-/

namespace V1

/-- One HTTP request of the v1 script. -/
inductive Ev where
  | findApplication (name : String)
  | findITComponent (name : String)
  | createFactSheet (name : String)
  | getRelations (factsheet_id : Nat)
  | createRelation (fromId toId : Nat)
  deriving DecidableEq

/-- v1 script-side state: catalog plus request trace. -/
structure St where
  catalog : Catalog
  events : List Ev
  deriving DecidableEq

/-- Record one request in the v1 trace. -/
def emit (s : St) (e : Ev) : St :=
  { s with events := s.events ++ [e] }

/-- `find_application_id` (v1, lines 106-133): browse all Application fact
sheets and match the name exactly; any failure yields `None`. -/
def find_application_id (s : St) (app_name : String) : Option Nat × St :=
  let s := emit s (.findApplication app_name)
  (((s.catalog.factSheets.filter (fun fs => fs.fsType == "Application")).find?
      (fun fs => fs.name == app_name)).map FactSheet.id, s)

/-- `find_itcomponent_id` (v1, lines 76-103): browse all ITComponent fact
sheets and match the name exactly. -/
def find_itcomponent_id (s : St) (component_name : String) : Option Nat × St :=
  let s := emit s (.findITComponent component_name)
  (((s.catalog.factSheets.filter (fun fs => fs.fsType == "ITComponent")).find?
      (fun fs => fs.name == component_name)).map FactSheet.id, s)

/-- A v1 component dict as built by `prepare_leanix_components`: the fields
`create_leanix_components` reads. -/
structure Component where
  name : String
  description : String
  applications : List String
  deriving DecidableEq

/-- v1 `check_existing_relation` (lines 136-152): unlike v2 it also matches
the relation type. -/
def check_existing_relation (s : St) (it_component_id app_id : Nat) : Option Relation × St :=
  let s := emit s (.getRelations it_component_id)
  ((relationsOf s.catalog it_component_id).find?
    (fun r => r.toId == app_id && r.rtype == "relITComponentToApplication"), s)

/-- v1 `create_relation` (lines 155-191). -/
def create_relation (s : St) (it_component_id app_id : Nat) (today : String) : Relation × St :=
  let q := check_existing_relation s it_component_id app_id
  match q.1 with
  | some existing_relation => (existing_relation, q.2)
  | none =>
    let s := emit q.2 (.createRelation it_component_id app_id)
    let r : Relation :=
      { id := s.catalog.nextId, fromId := it_component_id, toId := app_id,
        rtype := "relITComponentToApplication", status := "ACTIVE", activeFrom := today }
    (r, { s with catalog := { s.catalog with
            relations := s.catalog.relations ++ [r],
            nextId := s.catalog.nextId + 1 } })

/-- The inner loop of step 2 of `create_leanix_components` (v1, lines
228-236) over one component's application names: consult the `app_ids`
cache first, look up on a miss, and cache only successful resolutions. -/
def collectApps (s : St) (names : List String) (app_ids : List (String × Nat)) :
    List (String × Nat) × St :=
  match names with
  | [] => (app_ids, s)
  | app_name :: rest =>
    if (app_ids.lookup app_name).isSome then collectApps s rest app_ids
    else
      let q := find_application_id s app_name
      match q.1 with
      | some app_id => collectApps q.2 rest (app_ids ++ [(app_name, app_id)])
      | none => collectApps q.2 rest app_ids

/-- Step 2 of `create_leanix_components` (v1, lines 226-236): populate the
`app_ids` cache across all components. -/
def collectAppIds (s : St) (components : List Component) (app_ids : List (String × Nat)) :
    List (String × Nat) × St :=
  match components with
  | [] => (app_ids, s)
  | component :: rest =>
    let q := collectApps s component.applications app_ids
    collectAppIds q.2 rest q.1

/-- The relations loop of step 3 (v1, lines 266-273): application ids come
only from the `app_ids` cache; uncached names are skipped. -/
def relateApps (s : St) (component_id : Nat) (names : List String)
    (app_ids : List (String × Nat)) (today : String) : St :=
  match names with
  | [] => s
  | app_name :: rest =>
    match app_ids.lookup app_name with
    | some app_id =>
      relateApps (create_relation s component_id app_id today).2 component_id rest app_ids today
    | none => relateApps s component_id rest app_ids today

/-- Step 3 per-component body (v1, lines 239-273): find-or-create the IT
component, then create its relations from the cache. -/
def processComponent (s : St) (component : Component) (app_ids : List (String × Nat))
    (today : String) : St :=
  let q := find_itcomponent_id s component.name
  let q2 : Nat × St :=
    match q.1 with
    | some component_id => (component_id, q.2)
    | none =>
      let s := emit q.2 (.createFactSheet component.name)
      (s.catalog.nextId, { s with catalog := { s.catalog with
          factSheets := s.catalog.factSheets ++
            [{ id := s.catalog.nextId, fsType := "ITComponent", name := component.name,
               status := "ACTIVE", description := component.description,
               lifecycleStart := today }],
          nextId := s.catalog.nextId + 1 } })
  relateApps q2.2 q2.1 component.applications app_ids today

/-- The step-3 loop over all components. -/
def processComponents (s : St) (components : List Component) (app_ids : List (String × Nat))
    (today : String) : St :=
  match components with
  | [] => s
  | component :: rest => processComponents (processComponent s component app_ids today) rest app_ids today

/-- `create_leanix_components` (v1, lines 194-273), after the token
exchange: populate the cache (step 2), then process every component
(step 3). -/
def create_leanix_components (s : St) (components : List Component) (today : String) : St :=
  let q := collectAppIds s components []
  processComponents q.2 components q.1 today

end V1

/-!
## Derived notions used by the verification

Auxiliary definitions (invariants, counters, pure views of the operations)
that the theorems below are stated with. -/

/-- The application name a resource contributes to, when its project tag is
recognized. -/
def appNameOf (resource : Resource) : Option String :=
  (getProjectTag resource).bind (fun t => PROJECT_APP_MAPPING.lookup t)

/-- The folding step of `map_resources_by_app_and_service`. -/
def mapStep (acc : List (String × List String)) (resource : Resource) :
    List (String × List String) :=
  match getProjectTag resource with
  | none => acc
  | some project_tag =>
    match PROJECT_APP_MAPPING.lookup project_tag with
    | none => acc
    | some app_name => addService acc app_name (pyLower resource.service)

/-- Well-formed catalog: ids are unique and below the fresh-id counter. -/
def Catalog.wf (c : Catalog) : Prop :=
  (c.factSheets.map FactSheet.id).Nodup ∧ (c.relations.map Relation.id).Nodup ∧
  (∀ fs ∈ c.factSheets, fs.id < c.nextId) ∧ (∀ rel ∈ c.relations, rel.id < c.nextId)

instance catalogWfDecidable (c : Catalog) : Decidable c.wf := by
  unfold Catalog.wf
  infer_instance

/-- The Application-typed sublist of the fact sheets. -/
def appsOf (c : Catalog) : List FactSheet :=
  c.factSheets.filter (fun fs => fs.fsType == "Application")

/-- `s'` extends `s`'s trace by non-creation requests only. -/
def EventsExtendNC (s s' : St) : Prop :=
  ∃ d, s'.events = s.events ++ d ∧ ∀ e ∈ d, e.isCreate = false

/-- The staleness decision the cleanup loop takes for one relation, as a
pure function of the catalog (the loop never modifies fact sheets, so it is
constant throughout the loop): the relation is deleted iff its target
application has a sheet whose name does not appear with this service in the
recomputed map.  Relations with no target sheet are skipped. -/
def staleFor (c : Catalog) (app_service_map : List (String × List String))
    (service_name : String) (q : Relation) : Bool :=
  match findById c q.toId with
  | none => false
  | some app_details => !(mapHas app_service_map app_details.name service_name)

/-- Decidable one-pair check: if the resource's mapped application name and
this Application sheet's name agree under normalization, they agree
exactly. -/
def exactOk (fs : FactSheet) (r : Resource) : Bool :=
  match appNameOf r with
  | none => true
  | some A => !(normalize_application_name fs.name == normalize_application_name A) ||
      (fs.name == A)

/-- Exact-name assumption of the amended idempotence claim: every
Application sheet whose normalized name matches some mapped application
name of the resource set carries exactly that name (so the cleanup pass's
exact-name comparison agrees with the resolution's normalized one). -/
def ExactNames (c : Catalog) (rs : List Resource) : Prop :=
  ∀ fs ∈ c.factSheets, fs.fsType = "Application" → ∀ r ∈ rs, exactOk fs r = true

instance exactNamesDecidable (c : Catalog) (rs : List Resource) : Decidable (ExactNames c rs) := by
  unfold ExactNames
  infer_instance

/-- After a run has processed a resource, its derived component name is
findable. -/
def CompReady (c : Catalog) (r : Resource) : Prop :=
  ∀ t, getProjectTag r = some t →
    (findITC c ("AZURE-" ++ pyUpper r.service)).isSome = true

/-- After a run has processed a resource whose application resolves, the
catalog holds a relation from the found component to the resolved
application. -/
def Established (c₀ : Catalog) (c : Catalog) (r : Resource) : Prop :=
  ∀ t A aid, getProjectTag r = some t → PROJECT_APP_MAPPING.lookup t = some A →
    resolveApp c₀.factSheets A = .ok aid →
    ∃ compFs rel, findITC c ("AZURE-" ++ pyUpper r.service) = some compFs ∧
      rel ∈ c.relations ∧ rel.fromId = compFs.id ∧ rel.toId = aid

/-- The pure lookup performed by v1 `find_application_id`. -/
def V1.findAppPure (c : Catalog) (app_name : String) : Option Nat :=
  ((c.factSheets.filter (fun fs => fs.fsType == "Application")).find?
    (fun fs => fs.name == app_name)).map FactSheet.id

/-- `true` exactly on application-lookup requests. -/
def V1.Ev.isFindApp : V1.Ev → Bool
  | .findApplication _ => true
  | _ => false

/-- How many times the trace looks `n` up as an application. -/
def V1.countFind (evs : List V1.Ev) (n : String) : Nat :=
  (evs.filter (fun e => e == V1.Ev.findApplication n)).length

/-- `s'` extends `s`'s trace without any application lookup. -/
def V1.NoFindExtend (s s' : V1.St) : Prop :=
  ∃ d, s'.events = s.events ++ d ∧ ∀ e ∈ d, V1.Ev.isFindApp e = false

/-!
## Character and string facts

The component name round-trip of the cleanup pass needs
`lower (upper s) = lower s` (true on `Char.toUpper`/`Char.toLower`, which
only move the ASCII letter ranges). -/

/-- `Char.ofNat` at a valid code point evaluates back to it. -/
theorem char_toNat_ofNat_valid (n : Nat) (h : n.isValidChar) : (Char.ofNat n).toNat = n := by
  simp only [Char.ofNat, h, dite_true, Char.ofNatAux, Char.toNat]
  have hlt : n < 2 ^ 32 := by
    rcases h with h | h
    · omega
    · omega
  simp [UInt32.toNat, UInt32.ofNat', BitVec.toNat_ofNat, Nat.mod_eq_of_lt hlt]

/-- Lowercasing after uppercasing a character equals lowercasing it. -/
theorem char_toLower_toUpper (c : Char) : c.toUpper.toLower = c.toLower := by
  simp only [Char.toUpper, Char.toLower]
  split
  · next h =>
    have hv : (c.toNat - 32).isValidChar := by
      unfold Nat.isValidChar
      left
      omega
    have h1 : (Char.ofNat (c.toNat - 32)).toNat = c.toNat - 32 := char_toNat_ofNat_valid _ hv
    rw [h1]
    have h2 : (c.toNat - 32 ≥ 65 ∧ c.toNat - 32 ≤ 90) := by omega
    rw [if_pos h2]
    have h3 : ¬ (c.toNat ≥ 65 ∧ c.toNat ≤ 90) := by omega
    rw [if_neg h3]
    have h4 : c.toNat - 32 + 32 = c.toNat := by omega
    rw [h4, Char.ofNat_toNat]
  · rfl

/-- Lowercasing an uppercased string equals lowercasing it. -/
theorem pyLower_pyUpper (s : String) : pyLower (pyUpper s) = pyLower s := by
  simp only [pyLower, pyUpper, List.map_map]
  congr 1
  exact List.map_congr_left (fun c _ => char_toLower_toUpper c)

/-- The `"AZURE-" ++ x` component names always pass the cleanup's
`startswith('AZURE-')` check. -/
theorem azure_isPrefixOf (x : String) :
    "AZURE-".data.isPrefixOf ("AZURE-" ++ x).data = true := by
  rw [String.data_append]
  exact List.isPrefixOf_iff_prefix.mpr (List.prefix_append _ _)

/-- Dropping the 6-character `AZURE-` prefix of a component name recovers
the uppercased service. -/
theorem azure_drop6 (x : String) : ("AZURE-" ++ x).data.drop 6 = x.data := by
  rw [String.data_append]
  have h : ("AZURE-".data).length = 6 := rfl
  rw [← h]
  exact List.drop_left _ _

/-- The cleanup pass's service name extracted from `AZURE- + upper(service)`
equals the lowercased service used in the app → services map. -/
theorem cleanup_service_name (service : String) :
    pyLower ⟨("AZURE-" ++ pyUpper service).data.drop 6⟩ = pyLower service := by
  rw [azure_drop6]
  exact pyLower_pyUpper service

/-! ## Elementary facts about the catalog operations -/

theorem emit_catalog (s : St) (e : ApiEvent) : (emit s e).catalog = s.catalog := rfl

theorem emit_events (s : St) (e : ApiEvent) : (emit s e).events = s.events ++ [e] := rfl

theorem get_existing_it_component_eq (s : St) (n : String) :
    get_existing_it_component s n false =
      (findITC s.catalog ("AZURE-" ++ pyUpper n),
       emit s (.searchITComponent ("AZURE-" ++ pyUpper n))) := rfl

theorem get_existing_it_component_fails (s : St) (n : String) :
    get_existing_it_component s n true =
      (none, emit s (.searchITComponent ("AZURE-" ++ pyUpper n))) := rfl

theorem check_existing_relation_eq (s : St) (cid aid : Nat) :
    check_existing_relation s cid aid =
      ((relationsOf s.catalog cid).find? (fun r => r.toId == aid),
       emit s (.getRelations cid)) := rfl

theorem get_factsheet_by_id_eq (s : St) (i : Nat) :
    get_factsheet_by_id s i = (findById s.catalog i, emit s (.getFactSheet i)) := rfl

theorem delete_relation_eq (s : St) (aid rid : Nat) :
    delete_relation s aid rid =
      (true, { catalog := { s.catalog with
                 relations := s.catalog.relations.filter (fun r => !(r.id == rid)) },
               events := s.events ++ [.deleteRelation aid rid] }) := rfl

theorem get_application_id_filterHit (s : St) (n : String) (fs : FactSheet)
    (h : (s.catalog.factSheets.filter (fun x => x.fsType == "Application" && x.name == n)).find?
          (fun x => normalize_application_name x.name == normalize_application_name n) = some fs) :
    get_application_id s n = (.ok fs.id, emit s (.searchApplicationFilter n)) := by
  simp only [get_application_id, emit_catalog, h]

theorem get_application_id_queryHit (s : St) (n : String) (fs : FactSheet)
    (h1 : (s.catalog.factSheets.filter (fun x => x.fsType == "Application" && x.name == n)).find?
          (fun x => normalize_application_name x.name == normalize_application_name n) = none)
    (h2 : (s.catalog.factSheets.filter (fun x => x.fsType == "Application")).find?
          (fun x => normalize_application_name x.name == normalize_application_name n) = some fs) :
    get_application_id s n =
      (.ok fs.id, emit (emit s (.searchApplicationFilter n)) (.searchApplicationQuery n)) := by
  simp only [get_application_id, emit_catalog, h1, h2]

theorem get_application_id_miss (s : St) (n : String)
    (h1 : (s.catalog.factSheets.filter (fun x => x.fsType == "Application" && x.name == n)).find?
          (fun x => normalize_application_name x.name == normalize_application_name n) = none)
    (h2 : (s.catalog.factSheets.filter (fun x => x.fsType == "Application")).find?
          (fun x => normalize_application_name x.name == normalize_application_name n) = none) :
    get_application_id s n =
      (.error ("Application not found: " ++ n),
       emit (emit s (.searchApplicationFilter n)) (.searchApplicationQuery n)) := by
  simp only [get_application_id, emit_catalog, h1, h2]

theorem resolveApp_filterHit (l : List FactSheet) (n : String) (fs : FactSheet)
    (h : (l.filter (fun x => x.fsType == "Application" && x.name == n)).find?
          (fun x => normalize_application_name x.name == normalize_application_name n) = some fs) :
    resolveApp l n = .ok fs.id := by
  simp only [resolveApp, h]

theorem resolveApp_queryHit (l : List FactSheet) (n : String) (fs : FactSheet)
    (h1 : (l.filter (fun x => x.fsType == "Application" && x.name == n)).find?
          (fun x => normalize_application_name x.name == normalize_application_name n) = none)
    (h2 : (l.filter (fun x => x.fsType == "Application")).find?
          (fun x => normalize_application_name x.name == normalize_application_name n) = some fs) :
    resolveApp l n = .ok fs.id := by
  simp only [resolveApp, h1, h2]

theorem resolveApp_miss (l : List FactSheet) (n : String)
    (h1 : (l.filter (fun x => x.fsType == "Application" && x.name == n)).find?
          (fun x => normalize_application_name x.name == normalize_application_name n) = none)
    (h2 : (l.filter (fun x => x.fsType == "Application")).find?
          (fun x => normalize_application_name x.name == normalize_application_name n) = none) :
    resolveApp l n = .error ("Application not found: " ++ n) := by
  simp only [resolveApp, h1, h2]

/-- `get_application_id` computes `resolveApp` on the current catalog,
leaves the catalog unchanged, and appends one or two search events. -/
theorem get_application_id_spec (s : St) (n : String) :
    (get_application_id s n).1 = resolveApp s.catalog.factSheets n ∧
    (get_application_id s n).2.catalog = s.catalog ∧
    ((get_application_id s n).2.events = s.events ++ [.searchApplicationFilter n] ∨
     (get_application_id s n).2.events =
       s.events ++ [.searchApplicationFilter n, .searchApplicationQuery n]) := by
  rcases h1 : (s.catalog.factSheets.filter (fun x => x.fsType == "Application" && x.name == n)).find?
      (fun x => normalize_application_name x.name == normalize_application_name n) with _ | fs
  · rcases h2 : (s.catalog.factSheets.filter (fun x => x.fsType == "Application")).find?
        (fun x => normalize_application_name x.name == normalize_application_name n) with _ | fs
    · rw [get_application_id_miss s n h1 h2, resolveApp_miss _ _ h1 h2]
      refine ⟨rfl, rfl, Or.inr ?_⟩
      simp [emit]
    · rw [get_application_id_queryHit s n fs h1 h2, resolveApp_queryHit _ _ fs h1 h2]
      refine ⟨rfl, rfl, Or.inr ?_⟩
      simp [emit]
  · rw [get_application_id_filterHit s n fs h1, resolveApp_filterHit _ _ fs h1]
    exact ⟨rfl, rfl, Or.inl rfl⟩

theorem create_relation_found (s : St) (cid aid : Nat) (ctx : RunCtx) (r : Relation)
    (h : (relationsOf s.catalog cid).find? (fun q => q.toId == aid) = some r) :
    create_relation s cid aid ctx = (r, emit s (.getRelations cid)) := by
  unfold create_relation
  rw [check_existing_relation_eq]
  simp [h]

theorem create_relation_new (s : St) (cid aid : Nat) (ctx : RunCtx)
    (h : (relationsOf s.catalog cid).find? (fun q => q.toId == aid) = none) :
    create_relation s cid aid ctx =
      (⟨s.catalog.nextId, cid, aid, "relITComponentToApplication", "ACTIVE", ctx.today⟩,
       { catalog := { s.catalog with
           relations := s.catalog.relations ++
             [⟨s.catalog.nextId, cid, aid, "relITComponentToApplication", "ACTIVE", ctx.today⟩],
           nextId := s.catalog.nextId + 1 },
         events := s.events ++ [.getRelations cid, .createRelation cid aid] }) := by
  unfold create_relation
  rw [check_existing_relation_eq]
  simp [h, emit]

theorem create_it_component_found (s : St) (r : Resource) (ctx : RunCtx) (fs : FactSheet)
    (h : findITC s.catalog ("AZURE-" ++ pyUpper r.service) = some fs) :
    create_it_component_factsheet s r ctx false =
      (fs, emit s (.searchITComponent ("AZURE-" ++ pyUpper r.service))) := by
  unfold create_it_component_factsheet
  rw [get_existing_it_component_eq]
  simp [h]

theorem create_it_component_new (s : St) (r : Resource) (ctx : RunCtx)
    (h : findITC s.catalog ("AZURE-" ++ pyUpper r.service) = none) :
    create_it_component_factsheet s r ctx false =
      (⟨s.catalog.nextId, "ITComponent", "AZURE-" ++ pyUpper r.service, "ACTIVE",
        "Azure " ++ r.service ++ " resource", ctx.today⟩,
       { catalog := { s.catalog with
           factSheets := s.catalog.factSheets ++
             [⟨s.catalog.nextId, "ITComponent", "AZURE-" ++ pyUpper r.service, "ACTIVE",
               "Azure " ++ r.service ++ " resource", ctx.today⟩],
           nextId := s.catalog.nextId + 1 },
         events := s.events ++ [.searchITComponent ("AZURE-" ++ pyUpper r.service),
                                .createFactSheet ("AZURE-" ++ pyUpper r.service)] }) := by
  unfold create_it_component_factsheet
  rw [get_existing_it_component_eq]
  simp [h, emit]

/-! ## List and search helpers -/

/-- With duplicate-free images under `f`, two list members with the same
image are equal. -/
theorem eq_of_nodup_ids {α : Type} (f : α → Nat) {l : List α} (h : (l.map f).Nodup)
    {a b : α} (ha : a ∈ l) (hb : b ∈ l) (hf : f a = f b) : a = b := by
  induction l with
  | nil => cases ha
  | cons x xs ih =>
    rw [List.map_cons, List.nodup_cons] at h
    rcases List.mem_cons.mp ha with rfl | ha'
    · rcases List.mem_cons.mp hb with rfl | hb'
      · rfl
      · exact absurd (by rw [hf]; exact List.mem_map_of_mem f hb') h.1
    · rcases List.mem_cons.mp hb with rfl | hb'
      · exact absurd (by rw [← hf]; exact List.mem_map_of_mem f ha') h.1
      · exact ih h.2 ha' hb'

/-- Searching a duplicate-free list for a member's id finds that member. -/
theorem find?_id_of_mem_nodup {α : Type} (f : α → Nat) {l : List α} (h : (l.map f).Nodup)
    {a : α} (ha : a ∈ l) : l.find? (fun x => f x == f a) = some a := by
  induction l with
  | nil => cases ha
  | cons x xs ih =>
    rw [List.map_cons, List.nodup_cons] at h
    rcases List.mem_cons.mp ha with rfl | ha'
    · exact List.find?_cons_of_pos _ (by simp)
    · have hne : (f x == f a) = false := by
        rw [beq_eq_false_iff_ne]
        intro he
        exact h.1 (by rw [he]; exact List.mem_map_of_mem f ha')
      rw [List.find?_cons_of_neg _ (by simp [hne]), ih h.2 ha']

/-- `findById` at a member's id returns that member when ids are unique. -/
theorem findById_of_mem {c : Catalog} (h : (c.factSheets.map FactSheet.id).Nodup)
    {fs : FactSheet} (hm : fs ∈ c.factSheets) : findById c fs.id = some fs :=
  find?_id_of_mem_nodup FactSheet.id h hm

/-- What a successful `findITC` returns: a member fact sheet of type
`ITComponent` carrying exactly the searched name. -/
theorem findITC_spec {c : Catalog} {n : String} {fs : FactSheet} (h : findITC c n = some fs) :
    fs ∈ c.factSheets ∧ fs.fsType = "ITComponent" ∧ fs.name = n := by
  unfold findITC at h
  have hm := List.mem_filter.mp (List.mem_of_find?_eq_some h)
  refine ⟨hm.1, ?_, ?_⟩
  · have h2 := hm.2
    rw [Bool.and_eq_true, beq_iff_eq, beq_iff_eq] at h2
    exact h2.1
  · have h2 := List.find?_some h
    rwa [beq_iff_eq] at h2

/-- A found IT component stays found (with the same result) after any
extension of the fact-sheet list. -/
theorem findITC_mono {c c' : Catalog} (ext : List FactSheet)
    (hfs : c'.factSheets = c.factSheets ++ ext) {n : String} {fs : FactSheet}
    (h : findITC c n = some fs) : findITC c' n = some fs := by
  unfold findITC at h ⊢
  rw [hfs, List.filter_append, List.find?_append, h]
  rfl

/-- Appending a matching fact sheet to a catalog where the search missed
makes the search find exactly it. -/
theorem findITC_none_new {c c' : Catalog} {n : String} (hnone : findITC c n = none)
    (fs : FactSheet) (hty : fs.fsType = "ITComponent") (hn : fs.name = n)
    (hfs : c'.factSheets = c.factSheets ++ [fs]) : findITC c' n = some fs := by
  unfold findITC at hnone ⊢
  rw [hfs, List.filter_append, List.find?_append, hnone]
  simp [hty, hn]

/-- A found fact sheet stays found by id after extension. -/
theorem findById_mono {c c' : Catalog} (ext : List FactSheet)
    (hfs : c'.factSheets = c.factSheets ++ ext) {i : Nat} {fs : FactSheet}
    (h : findById c i = some fs) : findById c' i = some fs := by
  unfold findById at h ⊢
  rw [hfs, List.find?_append, h]
  rfl

/-- Existence of a matching relation makes the relation-list scan succeed. -/
theorem relationsOf_find_isSome {c : Catalog} {cid aid : Nat}
    (h : ∃ rel ∈ c.relations, rel.fromId = cid ∧ rel.toId = aid) :
    ((relationsOf c cid).find? (fun r => r.toId == aid)).isSome = true := by
  rcases h with ⟨rel, hm, hf, ht⟩
  apply List.find?_isSome.mpr
  exact ⟨rel, List.mem_filter.mpr ⟨hm, by simp [hf]⟩, by simp [ht]⟩

/-! ## The app → services map -/

theorem map_resources_eq_foldl (current_resources : List Resource) :
    map_resources_by_app_and_service current_resources =
      current_resources.foldl mapStep [] := rfl

theorem contains_iff_mem (l : List String) (a : String) : l.contains a = true ↔ a ∈ l := by
  simp [List.contains, List.elem_eq_mem]

/-- `addService` leaves the looked-up key's services updated … -/
theorem lookup_addService_self (m : List (String × List String)) (a' s' : String) :
    (addService m a' s').lookup a' = some (match m.lookup a' with
      | some vs => if vs.contains s' then vs else vs ++ [s']
      | none => [s']) := by
  induction m with
  | nil => simp [addService, List.lookup]
  | cons p rest ih =>
    obtain ⟨k, vs⟩ := p
    by_cases hk : k = a'
    · subst hk
      simp [addService, List.lookup]
    · have h1 : (k == a') = false := by simp [hk]
      have h2 : (a' == k) = false := by simp [Ne.symm hk]
      simp [addService, List.lookup, h1, h2, ih]

/-- … and every other key untouched. -/
theorem lookup_addService_other (m : List (String × List String)) (a a' s' : String)
    (h : a ≠ a') : (addService m a' s').lookup a = m.lookup a := by
  induction m with
  | nil =>
    have h1 : (a == a') = false := by simp [h]
    simp [addService, List.lookup, h1]
  | cons p rest ih =>
    obtain ⟨k, vs⟩ := p
    by_cases hk : k = a'
    · subst hk
      have h1 : (a == k) = false := by simp [h]
      simp [addService, List.lookup, h1]
    · have h1 : (k == a') = false := by simp [hk]
      by_cases ha : a = k
      · subst ha
        simp [addService, List.lookup, h1]
      · have h2 : (a == k) = false := by simp [ha]
        simp [addService, List.lookup, h1, h2, ih]

/-- Membership after one `addService` insertion. -/
theorem mapHas_addService (m : List (String × List String)) (a s a' s' : String) :
    mapHas (addService m a' s') a s = true ↔
      (mapHas m a s = true ∨ (a = a' ∧ s = s')) := by
  by_cases ha : a = a'
  · subst ha
    unfold mapHas
    rw [lookup_addService_self]
    rcases h : m.lookup a with _ | vs
    · simp [contains_iff_mem]
    · by_cases hc : vs.contains s' = true
      · simp only [hc, if_true, true_and]
        constructor
        · exact fun hm => Or.inl hm
        · rintro (hm | rfl)
          · exact hm
          · exact hc
      · have hc' : vs.contains s' = false := by
          cases hcc : vs.contains s'
          · rfl
          · exact absurd hcc hc
        simp only [hc', Bool.false_eq_true, if_false, contains_iff_mem, List.mem_append,
          List.mem_singleton, true_and]
  · unfold mapHas
    rw [lookup_addService_other m a a' s' ha]
    simp [ha]

/-- Membership in the folded map, generalized over the accumulator. -/
theorem mapHas_foldl (rs : List Resource) (acc : List (String × List String)) (a s : String) :
    mapHas (rs.foldl mapStep acc) a s = true ↔
      (mapHas acc a s = true ∨
       ∃ r ∈ rs, appNameOf r = some a ∧ pyLower r.service = s) := by
  induction rs generalizing acc with
  | nil => simp
  | cons r rest ih =>
    rw [List.foldl_cons, ih, List.exists_mem_cons_iff]
    rcases h1 : getProjectTag r with _ | t
    · have hstep : mapStep acc r = acc := by simp [mapStep, h1]
      have hname : appNameOf r = none := by simp [appNameOf, h1]
      rw [hstep, hname]
      constructor
      · rintro (h | h)
        · exact Or.inl h
        · exact Or.inr (Or.inr h)
      · rintro (h | (⟨hc, -⟩ | h))
        · exact Or.inl h
        · exact absurd hc (by simp)
        · exact Or.inr h
    · rcases h2 : PROJECT_APP_MAPPING.lookup t with _ | A
      · have hstep : mapStep acc r = acc := by simp [mapStep, h1, h2]
        have hname : appNameOf r = none := by simp [appNameOf, h1, h2]
        rw [hstep, hname]
        constructor
        · rintro (h | h)
          · exact Or.inl h
          · exact Or.inr (Or.inr h)
        · rintro (h | (⟨hc, -⟩ | h))
          · exact Or.inl h
          · exact absurd hc (by simp)
          · exact Or.inr h
      · have hstep : mapStep acc r = addService acc A (pyLower r.service) := by
          simp [mapStep, h1, h2]
        have hname : appNameOf r = some A := by simp [appNameOf, h1, h2]
        rw [hstep, mapHas_addService, hname]
        constructor
        · rintro ((h | ⟨rfl, rfl⟩) | h)
          · exact Or.inl h
          · exact Or.inr (Or.inl ⟨rfl, rfl⟩)
          · exact Or.inr (Or.inr h)
        · rintro (h | (⟨hA, hs⟩ | h))
          · exact Or.inl (Or.inl h)
          · exact Or.inl (Or.inr ⟨(Option.some.inj hA).symm, hs.symm⟩)
          · exact Or.inr h

/-- The recomputed map lists an application with a service iff some current
resource backs that (application, service) pair. -/
theorem mapHas_map_resources (rs : List Resource) (a s : String) :
    mapHas (map_resources_by_app_and_service rs) a s = true ↔
      ∃ r ∈ rs, appNameOf r = some a ∧ pyLower r.service = s := by
  rw [map_resources_eq_foldl, mapHas_foldl]
  simp [mapHas]

/-! ## Catalog well-formedness -/

theorem wf_create_factsheet {c : Catalog} (h : c.wf) (fs : FactSheet) (hid : fs.id = c.nextId) :
    Catalog.wf ⟨c.factSheets ++ [fs], c.relations, c.nextId + 1⟩ := by
  obtain ⟨h1, h2, h3, h4⟩ := h
  refine ⟨?_, h2, ?_, ?_⟩
  · rw [List.map_append, List.nodup_append]
    refine ⟨h1, List.nodup_singleton _, ?_⟩
    intro x hx hx'
    rcases List.mem_map.mp hx with ⟨y, hy, rfl⟩
    have := h3 y hy
    simp only [List.map_cons, List.map_nil, List.mem_singleton] at hx'
    omega
  · intro x hx
    rcases List.mem_append.mp hx with hm | hm
    · exact Nat.lt_succ_of_lt (h3 x hm)
    · rw [List.mem_singleton.mp hm, hid]
      exact Nat.lt_succ_self _
  · intro rel hrel
    exact Nat.lt_succ_of_lt (h4 rel hrel)

theorem wf_create_relation {c : Catalog} (h : c.wf) (r : Relation) (hid : r.id = c.nextId) :
    Catalog.wf ⟨c.factSheets, c.relations ++ [r], c.nextId + 1⟩ := by
  obtain ⟨h1, h2, h3, h4⟩ := h
  refine ⟨h1, ?_, ?_, ?_⟩
  · rw [List.map_append, List.nodup_append]
    refine ⟨h2, List.nodup_singleton _, ?_⟩
    intro x hx hx'
    rcases List.mem_map.mp hx with ⟨y, hy, rfl⟩
    have := h4 y hy
    simp only [List.map_cons, List.map_nil, List.mem_singleton] at hx'
    omega
  · intro x hx
    exact Nat.lt_succ_of_lt (h3 x hx)
  · intro rel hrel
    rcases List.mem_append.mp hrel with hm | hm
    · exact Nat.lt_succ_of_lt (h4 rel hm)
    · rw [List.mem_singleton.mp hm, hid]
      exact Nat.lt_succ_self _

theorem wf_filter_relations {c : Catalog} (h : c.wf) (p : Relation → Bool) :
    Catalog.wf ⟨c.factSheets, c.relations.filter p, c.nextId⟩ := by
  obtain ⟨h1, h2, h3, h4⟩ := h
  refine ⟨h1, ?_, h3, ?_⟩
  · exact h2.sublist (List.Sublist.map _ (List.filter_sublist _))
  · intro rel hrel
    exact h4 rel (List.mem_of_mem_filter hrel)

/-- Appending an IT component leaves the Application sublist unchanged. -/
theorem appsOf_append_IT {c c' : Catalog} (fs : FactSheet) (hty : fs.fsType = "ITComponent")
    (hfs : c'.factSheets = c.factSheets ++ [fs]) : appsOf c' = appsOf c := by
  unfold appsOf
  rw [hfs, List.filter_append]
  simp [hty]

/-- `resolveApp` only depends on the Application sublist. -/
theorem resolveApp_congr {c c' : Catalog} (h : appsOf c' = appsOf c) (n : String) :
    resolveApp c'.factSheets n = resolveApp c.factSheets n := by
  unfold resolveApp
  have hfl : ∀ (m : List FactSheet), m.filter (fun fs => fs.fsType == "Application" && fs.name == n)
      = (m.filter (fun fs => fs.fsType == "Application")).filter (fun fs => fs.name == n) := by
    intro m
    rw [List.filter_filter]
    apply List.filter_congr
    intro x _
    rw [Bool.and_comm]
  unfold appsOf at h
  rw [hfl, hfl, h]

/-- What a successful `resolveApp` returns: the id of an Application sheet
whose normalized name matches the query. -/
theorem resolveApp_ok_spec {l : List FactSheet} {n : String} {aid : Nat}
    (h : resolveApp l n = .ok aid) :
    ∃ fs ∈ l, fs.fsType = "Application" ∧ fs.id = aid ∧
      normalize_application_name fs.name = normalize_application_name n := by
  rcases h1 : (l.filter (fun x => x.fsType == "Application" && x.name == n)).find?
      (fun x => normalize_application_name x.name == normalize_application_name n) with _ | fs
  · rcases h2 : (l.filter (fun x => x.fsType == "Application")).find?
        (fun x => normalize_application_name x.name == normalize_application_name n) with _ | fs
    · rw [resolveApp_miss l n h1 h2] at h
      simp at h
    · rw [resolveApp_queryHit l n fs h1 h2, Except.ok.injEq] at h
      subst h
      have hm := List.mem_filter.mp (List.mem_of_find?_eq_some h2)
      have hp := List.find?_some h2
      rw [beq_iff_eq] at hp
      refine ⟨fs, hm.1, ?_, rfl, hp⟩
      have hty := hm.2
      rwa [beq_iff_eq] at hty
  · rw [resolveApp_filterHit l n fs h1, Except.ok.injEq] at h
    subst h
    have hm := List.mem_filter.mp (List.mem_of_find?_eq_some h1)
    have hp := List.find?_some h1
    rw [beq_iff_eq] at hp
    have hty := hm.2
    rw [Bool.and_eq_true, beq_iff_eq, beq_iff_eq] at hty
    exact ⟨fs, hm.1, hty.1, rfl, hp⟩

/-! ## Event-trace bookkeeping -/

theorem extendNC_rfl (s : St) : EventsExtendNC s s :=
  ⟨[], by simp, by simp⟩

theorem extendNC_trans {s s' s'' : St} (h1 : EventsExtendNC s s') (h2 : EventsExtendNC s' s'') :
    EventsExtendNC s s'' := by
  obtain ⟨d1, hd1, hn1⟩ := h1
  obtain ⟨d2, hd2, hn2⟩ := h2
  refine ⟨d1 ++ d2, ?_, ?_⟩
  · rw [hd2, hd1, List.append_assoc]
  · intro e he
    rcases List.mem_append.mp he with h | h
    · exact hn1 e h
    · exact hn2 e h

theorem extendNC_emit (s : St) (e : ApiEvent) (he : e.isCreate = false) :
    EventsExtendNC s (emit s e) :=
  ⟨[e], rfl, by simpa⟩

theorem extendNC_of_events_eq {s s' : St} (d : List ApiEvent)
    (hd : s'.events = s.events ++ d) (hn : ∀ e ∈ d, e.isCreate = false) :
    EventsExtendNC s s' := ⟨d, hd, hn⟩

theorem beq_nat_comm (a b : Nat) : (a == b) = (b == a) := by
  by_cases h : a = b
  · simp [h]
  · simp [h, Ne.symm h]

/-! ## Characterizing the cleanup pass -/

/-- Full characterization of the cleanup loop: fact sheets and the fresh-id
counter are untouched, only non-creation requests are issued, the surviving
relations are exactly those not marked stale by some queue entry with their
id, and the pruned-record ids are exactly the stale queue entries' ids. -/
theorem cleanupLoop_spec (queue : List Relation) (s : St) (nm sn : String)
    (m : List (String × List String)) (ctx : RunCtx) :
    (cleanupLoop s queue nm sn m ctx).2.catalog.factSheets = s.catalog.factSheets ∧
    (cleanupLoop s queue nm sn m ctx).2.catalog.nextId = s.catalog.nextId ∧
    EventsExtendNC s (cleanupLoop s queue nm sn m ctx).2 ∧
    (cleanupLoop s queue nm sn m ctx).2.catalog.relations = s.catalog.relations.filter
      (fun rel => !(queue.any (fun q => staleFor s.catalog m sn q && q.id == rel.id))) ∧
    (cleanupLoop s queue nm sn m ctx).1.map DeletedRecord.relation_id =
      (queue.filter (fun q => staleFor s.catalog m sn q)).map Relation.id := by
  induction queue generalizing s with
  | nil =>
    refine ⟨rfl, rfl, extendNC_rfl s, ?_, rfl⟩
    simp [cleanupLoop]
  | cons q rest ih =>
    have hq1 : (get_factsheet_by_id s q.toId).1 = findById s.catalog q.toId := rfl
    have hq2 : (get_factsheet_by_id s q.toId).2 = emit s (.getFactSheet q.toId) := rfl
    rcases hfb : findById s.catalog q.toId with _ | app
    · have hst : staleFor s.catalog m sn q = false := by simp [staleFor, hfb]
      have hloop : cleanupLoop s (q :: rest) nm sn m ctx =
          cleanupLoop (emit s (.getFactSheet q.toId)) rest nm sn m ctx := by
        simp only [cleanupLoop, hq1, hq2, hfb]
      obtain ⟨i1, i2, i3, i4, i5⟩ := ih (emit s (.getFactSheet q.toId))
      rw [emit_catalog] at i1 i2 i4 i5
      rw [hloop]
      refine ⟨i1, i2, extendNC_trans (extendNC_emit s (.getFactSheet q.toId) rfl) i3, ?_, ?_⟩
      · rw [i4]
        apply List.filter_congr
        intro rel _
        simp [hst]
      · rw [i5, List.filter_cons_of_neg (by simp [hst])]
    · by_cases hmh : mapHas m app.name sn = true
      · have hst : staleFor s.catalog m sn q = false := by simp [staleFor, hfb, hmh]
        have hloop : cleanupLoop s (q :: rest) nm sn m ctx =
            cleanupLoop (emit s (.getFactSheet q.toId)) rest nm sn m ctx := by
          simp only [cleanupLoop, hq1, hq2, hfb, hmh, if_true]
        obtain ⟨i1, i2, i3, i4, i5⟩ := ih (emit s (.getFactSheet q.toId))
        rw [emit_catalog] at i1 i2 i4 i5
        rw [hloop]
        refine ⟨i1, i2, extendNC_trans (extendNC_emit s (.getFactSheet q.toId) rfl) i3, ?_, ?_⟩
        · rw [i4]
          apply List.filter_congr
          intro rel _
          simp [hst]
        · rw [i5, List.filter_cons_of_neg (by simp [hst])]
      · have hmh' : mapHas m app.name sn = false := by
          cases hmm : mapHas m app.name sn
          · rfl
          · exact absurd hmm hmh
        have hst : staleFor s.catalog m sn q = true := by simp [staleFor, hfb, hmh']
        set s2 : St :=
          { catalog := { s.catalog with
              relations := s.catalog.relations.filter (fun r => !(r.id == q.id)) },
            events := (s.events ++ [.getFactSheet q.toId]) ++
              [.deleteRelation q.toId q.id] } with hs2
        have hloop : cleanupLoop s (q :: rest) nm sn m ctx =
            (⟨q.id, nm, sn, q.toId, app.name, ctx.timestamp, ctx.user⟩ ::
               (cleanupLoop s2 rest nm sn m ctx).1,
             (cleanupLoop s2 rest nm sn m ctx).2) := by
          simp only [cleanupLoop, hq1, hq2, hfb, hmh', Bool.false_eq_true, if_false,
            delete_relation_eq, eq_self_iff_true, if_true]
          rfl
        obtain ⟨i1, i2, i3, i4, i5⟩ := ih s2
        rw [hloop]
        have hsfs : s2.catalog.factSheets = s.catalog.factSheets := rfl
        have hstale2 : ∀ q', staleFor s2.catalog m sn q' = staleFor s.catalog m sn q' :=
          fun _ => rfl
        refine ⟨i1, i2, ?_, ?_, ?_⟩
        · refine extendNC_trans (extendNC_of_events_eq
            [.getFactSheet q.toId, .deleteRelation q.toId q.id]
            (by simp [hs2]) ?_) i3
          intro e he
          rcases List.mem_cons.mp he with rfl | he
          · rfl
          · rw [List.mem_singleton.mp he]
            rfl
        · rw [i4]
          have : s2.catalog.relations =
              s.catalog.relations.filter (fun r => !(r.id == q.id)) := rfl
          rw [this, List.filter_filter]
          apply List.filter_congr
          intro rel _
          simp only [List.any_cons, hstale2, hst, Bool.true_and, Bool.not_or]
          rw [beq_nat_comm q.id rel.id]
          rw [Bool.and_comm]
        · simp only [List.map_cons, i5]
          rw [List.filter_cons_of_pos (by simp [hst])]
          simp [hstale2]

/-- Full characterization of `cleanup_it_component_relations` in terms of
the initial state: fact sheets and the id counter are untouched, only
non-creation requests are issued, and (when the component name has the
`AZURE-` prefix) exactly the stale relations of this component are removed
and recorded. -/
theorem cleanup_spec (s : St) (cid : Nat) (rs : List Resource) (ctx : RunCtx) :
    (cleanup_it_component_relations s cid rs ctx).2.catalog.factSheets = s.catalog.factSheets ∧
    (cleanup_it_component_relations s cid rs ctx).2.catalog.nextId = s.catalog.nextId ∧
    EventsExtendNC s (cleanup_it_component_relations s cid rs ctx).2 ∧
    ((("AZURE-".data.isPrefixOf
        (((findById s.catalog cid).map FactSheet.name).getD "").data) = true →
      (cleanup_it_component_relations s cid rs ctx).2.catalog.relations =
        s.catalog.relations.filter (fun rel => !((relationsOf s.catalog cid).any
          (fun q => staleFor s.catalog (map_resources_by_app_and_service rs)
            (pyLower ⟨(((findById s.catalog cid).map FactSheet.name).getD "").data.drop 6⟩) q &&
            q.id == rel.id))) ∧
      (cleanup_it_component_relations s cid rs ctx).1.map DeletedRecord.relation_id =
        ((relationsOf s.catalog cid).filter
          (fun q => staleFor s.catalog (map_resources_by_app_and_service rs)
            (pyLower ⟨(((findById s.catalog cid).map FactSheet.name).getD "").data.drop 6⟩)
            q)).map Relation.id) ∧
     (("AZURE-".data.isPrefixOf
        (((findById s.catalog cid).map FactSheet.name).getD "").data) = false →
      (cleanup_it_component_relations s cid rs ctx).2.catalog.relations =
        s.catalog.relations ∧
      (cleanup_it_component_relations s cid rs ctx).1 = [])) := by
  have hq1 : (get_factsheet_by_id s cid).1 = findById s.catalog cid := rfl
  have hq2 : (get_factsheet_by_id s cid).2 = emit s (.getFactSheet cid) := rfl
  rcases hpre : "AZURE-".data.isPrefixOf
      (((findById s.catalog cid).map FactSheet.name).getD "").data with _ | _
  · have hcl : cleanup_it_component_relations s cid rs ctx =
        ([], emit s (.getFactSheet cid)) := by
      simp only [cleanup_it_component_relations, hq1, hq2, hpre, Bool.not_false, if_true]
    rw [hcl]
    exact ⟨rfl, rfl, extendNC_emit s (.getFactSheet cid) rfl,
      fun h => absurd h (by simp), fun _ => ⟨rfl, rfl⟩⟩
  · by_cases hemp : (relationsOf s.catalog cid).isEmpty = true
    · have hcl : cleanup_it_component_relations s cid rs ctx =
          ([], emit (emit s (.getFactSheet cid)) (.getRelations cid)) := by
        simp only [cleanup_it_component_relations, hq1, hq2, hpre, Bool.not_true,
          Bool.false_eq_true, if_false, emit_catalog, hemp, if_true]
      rw [hcl]
      have hq : relationsOf s.catalog cid = [] := List.isEmpty_iff.mp hemp
      refine ⟨rfl, rfl,
        extendNC_trans (extendNC_emit s (.getFactSheet cid) rfl)
          (extendNC_emit (emit s (.getFactSheet cid)) (.getRelations cid) rfl),
        fun _ => ⟨?_, ?_⟩, fun h => absurd h (by simp)⟩
      · rw [hq]
        simp [emit_catalog]
      · rw [hq]
        rfl
    · have hemp' : (relationsOf s.catalog cid).isEmpty = false := by
        cases he : (relationsOf s.catalog cid).isEmpty
        · rfl
        · exact absurd he hemp
      have hcl : cleanup_it_component_relations s cid rs ctx =
          cleanupLoop (emit (emit s (.getFactSheet cid)) (.getRelations cid))
            (relationsOf s.catalog cid)
            (((findById s.catalog cid).map FactSheet.name).getD "")
            (pyLower ⟨(((findById s.catalog cid).map FactSheet.name).getD "").data.drop 6⟩)
            (map_resources_by_app_and_service rs) ctx := by
        simp only [cleanup_it_component_relations, hq1, hq2, hpre, Bool.not_true,
          Bool.false_eq_true, if_false, emit_catalog, hemp']
      obtain ⟨i1, i2, i3, i4, i5⟩ := cleanupLoop_spec (relationsOf s.catalog cid)
        (emit (emit s (.getFactSheet cid)) (.getRelations cid))
        (((findById s.catalog cid).map FactSheet.name).getD "")
        (pyLower ⟨(((findById s.catalog cid).map FactSheet.name).getD "").data.drop 6⟩)
        (map_resources_by_app_and_service rs) ctx
      rw [emit_catalog, emit_catalog] at i1 i2 i4 i5
      rw [hcl]
      refine ⟨i1, i2,
        extendNC_trans (extendNC_trans (extendNC_emit s (.getFactSheet cid) rfl)
          (extendNC_emit (emit s (.getFactSheet cid)) (.getRelations cid) rfl)) i3,
        fun _ => ⟨i4, i5⟩, fun h => absurd h (by simp)⟩

/-! ## Unfolding `process_it_component` along its control-flow paths -/

theorem process_none (s : St) (r : Resource) (all : Option (List Resource)) (ctx : RunCtx)
    (h : getProjectTag r = none) : process_it_component s r all ctx = (none, s) := by
  simp only [process_it_component, h]

/-- Path: component pre-exists, application resolution fails; full set
supplied, so the cleanup pass runs. -/
theorem process_exist_err (s : St) (r : Resource) (rs' : List Resource) (ctx : RunCtx)
    (t A e : String) (compFs : FactSheet) (sg : St)
    (ht : getProjectTag r = some t)
    (hA : PROJECT_APP_MAPPING.lookup t = some A)
    (hit : findITC s.catalog ("AZURE-" ++ pyUpper r.service) = some compFs)
    (hga : get_application_id (emit s (.searchITComponent ("AZURE-" ++ pyUpper r.service))) A =
      (.error e, sg)) :
    process_it_component s r (some rs') ctx =
      (some { it_component := compFs,
              relations := [{ project := t, application := A, relation := none,
                              status := none, error := some e }],
              deleted_relations :=
                (cleanup_it_component_relations sg compFs.id rs' ctx).1,
              timestamp := ctx.timestamp, user := ctx.user },
       (cleanup_it_component_relations sg compFs.id rs' ctx).2) := by
  simp only [process_it_component, ht, get_existing_it_component_eq, hit, hA, Option.getD_some,
    hga]

/-- Path: component pre-exists, application resolves, relation already
present; cleanup runs. -/
theorem process_exist_found (s : St) (r : Resource) (rs' : List Resource) (ctx : RunCtx)
    (t A : String) (compFs : FactSheet) (aid : Nat) (sg : St) (rel0 : Relation)
    (ht : getProjectTag r = some t)
    (hA : PROJECT_APP_MAPPING.lookup t = some A)
    (hit : findITC s.catalog ("AZURE-" ++ pyUpper r.service) = some compFs)
    (hga : get_application_id (emit s (.searchITComponent ("AZURE-" ++ pyUpper r.service))) A =
      (.ok aid, sg))
    (hchk : (relationsOf sg.catalog compFs.id).find? (fun q => q.toId == aid) = some rel0) :
    process_it_component s r (some rs') ctx =
      (some { it_component := compFs,
              relations := [{ project := t, application := A, relation := some rel0,
                              status := some "existing", error := none }],
              deleted_relations :=
                (cleanup_it_component_relations (emit sg (.getRelations compFs.id))
                  compFs.id rs' ctx).1,
              timestamp := ctx.timestamp, user := ctx.user },
       (cleanup_it_component_relations (emit sg (.getRelations compFs.id)) compFs.id rs' ctx).2) := by
  simp only [process_it_component, ht, get_existing_it_component_eq, hit, hA, Option.getD_some,
    hga, check_existing_relation_eq, emit_catalog, hchk]

/-- Path: component pre-exists, application resolves, relation absent, so a
new relation is created; cleanup runs. -/
theorem process_exist_new (s : St) (r : Resource) (rs' : List Resource) (ctx : RunCtx)
    (t A : String) (compFs : FactSheet) (aid : Nat) (sg : St)
    (ht : getProjectTag r = some t)
    (hA : PROJECT_APP_MAPPING.lookup t = some A)
    (hit : findITC s.catalog ("AZURE-" ++ pyUpper r.service) = some compFs)
    (hga : get_application_id (emit s (.searchITComponent ("AZURE-" ++ pyUpper r.service))) A =
      (.ok aid, sg))
    (hchk : (relationsOf sg.catalog compFs.id).find? (fun q => q.toId == aid) = none) :
    process_it_component s r (some rs') ctx =
      (some { it_component := compFs,
              relations := [{ project := t, application := A,
                              relation := some (create_relation (emit sg (.getRelations compFs.id))
                                compFs.id aid ctx).1,
                              status := some "new", error := none }],
              deleted_relations :=
                (cleanup_it_component_relations
                  (create_relation (emit sg (.getRelations compFs.id)) compFs.id aid ctx).2
                  compFs.id rs' ctx).1,
              timestamp := ctx.timestamp, user := ctx.user },
       (cleanup_it_component_relations
         (create_relation (emit sg (.getRelations compFs.id)) compFs.id aid ctx).2
         compFs.id rs' ctx).2) := by
  simp only [process_it_component, ht, get_existing_it_component_eq, hit, hA, Option.getD_some,
    hga, check_existing_relation_eq, emit_catalog, hchk]

/-- Path: component pre-exists, application resolves, relation already
present; no full set supplied, so no cleanup. -/
theorem process_exist_found_noall (s : St) (r : Resource) (ctx : RunCtx)
    (t A : String) (compFs : FactSheet) (aid : Nat) (sg : St) (rel0 : Relation)
    (ht : getProjectTag r = some t)
    (hA : PROJECT_APP_MAPPING.lookup t = some A)
    (hit : findITC s.catalog ("AZURE-" ++ pyUpper r.service) = some compFs)
    (hga : get_application_id (emit s (.searchITComponent ("AZURE-" ++ pyUpper r.service))) A =
      (.ok aid, sg))
    (hchk : (relationsOf sg.catalog compFs.id).find? (fun q => q.toId == aid) = some rel0) :
    process_it_component s r none ctx =
      (some { it_component := compFs,
              relations := [{ project := t, application := A, relation := some rel0,
                              status := some "existing", error := none }],
              deleted_relations := [],
              timestamp := ctx.timestamp, user := ctx.user },
       emit sg (.getRelations compFs.id)) := by
  simp only [process_it_component, ht, get_existing_it_component_eq, hit, hA, Option.getD_some,
    hga, check_existing_relation_eq, emit_catalog, hchk]

/-- Path: component pre-exists, application resolves, relation absent, a new
relation is created; no full set supplied, so no cleanup. -/
theorem process_exist_new_noall (s : St) (r : Resource) (ctx : RunCtx)
    (t A : String) (compFs : FactSheet) (aid : Nat) (sg : St)
    (ht : getProjectTag r = some t)
    (hA : PROJECT_APP_MAPPING.lookup t = some A)
    (hit : findITC s.catalog ("AZURE-" ++ pyUpper r.service) = some compFs)
    (hga : get_application_id (emit s (.searchITComponent ("AZURE-" ++ pyUpper r.service))) A =
      (.ok aid, sg))
    (hchk : (relationsOf sg.catalog compFs.id).find? (fun q => q.toId == aid) = none) :
    process_it_component s r none ctx =
      (some { it_component := compFs,
              relations := [{ project := t, application := A,
                              relation := some (create_relation (emit sg (.getRelations compFs.id))
                                compFs.id aid ctx).1,
                              status := some "new", error := none }],
              deleted_relations := [],
              timestamp := ctx.timestamp, user := ctx.user },
       (create_relation (emit sg (.getRelations compFs.id)) compFs.id aid ctx).2) := by
  simp only [process_it_component, ht, get_existing_it_component_eq, hit, hA, Option.getD_some,
    hga, check_existing_relation_eq, emit_catalog, hchk]

/-- Path: component pre-exists, application resolution fails; no full set
supplied, so no cleanup. -/
theorem process_exist_err_noall (s : St) (r : Resource) (ctx : RunCtx)
    (t A e : String) (compFs : FactSheet) (sg : St)
    (ht : getProjectTag r = some t)
    (hA : PROJECT_APP_MAPPING.lookup t = some A)
    (hit : findITC s.catalog ("AZURE-" ++ pyUpper r.service) = some compFs)
    (hga : get_application_id (emit s (.searchITComponent ("AZURE-" ++ pyUpper r.service))) A =
      (.error e, sg)) :
    process_it_component s r none ctx =
      (some { it_component := compFs,
              relations := [{ project := t, application := A, relation := none,
                              status := none, error := some e }],
              deleted_relations := [],
              timestamp := ctx.timestamp, user := ctx.user },
       sg) := by
  simp only [process_it_component, ht, get_existing_it_component_eq, hit, hA, Option.getD_some,
    hga]

/-- Path: component freshly created (so no cleanup regardless of the
supplied set), application resolution fails. -/
theorem process_create_err (s : St) (r : Resource) (all : Option (List Resource)) (ctx : RunCtx)
    (t A e : String) (sg : St)
    (ht : getProjectTag r = some t)
    (hA : PROJECT_APP_MAPPING.lookup t = some A)
    (hit : findITC s.catalog ("AZURE-" ++ pyUpper r.service) = none)
    (hga : get_application_id
      (create_it_component_factsheet (emit s (.searchITComponent ("AZURE-" ++ pyUpper r.service)))
        r ctx false).2 A = (.error e, sg)) :
    process_it_component s r all ctx =
      (some { it_component :=
                (create_it_component_factsheet
                  (emit s (.searchITComponent ("AZURE-" ++ pyUpper r.service))) r ctx false).1,
              relations := [{ project := t, application := A, relation := none,
                              status := none, error := some e }],
              deleted_relations := [],
              timestamp := ctx.timestamp, user := ctx.user },
       sg) := by
  cases all <;>
    simp only [process_it_component, ht, get_existing_it_component_eq, hit, hA, Option.getD_some,
      hga]

/-- Path: component freshly created, application resolves, relation already
present (no cleanup). -/
theorem process_create_found (s : St) (r : Resource) (all : Option (List Resource)) (ctx : RunCtx)
    (t A : String) (aid : Nat) (sg : St) (rel0 : Relation)
    (ht : getProjectTag r = some t)
    (hA : PROJECT_APP_MAPPING.lookup t = some A)
    (hit : findITC s.catalog ("AZURE-" ++ pyUpper r.service) = none)
    (hga : get_application_id
      (create_it_component_factsheet (emit s (.searchITComponent ("AZURE-" ++ pyUpper r.service)))
        r ctx false).2 A = (.ok aid, sg))
    (hchk : (relationsOf sg.catalog
        (create_it_component_factsheet
          (emit s (.searchITComponent ("AZURE-" ++ pyUpper r.service))) r ctx false).1.id).find?
        (fun q => q.toId == aid) = some rel0) :
    process_it_component s r all ctx =
      (some { it_component :=
                (create_it_component_factsheet
                  (emit s (.searchITComponent ("AZURE-" ++ pyUpper r.service))) r ctx false).1,
              relations := [{ project := t, application := A, relation := some rel0,
                              status := some "existing", error := none }],
              deleted_relations := [],
              timestamp := ctx.timestamp, user := ctx.user },
       emit sg (.getRelations
         (create_it_component_factsheet
           (emit s (.searchITComponent ("AZURE-" ++ pyUpper r.service))) r ctx false).1.id)) := by
  cases all <;>
    simp only [process_it_component, ht, get_existing_it_component_eq, hit, hA, Option.getD_some,
      hga, check_existing_relation_eq, emit_catalog, hchk]

/-- Path: component freshly created, application resolves, relation absent,
a new relation is created (no cleanup). -/
theorem process_create_new (s : St) (r : Resource) (all : Option (List Resource)) (ctx : RunCtx)
    (t A : String) (aid : Nat) (sg : St)
    (ht : getProjectTag r = some t)
    (hA : PROJECT_APP_MAPPING.lookup t = some A)
    (hit : findITC s.catalog ("AZURE-" ++ pyUpper r.service) = none)
    (hga : get_application_id
      (create_it_component_factsheet (emit s (.searchITComponent ("AZURE-" ++ pyUpper r.service)))
        r ctx false).2 A = (.ok aid, sg))
    (hchk : (relationsOf sg.catalog
        (create_it_component_factsheet
          (emit s (.searchITComponent ("AZURE-" ++ pyUpper r.service))) r ctx false).1.id).find?
        (fun q => q.toId == aid) = none) :
    process_it_component s r all ctx =
      (some { it_component :=
                (create_it_component_factsheet
                  (emit s (.searchITComponent ("AZURE-" ++ pyUpper r.service))) r ctx false).1,
              relations := [{ project := t, application := A,
                              relation := some (create_relation
                                (emit sg (.getRelations
                                  (create_it_component_factsheet
                                    (emit s (.searchITComponent ("AZURE-" ++ pyUpper r.service)))
                                    r ctx false).1.id))
                                (create_it_component_factsheet
                                  (emit s (.searchITComponent ("AZURE-" ++ pyUpper r.service)))
                                  r ctx false).1.id aid ctx).1,
                              status := some "new", error := none }],
              deleted_relations := [],
              timestamp := ctx.timestamp, user := ctx.user },
       (create_relation
         (emit sg (.getRelations
           (create_it_component_factsheet
             (emit s (.searchITComponent ("AZURE-" ++ pyUpper r.service))) r ctx false).1.id))
         (create_it_component_factsheet
           (emit s (.searchITComponent ("AZURE-" ++ pyUpper r.service))) r ctx false).1.id
         aid ctx).2) := by
  cases all <;>
    simp only [process_it_component, ht, get_existing_it_component_eq, hit, hA, Option.getD_some,
      hga, check_existing_relation_eq, emit_catalog, hchk]

/-! ## Run invariants -/

theorem getProjectTag_lookup {r : Resource} {t : String} (h : getProjectTag r = some t) :
    ∃ A, PROJECT_APP_MAPPING.lookup t = some A := by
  unfold getProjectTag at h
  rcases hf : r.tags.find? (fun tag =>
      pyLower tag.key == "project" && (PROJECT_APP_MAPPING.lookup tag.value).isSome) with _ | tag
  · rw [hf] at h
    cases h
  · rw [hf] at h
    have hp := List.find?_some hf
    rw [Bool.and_eq_true] at hp
    simp only [Option.map_some'] at h
    cases h
    exact Option.isSome_iff_exists.mp hp.2

theorem exactOk_apply {fs : FactSheet} {r : Resource} {A : String}
    (h : exactOk fs r = true) (hA : appNameOf r = some A)
    (hn : normalize_application_name fs.name = normalize_application_name A) : fs.name = A := by
  unfold exactOk at h
  rw [hA, Bool.or_eq_true, Bool.not_eq_true', beq_eq_false_iff_ne, beq_iff_eq] at h
  rcases h with h | h
  · exact absurd hn h
  · exact h

theorem mem_of_apps {c₀ c : Catalog} (happs : appsOf c = appsOf c₀) {fs : FactSheet}
    (hm : fs ∈ c₀.factSheets) (hty : fs.fsType = "Application") : fs ∈ c.factSheets := by
  have h1 : fs ∈ appsOf c₀ := List.mem_filter.mpr ⟨hm, by simp [hty]⟩
  rw [← happs] at h1
  exact (List.mem_filter.mp h1).1

/-- Under the exact-name assumption, the application resolution lands on a
sheet named exactly the mapped application name. -/
theorem resolve_app_exact {c₀ : Catalog} {rs : List Resource} (Hex : ExactNames c₀ rs)
    {r : Resource} {A : String} {aid : Nat} (hr : r ∈ rs) (hA : appNameOf r = some A)
    (hok : resolveApp c₀.factSheets A = .ok aid) :
    ∃ appFs ∈ c₀.factSheets, appFs.fsType = "Application" ∧ appFs.id = aid ∧
      appFs.name = A := by
  obtain ⟨fs, hm, hty, hid, hnorm⟩ := resolveApp_ok_spec hok
  exact ⟨fs, hm, hty, hid, exactOk_apply (Hex fs hm hty r hr) hA hnorm⟩

theorem appsOf_congr {c c' : Catalog} (h : c'.factSheets = c.factSheets) :
    appsOf c' = appsOf c := by
  unfold appsOf
  rw [h]

theorem findITC_congr {c c' : Catalog} (h : c'.factSheets = c.factSheets) (n : String) :
    findITC c' n = findITC c n := by
  unfold findITC
  rw [h]

theorem findById_congr {c c' : Catalog} (h : c'.factSheets = c.factSheets) (i : Nat) :
    findById c' i = findById c i := by
  unfold findById
  rw [h]

theorem wf_relations_sublist {c c' : Catalog} (h : c.wf)
    (hf : c'.factSheets = c.factSheets) (hn : c'.nextId = c.nextId)
    (hr : c'.relations.Sublist c.relations) : c'.wf := by
  obtain ⟨h1, h2, h3, h4⟩ := h
  refine ⟨by rw [hf]; exact h1, h2.sublist (hr.map _), ?_, ?_⟩
  · intro fs hm
    rw [hf] at hm
    rw [hn]
    exact h3 fs hm
  · intro rel hm
    rw [hn]
    exact h4 rel (hr.subset hm)

theorem bool_eq_false_of_ne_true {b : Bool} (h : ¬ b = true) : b = false := by
  cases hb : b
  · rfl
  · exact absurd hb h

theorem cleanup_wf (s : St) (cid : Nat) (rs' : List Resource) (ctx : RunCtx)
    (h : s.catalog.wf) : (cleanup_it_component_relations s cid rs' ctx).2.catalog.wf := by
  obtain ⟨i1, i2, -, i4, i5⟩ := cleanup_spec s cid rs' ctx
  by_cases hpre : ("AZURE-".data.isPrefixOf
      (((findById s.catalog cid).map FactSheet.name).getD "").data) = true
  · refine wf_relations_sublist h i1 i2 ?_
    rw [(i4 hpre).1]
    exact List.filter_sublist _
  · refine wf_relations_sublist h i1 i2 ?_
    rw [(i5 (bool_eq_false_of_ne_true hpre)).1]

/-- A relation whose (component, application) pair is still backed by a
current resource — or which does not even belong to the cleaned component —
survives the cleanup pass. -/
theorem cleanup_keeps (s : St) (cid : Nat) (rs' : List Resource) (ctx : RunCtx)
    (hwf : s.catalog.wf) {rel : Relation} (hrel : rel ∈ s.catalog.relations)
    (hsafe : rel.fromId = cid → ∃ r ∈ rs', ∃ A compFs appFs,
      appNameOf r = some A ∧
      findById s.catalog cid = some compFs ∧
      compFs.name = "AZURE-" ++ pyUpper r.service ∧
      findById s.catalog rel.toId = some appFs ∧ appFs.name = A) :
    rel ∈ (cleanup_it_component_relations s cid rs' ctx).2.catalog.relations := by
  obtain ⟨-, -, -, i4, i5⟩ := cleanup_spec s cid rs' ctx
  by_cases hpre : ("AZURE-".data.isPrefixOf
      (((findById s.catalog cid).map FactSheet.name).getD "").data) = true
  · rw [(i4 hpre).1]
    refine List.mem_filter.mpr ⟨hrel, ?_⟩
    rw [Bool.not_eq_true']
    rw [List.any_eq_false]
    intro q hq
    by_cases hid : (q.id == rel.id) = true
    · have hqmem : q ∈ s.catalog.relations := List.mem_of_mem_filter hq
      have hqeq : q = rel := eq_of_nodup_ids Relation.id hwf.2.1 hqmem hrel (beq_iff_eq.mp hid)
      subst hqeq
      have hfrom : q.fromId = cid := by
        have := (List.mem_filter.mp hq).2
        rwa [beq_iff_eq] at this
      obtain ⟨r, hrmem, A, compFs, appFs, hAname, hfid, hcname, hfapp, happname⟩ := hsafe hfrom
      have hsn : pyLower ⟨(((findById s.catalog cid).map FactSheet.name).getD "").data.drop 6⟩ =
          pyLower r.service := by
        rw [hfid]
        simp only [Option.map_some', Option.getD_some]
        rw [hcname]
        exact cleanup_service_name r.service
      have hmap : mapHas (map_resources_by_app_and_service rs') appFs.name
          (pyLower ⟨(((findById s.catalog cid).map FactSheet.name).getD "").data.drop 6⟩) =
          true := by
        rw [hsn, happname]
        exact (mapHas_map_resources rs' A (pyLower r.service)).mpr ⟨r, hrmem, hAname, rfl⟩
      simp [staleFor, hfapp, hmap]
    · simp [hid]
  · rw [(i5 (bool_eq_false_of_ne_true hpre)).1]
    exact hrel

/-- The cleanup pass cannot break `Established` under the exact-name
assumption: every established relation is still backed, hence kept. -/
theorem cleanup_preserves_established (c₀ : Catalog) (rs : List Resource) (ctx : RunCtx)
    (Hex : ExactNames c₀ rs) (s' : St) (cid : Nat)
    (hwf : s'.catalog.wf) (happs : appsOf s'.catalog = appsOf c₀)
    (r' : Resource) (hr' : r' ∈ rs) (hE : Established c₀ s'.catalog r') :
    Established c₀ (cleanup_it_component_relations s' cid rs ctx).2.catalog r' := by
  intro t' A' aid' h1 h2 h3
  obtain ⟨compFs', rel', hitc', hmem', hfrom', hto'⟩ := hE t' A' aid' h1 h2 h3
  have hfs : (cleanup_it_component_relations s' cid rs ctx).2.catalog.factSheets =
      s'.catalog.factSheets := (cleanup_spec s' cid rs ctx).1
  refine ⟨compFs', rel', ?_, ?_, hfrom', hto'⟩
  · rw [findITC_congr hfs]
    exact hitc'
  · apply cleanup_keeps s' cid rs ctx hwf hmem'
    intro hfromcid
    have hcomp_mem : compFs' ∈ s'.catalog.factSheets := (findITC_spec hitc').1
    have hname' : compFs'.name = "AZURE-" ++ pyUpper r'.service := (findITC_spec hitc').2.2
    have hfid : findById s'.catalog cid = some compFs' := by
      rw [← hfromcid, hfrom']
      exact findById_of_mem hwf.1 hcomp_mem
    have hAname : appNameOf r' = some A' := by simp [appNameOf, h1, h2]
    obtain ⟨appFs, happmem, happty, happid, happname⟩ := resolve_app_exact Hex hr' hAname h3
    have happmem' : appFs ∈ s'.catalog.factSheets := mem_of_apps happs happmem happty
    have hfapp : findById s'.catalog rel'.toId = some appFs := by
      rw [hto', ← happid]
      exact findById_of_mem hwf.1 happmem'
    exact ⟨r', hr', A', compFs', appFs, hAname, hfid, hname', hfapp, happname⟩

theorem wf_of_parts {c : Catalog} (h : c.wf) {c' : Catalog}
    (hf : c'.factSheets = c.factSheets) (hrl : c'.relations = c.relations)
    (hn : c'.nextId = c.nextId) : c'.wf := by
  unfold Catalog.wf at *
  rw [hf, hrl, hn]
  exact h

theorem compReady_mono {c c' : Catalog} (ext : List FactSheet)
    (hfs : c'.factSheets = c.factSheets ++ ext) (r' : Resource) (h : CompReady c r') :
    CompReady c' r' := by
  intro t h1
  have h2 := h t h1
  rcases ho : findITC c ("AZURE-" ++ pyUpper r'.service) with _ | fs
  · rw [ho] at h2
    cases h2
  · rw [findITC_mono ext hfs ho]
    rfl

theorem compReady_same {c c' : Catalog} (hfs : c'.factSheets = c.factSheets)
    (r' : Resource) (h : CompReady c r') : CompReady c' r' := by
  intro t h1
  rw [findITC_congr hfs]
  exact h t h1

theorem established_extend (c₀ : Catalog) {c c' : Catalog} (extF : List FactSheet)
    (extR : List Relation) (hfs : c'.factSheets = c.factSheets ++ extF)
    (hrels : c'.relations = c.relations ++ extR) (r' : Resource)
    (h : Established c₀ c r') : Established c₀ c' r' := by
  intro t A aid h1 h2 h3
  obtain ⟨cf, rl, hitc, hm, hf2, ht2⟩ := h t A aid h1 h2 h3
  exact ⟨cf, rl, findITC_mono extF hfs hitc,
    by rw [hrels]; exact List.mem_append_left _ hm, hf2, ht2⟩

theorem established_same (c₀ : Catalog) {c c' : Catalog}
    (hfs : c'.factSheets = c.factSheets) (hrels : c'.relations = c.relations)
    (r' : Resource) (h : Established c₀ c r') : Established c₀ c' r' := by
  intro t A aid h1 h2 h3
  obtain ⟨cf, rl, hitc, hm, hf2, ht2⟩ := h t A aid h1 h2 h3
  exact ⟨cf, rl, by rw [findITC_congr hfs]; exact hitc, by rw [hrels]; exact hm, hf2, ht2⟩

theorem established_intro {c₀ c : Catalog} {r : Resource} {t A : String} {aid : Nat}
    (ht : getProjectTag r = some t) (hA : PROJECT_APP_MAPPING.lookup t = some A)
    (hres : resolveApp c₀.factSheets A = .ok aid)
    (h : ∃ compFs rel, findITC c ("AZURE-" ++ pyUpper r.service) = some compFs ∧
      rel ∈ c.relations ∧ rel.fromId = compFs.id ∧ rel.toId = aid) :
    Established c₀ c r := by
  intro t' A' aid' h1 h2 h3
  rw [ht] at h1
  injection h1 with h1e
  subst h1e
  rw [hA] at h2
  injection h2 with h2e
  subst h2e
  rw [hres] at h3
  injection h3 with h3e
  subst h3e
  exact h

theorem established_of_error {c₀ c : Catalog} {r : Resource} {t A e : String}
    (ht : getProjectTag r = some t) (hA : PROJECT_APP_MAPPING.lookup t = some A)
    (hres : resolveApp c₀.factSheets A = .error e) : Established c₀ c r := by
  intro t' A' aid' h1 h2 h3
  rw [ht] at h1
  injection h1 with h1e
  subst h1e
  rw [hA] at h2
  injection h2 with h2e
  subst h2e
  rw [hres] at h3
  exact Except.noConfusion h3

theorem compReady_of_tag_none {c : Catalog} {r : Resource}
    (ht : getProjectTag r = none) : CompReady c r := by
  intro t h1
  rw [ht] at h1
  cases h1

theorem established_of_tag_none {c₀ c : Catalog} {r : Resource}
    (ht : getProjectTag r = none) : Established c₀ c r := by
  intro t A aid h1 _ _
  rw [ht] at h1
  cases h1

/-- Bundled invariant transfer across one cleanup call. -/
theorem cleanup_invariants (c₀ : Catalog) (rs : List Resource) (ctx : RunCtx)
    (Hex : ExactNames c₀ rs) (B : St) (cid : Nat)
    (hBwf : B.catalog.wf) (happsB : appsOf B.catalog = appsOf c₀) :
    (cleanup_it_component_relations B cid rs ctx).2.catalog.wf ∧
    appsOf (cleanup_it_component_relations B cid rs ctx).2.catalog = appsOf c₀ ∧
    (∀ r', CompReady B.catalog r' →
      CompReady (cleanup_it_component_relations B cid rs ctx).2.catalog r') ∧
    (∀ r', r' ∈ rs → Established c₀ B.catalog r' →
      Established c₀ (cleanup_it_component_relations B cid rs ctx).2.catalog r') := by
  obtain ⟨c1, c2, -, -, -⟩ := cleanup_spec B cid rs ctx
  refine ⟨cleanup_wf B cid rs ctx hBwf, ?_, ?_, ?_⟩
  · rw [appsOf_congr c1]
    exact happsB
  · intro r' h
    exact compReady_same c1 r' h
  · intro r' hmem h
    exact cleanup_preserves_established c₀ rs ctx Hex B cid hBwf happsB r' hmem h

/-- The per-resource step of the main loop preserves the run invariant,
preserves established components and relations of every resource of the
set, and establishes them for the processed resource. -/
theorem process_step (c₀ : Catalog) (rs : List Resource) (ctx : RunCtx)
    (Hex : ExactNames c₀ rs) (s : St) (r : Resource)
    (hwf : s.catalog.wf) (happs : appsOf s.catalog = appsOf c₀) (hr : r ∈ rs) :
    (process_it_component s r (some rs) ctx).2.catalog.wf ∧
    appsOf (process_it_component s r (some rs) ctx).2.catalog = appsOf c₀ ∧
    (∀ r', CompReady s.catalog r' →
      CompReady (process_it_component s r (some rs) ctx).2.catalog r') ∧
    (∀ r', r' ∈ rs → Established c₀ s.catalog r' →
      Established c₀ (process_it_component s r (some rs) ctx).2.catalog r') ∧
    CompReady (process_it_component s r (some rs) ctx).2.catalog r ∧
    Established c₀ (process_it_component s r (some rs) ctx).2.catalog r := by
  rcases ht : getProjectTag r with _ | t
  · rw [process_none s r (some rs) ctx ht]
    exact ⟨hwf, happs, fun r' h => h, fun r' _ h => h,
      compReady_of_tag_none ht, established_of_tag_none ht⟩
  · obtain ⟨A, hA⟩ := getProjectTag_lookup ht
    have hAname : appNameOf r = some A := by simp [appNameOf, ht, hA]
    rcases hit : findITC s.catalog ("AZURE-" ++ pyUpper r.service) with _ | compFs
    · -- component freshly created; no cleanup pass
      obtain ⟨g1, g2, g3⟩ := get_application_id_spec
        (create_it_component_factsheet
          (emit s (.searchITComponent ("AZURE-" ++ pyUpper r.service))) r ctx false).2 A
      have hcf := create_it_component_new
        (emit s (.searchITComponent ("AZURE-" ++ pyUpper r.service))) r ctx hit
      have hcf1 : (create_it_component_factsheet
          (emit s (.searchITComponent ("AZURE-" ++ pyUpper r.service))) r ctx false).1 =
          ⟨s.catalog.nextId, "ITComponent", "AZURE-" ++ pyUpper r.service, "ACTIVE",
            "Azure " ++ r.service ++ " resource", ctx.today⟩ := by
        rw [hcf]
        rfl
      have hcf2fs : (create_it_component_factsheet
          (emit s (.searchITComponent ("AZURE-" ++ pyUpper r.service))) r ctx false).2.catalog.factSheets =
          s.catalog.factSheets ++
            [⟨s.catalog.nextId, "ITComponent", "AZURE-" ++ pyUpper r.service, "ACTIVE",
              "Azure " ++ r.service ++ " resource", ctx.today⟩] := by
        rw [hcf]
        rfl
      have hcf2rel : (create_it_component_factsheet
          (emit s (.searchITComponent ("AZURE-" ++ pyUpper r.service))) r ctx false).2.catalog.relations =
          s.catalog.relations := by
        rw [hcf]
        rfl
      have hwf2 : (create_it_component_factsheet
          (emit s (.searchITComponent ("AZURE-" ++ pyUpper r.service))) r ctx false).2.catalog.wf := by
        refine wf_of_parts (wf_create_factsheet hwf
          ⟨s.catalog.nextId, "ITComponent", "AZURE-" ++ pyUpper r.service, "ACTIVE",
            "Azure " ++ r.service ++ " resource", ctx.today⟩ rfl) hcf2fs hcf2rel ?_
        rw [hcf]
        rfl
      have hitc2 : findITC (create_it_component_factsheet
          (emit s (.searchITComponent ("AZURE-" ++ pyUpper r.service))) r ctx false).2.catalog
          ("AZURE-" ++ pyUpper r.service) =
          some ⟨s.catalog.nextId, "ITComponent", "AZURE-" ++ pyUpper r.service, "ACTIVE",
            "Azure " ++ r.service ++ " resource", ctx.today⟩ :=
        findITC_none_new hit _ rfl rfl hcf2fs
      have happs2 : appsOf (create_it_component_factsheet
          (emit s (.searchITComponent ("AZURE-" ++ pyUpper r.service))) r ctx false).2.catalog =
          appsOf c₀ := by
        rw [appsOf_append_IT _ rfl hcf2fs]
        exact happs
      have hresolve : (get_application_id (create_it_component_factsheet
          (emit s (.searchITComponent ("AZURE-" ++ pyUpper r.service))) r ctx false).2 A).1 =
          resolveApp c₀.factSheets A := by
        rw [g1]
        exact resolveApp_congr happs2 A
      have hsgc : (get_application_id (create_it_component_factsheet
          (emit s (.searchITComponent ("AZURE-" ++ pyUpper r.service))) r ctx false).2 A).2.catalog =
          (create_it_component_factsheet
            (emit s (.searchITComponent ("AZURE-" ++ pyUpper r.service))) r ctx false).2.catalog := g2
      have hsgwf2 : (get_application_id (create_it_component_factsheet
          (emit s (.searchITComponent ("AZURE-" ++ pyUpper r.service))) r ctx
          false).2 A).2.catalog.wf := by
        rw [hsgc]
        exact hwf2
      rcases hres : resolveApp c₀.factSheets A with e | aid
      · -- resolution fails
        have hga : get_application_id (create_it_component_factsheet
            (emit s (.searchITComponent ("AZURE-" ++ pyUpper r.service))) r ctx false).2 A =
            (.error e, (get_application_id (create_it_component_factsheet
              (emit s (.searchITComponent ("AZURE-" ++ pyUpper r.service))) r ctx false).2 A).2) :=
          Prod.ext (hresolve.trans hres) rfl
        rw [process_create_err s r (some rs) ctx t A e _ ht hA hit hga]
        dsimp only
        refine ⟨?_, ?_, ?_, ?_, ?_, ?_⟩
        · rw [hsgc]
          exact hwf2
        · rw [hsgc]
          exact happs2
        · intro r' h
          refine compReady_same (c := (create_it_component_factsheet
            (emit s (.searchITComponent ("AZURE-" ++ pyUpper r.service))) r ctx false).2.catalog)
            (by rw [hsgc]) r' ?_
          exact compReady_mono _ hcf2fs r' h
        · intro r' _ h
          refine established_same c₀ (c := (create_it_component_factsheet
            (emit s (.searchITComponent ("AZURE-" ++ pyUpper r.service))) r ctx false).2.catalog)
            (by rw [hsgc]) (by rw [hsgc]) r' ?_
          exact established_extend c₀ _ [] hcf2fs (by rw [hcf2rel, List.append_nil]) r' h
        · intro t' _
          rw [show (get_application_id (create_it_component_factsheet
            (emit s (.searchITComponent ("AZURE-" ++ pyUpper r.service))) r ctx false).2 A).2.catalog =
            (create_it_component_factsheet
              (emit s (.searchITComponent ("AZURE-" ++ pyUpper r.service))) r ctx false).2.catalog
            from hsgc, hitc2]
          rfl
        · exact established_of_error ht hA hres
      · -- resolution succeeds
        have hga : get_application_id (create_it_component_factsheet
            (emit s (.searchITComponent ("AZURE-" ++ pyUpper r.service))) r ctx false).2 A =
            (.ok aid, (get_application_id (create_it_component_factsheet
              (emit s (.searchITComponent ("AZURE-" ++ pyUpper r.service))) r ctx false).2 A).2) :=
          Prod.ext (hresolve.trans hres) rfl
        rcases hchk : (relationsOf (get_application_id (create_it_component_factsheet
            (emit s (.searchITComponent ("AZURE-" ++ pyUpper r.service))) r ctx false).2 A).2.catalog
            (create_it_component_factsheet
              (emit s (.searchITComponent ("AZURE-" ++ pyUpper r.service))) r ctx false).1.id).find?
            (fun q => q.toId == aid) with _ | rel0
        · -- no existing relation: a new one is created
          have hcrel := create_relation_new
            (emit (get_application_id (create_it_component_factsheet
              (emit s (.searchITComponent ("AZURE-" ++ pyUpper r.service))) r ctx false).2 A).2
              (.getRelations (create_it_component_factsheet
                (emit s (.searchITComponent ("AZURE-" ++ pyUpper r.service))) r ctx false).1.id))
            (create_it_component_factsheet
              (emit s (.searchITComponent ("AZURE-" ++ pyUpper r.service))) r ctx false).1.id
            aid ctx hchk
          rw [process_create_new s r (some rs) ctx t A aid _ ht hA hit hga hchk]
          dsimp only
          have hBf : ((create_relation
              (emit (get_application_id (create_it_component_factsheet
                (emit s (.searchITComponent ("AZURE-" ++ pyUpper r.service))) r ctx false).2 A).2
                (.getRelations (create_it_component_factsheet
                  (emit s (.searchITComponent ("AZURE-" ++ pyUpper r.service))) r ctx false).1.id))
              (create_it_component_factsheet
                (emit s (.searchITComponent ("AZURE-" ++ pyUpper r.service))) r ctx false).1.id
              aid ctx).2).catalog.factSheets =
              s.catalog.factSheets ++
                [⟨s.catalog.nextId, "ITComponent", "AZURE-" ++ pyUpper r.service, "ACTIVE",
                  "Azure " ++ r.service ++ " resource", ctx.today⟩] := by
            rw [hcrel]
            exact (congrArg Catalog.factSheets hsgc).trans hcf2fs
          have hBr : ((create_relation
              (emit (get_application_id (create_it_component_factsheet
                (emit s (.searchITComponent ("AZURE-" ++ pyUpper r.service))) r ctx false).2 A).2
                (.getRelations (create_it_component_factsheet
                  (emit s (.searchITComponent ("AZURE-" ++ pyUpper r.service))) r ctx false).1.id))
              (create_it_component_factsheet
                (emit s (.searchITComponent ("AZURE-" ++ pyUpper r.service))) r ctx false).1.id
              aid ctx).2).catalog.relations =
              s.catalog.relations ++
                [⟨(get_application_id (create_it_component_factsheet
                    (emit s (.searchITComponent ("AZURE-" ++ pyUpper r.service))) r ctx
                    false).2 A).2.catalog.nextId,
                  (create_it_component_factsheet
                    (emit s (.searchITComponent ("AZURE-" ++ pyUpper r.service))) r ctx false).1.id,
                  aid, "relITComponentToApplication", "ACTIVE", ctx.today⟩] := by
            rw [hcrel]
            exact congrArg (fun l => l ++ _) ((congrArg Catalog.relations hsgc).trans hcf2rel)
          have hBwf : ((create_relation
              (emit (get_application_id (create_it_component_factsheet
                (emit s (.searchITComponent ("AZURE-" ++ pyUpper r.service))) r ctx false).2 A).2
                (.getRelations (create_it_component_factsheet
                  (emit s (.searchITComponent ("AZURE-" ++ pyUpper r.service))) r ctx false).1.id))
              (create_it_component_factsheet
                (emit s (.searchITComponent ("AZURE-" ++ pyUpper r.service))) r ctx false).1.id
              aid ctx).2).catalog.wf := by
            rw [hcrel]
            exact wf_create_relation hsgwf2 _ rfl
          have happsB : appsOf ((create_relation
              (emit (get_application_id (create_it_component_factsheet
                (emit s (.searchITComponent ("AZURE-" ++ pyUpper r.service))) r ctx false).2 A).2
                (.getRelations (create_it_component_factsheet
                  (emit s (.searchITComponent ("AZURE-" ++ pyUpper r.service))) r ctx false).1.id))
              (create_it_component_factsheet
                (emit s (.searchITComponent ("AZURE-" ++ pyUpper r.service))) r ctx false).1.id
              aid ctx).2).catalog = appsOf c₀ := by
            rw [appsOf_append_IT _ rfl hBf]
            exact happs
          refine ⟨hBwf, happsB, ?_, ?_, ?_, ?_⟩
          · intro r' h
            exact compReady_mono _ hBf r' h
          · intro r' _ h
            exact established_extend c₀ _ _ hBf hBr r' h
          · intro t' _
            rw [findITC_none_new hit _ rfl rfl hBf]
            rfl
          · refine established_intro ht hA hres ?_
            refine ⟨⟨s.catalog.nextId, "ITComponent", "AZURE-" ++ pyUpper r.service, "ACTIVE",
              "Azure " ++ r.service ++ " resource", ctx.today⟩,
              ⟨(get_application_id (create_it_component_factsheet
                  (emit s (.searchITComponent ("AZURE-" ++ pyUpper r.service))) r ctx
                  false).2 A).2.catalog.nextId,
                (create_it_component_factsheet
                  (emit s (.searchITComponent ("AZURE-" ++ pyUpper r.service))) r ctx false).1.id,
                aid, "relITComponentToApplication", "ACTIVE", ctx.today⟩,
              findITC_none_new hit _ rfl rfl hBf, ?_, ?_, rfl⟩
            · rw [hBr]
              exact List.mem_append_right _ (List.mem_singleton_self _)
            · rw [hcf1]
        · -- relation already present
          rw [process_create_found s r (some rs) ctx t A aid _ rel0 ht hA hit hga hchk]
          dsimp only
          have hrel0mem : rel0 ∈ s.catalog.relations := by
            have h1 := List.mem_of_mem_filter (List.mem_of_find?_eq_some hchk)
            rw [hsgc, hcf2rel] at h1
            exact h1
          have hrel0from : rel0.fromId = (create_it_component_factsheet
              (emit s (.searchITComponent ("AZURE-" ++ pyUpper r.service))) r ctx false).1.id := by
            have := (List.mem_filter.mp (List.mem_of_find?_eq_some hchk)).2
            rwa [beq_iff_eq] at this
          have hrel0to : rel0.toId = aid := by
            have := List.find?_some hchk
            rwa [beq_iff_eq] at this
          have hBc : (emit (get_application_id (create_it_component_factsheet
              (emit s (.searchITComponent ("AZURE-" ++ pyUpper r.service))) r ctx false).2 A).2
              (.getRelations (create_it_component_factsheet
                (emit s (.searchITComponent ("AZURE-" ++ pyUpper r.service))) r ctx
                false).1.id)).catalog =
              (create_it_component_factsheet
                (emit s (.searchITComponent ("AZURE-" ++ pyUpper r.service))) r ctx
                false).2.catalog := by
            rw [emit_catalog]
            exact hsgc
          refine ⟨by rw [hBc]; exact hwf2, by rw [hBc]; exact happs2, ?_, ?_, ?_, ?_⟩
          · intro r' h
            refine compReady_same (by rw [hBc]) r' ?_
            exact compReady_mono _ hcf2fs r' h
          · intro r' _ h
            refine established_same c₀ (by rw [hBc]) (by rw [hBc]) r' ?_
            exact established_extend c₀ _ [] hcf2fs (by rw [hcf2rel, List.append_nil]) r' h
          · intro t' _
            rw [findITC_congr (by rw [hBc] :
              (emit (get_application_id (create_it_component_factsheet
                (emit s (.searchITComponent ("AZURE-" ++ pyUpper r.service))) r ctx false).2 A).2
                (.getRelations (create_it_component_factsheet
                  (emit s (.searchITComponent ("AZURE-" ++ pyUpper r.service))) r ctx
                  false).1.id)).catalog.factSheets =
              (create_it_component_factsheet
                (emit s (.searchITComponent ("AZURE-" ++ pyUpper r.service))) r ctx
                false).2.catalog.factSheets), hitc2]
            rfl
          · refine established_intro ht hA hres ?_
            refine ⟨_, rel0, ?_, ?_, hrel0from, hrel0to⟩
            · rw [findITC_congr (by rw [hBc] :
                (emit (get_application_id (create_it_component_factsheet
                  (emit s (.searchITComponent ("AZURE-" ++ pyUpper r.service))) r ctx false).2 A).2
                  (.getRelations (create_it_component_factsheet
                    (emit s (.searchITComponent ("AZURE-" ++ pyUpper r.service))) r ctx
                    false).1.id)).catalog.factSheets =
                (create_it_component_factsheet
                  (emit s (.searchITComponent ("AZURE-" ++ pyUpper r.service))) r ctx
                  false).2.catalog.factSheets), hcf1]
              exact hitc2
            · rw [show (emit (get_application_id (create_it_component_factsheet
                (emit s (.searchITComponent ("AZURE-" ++ pyUpper r.service))) r ctx false).2 A).2
                (.getRelations (create_it_component_factsheet
                  (emit s (.searchITComponent ("AZURE-" ++ pyUpper r.service))) r ctx
                  false).1.id)).catalog = _ from hBc, hcf2rel]
              exact hrel0mem
    · -- component pre-exists: the cleanup pass runs on it
      obtain ⟨g1, g2, g3⟩ := get_application_id_spec
        (emit s (.searchITComponent ("AZURE-" ++ pyUpper r.service))) A
      have hsgc : (get_application_id
          (emit s (.searchITComponent ("AZURE-" ++ pyUpper r.service))) A).2.catalog =
          s.catalog := by
        rw [g2, emit_catalog]
      have hresolve : (get_application_id
          (emit s (.searchITComponent ("AZURE-" ++ pyUpper r.service))) A).1 =
          resolveApp c₀.factSheets A := by
        rw [g1]
        refine resolveApp_congr ?_ A
        rw [emit_catalog]
        exact happs
      have hcompmem : compFs ∈ s.catalog.factSheets := (findITC_spec hit).1
      have hcompname : compFs.name = "AZURE-" ++ pyUpper r.service := (findITC_spec hit).2.2
      have hsgwf : (get_application_id
          (emit s (.searchITComponent ("AZURE-" ++ pyUpper r.service))) A).2.catalog.wf := by
        rw [hsgc]
        exact hwf
      rcases hres : resolveApp c₀.factSheets A with e | aid
      · -- resolution fails, cleanup still runs
        have hga : get_application_id
            (emit s (.searchITComponent ("AZURE-" ++ pyUpper r.service))) A =
            (.error e, (get_application_id
              (emit s (.searchITComponent ("AZURE-" ++ pyUpper r.service))) A).2) :=
          Prod.ext (hresolve.trans hres) rfl
        rw [process_exist_err s r rs ctx t A e compFs _ ht hA hit hga]
        dsimp only
        obtain ⟨w1, w2, w3, w4⟩ := cleanup_invariants c₀ rs ctx Hex
          (get_application_id (emit s (.searchITComponent ("AZURE-" ++ pyUpper r.service))) A).2
          compFs.id (by rw [hsgc]; exact hwf) (by rw [hsgc]; exact happs)
        refine ⟨w1, w2, ?_, ?_, ?_, ?_⟩
        · intro r' h
          exact w3 r' (compReady_same (by rw [hsgc]) r' h)
        · intro r' hmem h
          exact w4 r' hmem (established_same c₀ (by rw [hsgc]) (by rw [hsgc]) r' h)
        · refine w3 r ?_
          intro t' _
          rw [findITC_congr (by rw [hsgc] : (get_application_id
            (emit s (.searchITComponent ("AZURE-" ++ pyUpper r.service))) A).2.catalog.factSheets =
            s.catalog.factSheets), hit]
          rfl
        · exact established_of_error ht hA hres
      · -- resolution succeeds
        have hga : get_application_id
            (emit s (.searchITComponent ("AZURE-" ++ pyUpper r.service))) A =
            (.ok aid, (get_application_id
              (emit s (.searchITComponent ("AZURE-" ++ pyUpper r.service))) A).2) :=
          Prod.ext (hresolve.trans hres) rfl
        rcases hchk : (relationsOf (get_application_id
            (emit s (.searchITComponent ("AZURE-" ++ pyUpper r.service))) A).2.catalog
            compFs.id).find? (fun q => q.toId == aid) with _ | rel0
        · -- relation missing: created, then cleanup
          have hcrel := create_relation_new
            (emit (get_application_id
              (emit s (.searchITComponent ("AZURE-" ++ pyUpper r.service))) A).2
              (.getRelations compFs.id)) compFs.id aid ctx hchk
          rw [process_exist_new s r rs ctx t A compFs aid _ ht hA hit hga hchk]
          dsimp only
          have hBf : ((create_relation
              (emit (get_application_id
                (emit s (.searchITComponent ("AZURE-" ++ pyUpper r.service))) A).2
                (.getRelations compFs.id)) compFs.id aid ctx).2).catalog.factSheets =
              s.catalog.factSheets := by
            rw [hcrel]
            simp only [emit_catalog]
            rw [hsgc]
          have hBr : ((create_relation
              (emit (get_application_id
                (emit s (.searchITComponent ("AZURE-" ++ pyUpper r.service))) A).2
                (.getRelations compFs.id)) compFs.id aid ctx).2).catalog.relations =
              s.catalog.relations ++
                [⟨(get_application_id
                    (emit s (.searchITComponent ("AZURE-" ++ pyUpper r.service))) A).2.catalog.nextId,
                  compFs.id, aid, "relITComponentToApplication", "ACTIVE", ctx.today⟩] := by
            rw [hcrel]
            simp only [emit_catalog]
            rw [hsgc]
          have hBwf : ((create_relation
              (emit (get_application_id
                (emit s (.searchITComponent ("AZURE-" ++ pyUpper r.service))) A).2
                (.getRelations compFs.id)) compFs.id aid ctx).2).catalog.wf := by
            rw [hcrel]
            exact wf_create_relation hsgwf _ rfl
          have happsB : appsOf ((create_relation
              (emit (get_application_id
                (emit s (.searchITComponent ("AZURE-" ++ pyUpper r.service))) A).2
                (.getRelations compFs.id)) compFs.id aid ctx).2).catalog = appsOf c₀ := by
            rw [appsOf_congr hBf]
            exact happs
          obtain ⟨w1, w2, w3, w4⟩ := cleanup_invariants c₀ rs ctx Hex
            (create_relation
              (emit (get_application_id
                (emit s (.searchITComponent ("AZURE-" ++ pyUpper r.service))) A).2
                (.getRelations compFs.id)) compFs.id aid ctx).2
            compFs.id hBwf happsB
          refine ⟨w1, w2, ?_, ?_, ?_, ?_⟩
          · intro r' h
            exact w3 r' (compReady_same hBf r' h)
          · intro r' hmem h
            exact w4 r' hmem (established_extend c₀ []
              _ (by rw [hBf, List.append_nil]) hBr r' h)
          · refine w3 r ?_
            intro t' _
            rw [findITC_congr hBf, hit]
            rfl
          · refine w4 r hr ?_
            refine established_intro ht hA hres ?_
            refine ⟨compFs,
              ⟨(get_application_id
                  (emit s (.searchITComponent ("AZURE-" ++ pyUpper r.service))) A).2.catalog.nextId,
                compFs.id, aid, "relITComponentToApplication", "ACTIVE", ctx.today⟩,
              by rw [findITC_congr hBf]; exact hit, ?_, rfl, rfl⟩
            rw [hBr]
            exact List.mem_append_right _ (List.mem_singleton_self _)
        · -- relation already present, then cleanup
          rw [process_exist_found s r rs ctx t A compFs aid _ rel0 ht hA hit hga hchk]
          dsimp only
          have hrel0mem : rel0 ∈ s.catalog.relations := by
            have h1 := List.mem_of_mem_filter (List.mem_of_find?_eq_some hchk)
            rwa [hsgc] at h1
          have hrel0from : rel0.fromId = compFs.id := by
            have := (List.mem_filter.mp (List.mem_of_find?_eq_some hchk)).2
            rwa [beq_iff_eq] at this
          have hrel0to : rel0.toId = aid := by
            have := List.find?_some hchk
            rwa [beq_iff_eq] at this
          have hBc : (emit (get_application_id
              (emit s (.searchITComponent ("AZURE-" ++ pyUpper r.service))) A).2
              (.getRelations compFs.id)).catalog = s.catalog := by
            rw [emit_catalog]
            exact hsgc
          obtain ⟨w1, w2, w3, w4⟩ := cleanup_invariants c₀ rs ctx Hex
            (emit (get_application_id
              (emit s (.searchITComponent ("AZURE-" ++ pyUpper r.service))) A).2
              (.getRelations compFs.id))
            compFs.id (by rw [hBc]; exact hwf) (by rw [hBc]; exact happs)
          refine ⟨w1, w2, ?_, ?_, ?_, ?_⟩
          · intro r' h
            exact w3 r' (compReady_same (by rw [hBc]) r' h)
          · intro r' hmem h
            exact w4 r' hmem (established_same c₀ (by rw [hBc]) (by rw [hBc]) r' h)
          · refine w3 r ?_
            intro t' _
            rw [findITC_congr (by rw [hBc] : (emit (get_application_id
              (emit s (.searchITComponent ("AZURE-" ++ pyUpper r.service))) A).2
              (.getRelations compFs.id)).catalog.factSheets = s.catalog.factSheets), hit]
            rfl
          · refine w4 r hr ?_
            refine established_intro ht hA hres ?_
            refine ⟨compFs, rel0, ?_, ?_, hrel0from, hrel0to⟩
            · rw [findITC_congr (by rw [hBc] : (emit (get_application_id
                (emit s (.searchITComponent ("AZURE-" ++ pyUpper r.service))) A).2
                (.getRelations compFs.id)).catalog.factSheets = s.catalog.factSheets)]
              exact hit
            · rw [show (emit (get_application_id
                (emit s (.searchITComponent ("AZURE-" ++ pyUpper r.service))) A).2
                (.getRelations compFs.id)).catalog = _ from hBc]
              exact hrel0mem

/-! ## The main loop -/

theorem processList_tail_state (s : St) (r : Resource) (rest all : List Resource) (ctx : RunCtx) :
    (processList s (r :: rest) all ctx).2 =
      (processList (process_it_component s r (some all) ctx).2 rest all ctx).2 := by
  simp only [processList]
  rcases hp : (process_it_component s r (some all) ctx).1 with _ | rep
  · rfl
  · rfl

/-- The loop distributes over list append (one resource's outcome never
aborts the batch: the tail is always processed). -/
theorem processList_append (s : St) (xs ys all : List Resource) (ctx : RunCtx) :
    processList s (xs ++ ys) all ctx =
      ((processList s xs all ctx).1 ++
        (processList (processList s xs all ctx).2 ys all ctx).1,
       (processList (processList s xs all ctx).2 ys all ctx).2) := by
  induction xs generalizing s with
  | nil => simp [processList]
  | cons x xs ih =>
    rw [List.cons_append]
    simp only [processList]
    rw [ih]
    rcases hp : (process_it_component s x (some all) ctx).1 with _ | rep
    · rfl
    · rfl

/-- Run-1 postcondition: after the loop, every processed resource has a
findable component and (when its application resolves) an established
relation; the run invariant is maintained. -/
theorem processList_post (c₀ : Catalog) (rs : List Resource) (ctx : RunCtx)
    (Hex : ExactNames c₀ rs) :
    ∀ (pending acc : List Resource) (s : St),
      s.catalog.wf → appsOf s.catalog = appsOf c₀ →
      (∀ r ∈ pending, r ∈ rs) → (∀ r ∈ acc, r ∈ rs) →
      (∀ r ∈ acc, CompReady s.catalog r ∧ Established c₀ s.catalog r) →
      (processList s pending rs ctx).2.catalog.wf ∧
      appsOf (processList s pending rs ctx).2.catalog = appsOf c₀ ∧
      (∀ r, (r ∈ acc ∨ r ∈ pending) →
        CompReady (processList s pending rs ctx).2.catalog r ∧
        Established c₀ (processList s pending rs ctx).2.catalog r) := by
  intro pending
  induction pending with
  | nil =>
    intro acc s hwf happs _ _ hacc
    refine ⟨hwf, happs, ?_⟩
    intro r hmem
    rcases hmem with h | h
    · exact hacc r h
    · cases h
  | cons r rest ih =>
    intro acc s hwf happs hpend haccrs hacc
    obtain ⟨p1, p2, p3, p4, p5, p6⟩ := process_step c₀ rs ctx Hex s r hwf happs
      (hpend r (List.mem_cons_self r rest))
    rw [processList_tail_state]
    refine ih (acc ++ [r]) ((process_it_component s r (some rs) ctx).2) p1 p2
      (fun r' h' => hpend r' (List.mem_cons_of_mem r h'))
      (fun r' h' => ?_) (fun r' h' => ?_) |>.imp id (fun hh => hh.imp id ?_)
    · rcases List.mem_append.mp h' with h'' | h''
      · exact haccrs r' h''
      · rw [List.mem_singleton.mp h'']
        exact hpend r (List.mem_cons_self r rest)
    · rcases List.mem_append.mp h' with h'' | h''
      · obtain ⟨ha, hb⟩ := hacc r' h''
        exact ⟨p3 r' ha, p4 r' (haccrs r' h'') hb⟩
      · rw [List.mem_singleton.mp h'']
        exact ⟨p5, p6⟩
    · intro hall r' hmem
      apply hall r'
      rcases hmem with h | h
      · exact Or.inl (List.mem_append_left _ h)
      · rcases List.mem_cons.mp h with rfl | h2
        · exact Or.inl (List.mem_append_right _ (List.mem_singleton_self _))
        · exact Or.inr h2

theorem extendNC_get_application_id (X : St) (A : String) :
    EventsExtendNC X (get_application_id X A).2 := by
  obtain ⟨-, -, g3⟩ := get_application_id_spec X A
  rcases g3 with h | h
  · refine extendNC_of_events_eq _ h ?_
    intro e he
    rw [List.mem_singleton.mp he]
    rfl
  · refine extendNC_of_events_eq _ h ?_
    intro e he
    rcases List.mem_cons.mp he with rfl | he
    · rfl
    · rw [List.mem_singleton.mp he]
      rfl

theorem extendNC_cleanup (B : St) (cid : Nat) (rs' : List Resource) (ctx : RunCtx) :
    EventsExtendNC B (cleanup_it_component_relations B cid rs' ctx).2 :=
  (cleanup_spec B cid rs' ctx).2.2.1

/-- Run-2 per-resource step: when the component is findable and the
relation already established, processing the resource issues no creation
request. -/
theorem process_noCreate (c₀ : Catalog) (rs : List Resource) (ctx : RunCtx)
    (s : St) (r : Resource)
    (hwf : s.catalog.wf) (happs : appsOf s.catalog = appsOf c₀)
    (hcr : CompReady s.catalog r) (hest : Established c₀ s.catalog r) :
    EventsExtendNC s (process_it_component s r (some rs) ctx).2 := by
  rcases ht : getProjectTag r with _ | t
  · rw [process_none s r (some rs) ctx ht]
    exact extendNC_rfl s
  · obtain ⟨A, hA⟩ := getProjectTag_lookup ht
    rcases hit : findITC s.catalog ("AZURE-" ++ pyUpper r.service) with _ | compFs
    · have h1 := hcr t ht
      rw [hit] at h1
      cases h1
    · obtain ⟨g1, g2, g3⟩ := get_application_id_spec
        (emit s (.searchITComponent ("AZURE-" ++ pyUpper r.service))) A
      have hsgc : (get_application_id
          (emit s (.searchITComponent ("AZURE-" ++ pyUpper r.service))) A).2.catalog =
          s.catalog := by
        rw [g2, emit_catalog]
      have hresolve : (get_application_id
          (emit s (.searchITComponent ("AZURE-" ++ pyUpper r.service))) A).1 =
          resolveApp c₀.factSheets A := by
        rw [g1]
        refine resolveApp_congr ?_ A
        rw [emit_catalog]
        exact happs
      have e1 : EventsExtendNC s (emit s (.searchITComponent ("AZURE-" ++ pyUpper r.service))) :=
        extendNC_emit s _ rfl
      have e2 : EventsExtendNC (emit s (.searchITComponent ("AZURE-" ++ pyUpper r.service)))
          (get_application_id (emit s (.searchITComponent ("AZURE-" ++ pyUpper r.service))) A).2 :=
        extendNC_get_application_id _ A
      rcases hres : resolveApp c₀.factSheets A with e | aid
      · have hga : get_application_id
            (emit s (.searchITComponent ("AZURE-" ++ pyUpper r.service))) A =
            (.error e, (get_application_id
              (emit s (.searchITComponent ("AZURE-" ++ pyUpper r.service))) A).2) :=
          Prod.ext (hresolve.trans hres) rfl
        rw [process_exist_err s r rs ctx t A e compFs _ ht hA hit hga]
        dsimp only
        exact extendNC_trans (extendNC_trans e1 e2) (extendNC_cleanup _ compFs.id rs ctx)
      · obtain ⟨compFs', rel, hitc', hmem, hfrom, hto⟩ := hest t A aid ht hA hres
        rw [hit] at hitc'
        injection hitc' with hce
        subst hce
        have hga : get_application_id
            (emit s (.searchITComponent ("AZURE-" ++ pyUpper r.service))) A =
            (.ok aid, (get_application_id
              (emit s (.searchITComponent ("AZURE-" ++ pyUpper r.service))) A).2) :=
          Prod.ext (hresolve.trans hres) rfl
        have hsome : ((relationsOf (get_application_id
            (emit s (.searchITComponent ("AZURE-" ++ pyUpper r.service))) A).2.catalog
            compFs.id).find? (fun q => q.toId == aid)).isSome = true := by
          rw [hsgc]
          exact relationsOf_find_isSome ⟨rel, hmem, hfrom, hto⟩
        obtain ⟨rel0, hchk⟩ := Option.isSome_iff_exists.mp hsome
        rw [process_exist_found s r rs ctx t A compFs aid _ rel0 ht hA hit hga hchk]
        dsimp only
        refine extendNC_trans (extendNC_trans (extendNC_trans e1 e2)
          (extendNC_emit (get_application_id
            (emit s (.searchITComponent ("AZURE-" ++ pyUpper r.service))) A).2
            (.getRelations compFs.id) rfl))
          (extendNC_cleanup _ compFs.id rs ctx)

/-- Run-2 loop: with every resource's component and relation already in
place, the whole loop issues no creation request. -/
theorem processList_noCreate (c₀ : Catalog) (rs : List Resource) (ctx : RunCtx)
    (Hex : ExactNames c₀ rs) :
    ∀ (pending : List Resource) (s : St),
      s.catalog.wf → appsOf s.catalog = appsOf c₀ →
      (∀ r ∈ pending, r ∈ rs) →
      (∀ r ∈ rs, CompReady s.catalog r ∧ Established c₀ s.catalog r) →
      EventsExtendNC s (processList s pending rs ctx).2 := by
  intro pending
  induction pending with
  | nil =>
    intro s _ _ _ _
    exact extendNC_rfl s
  | cons r rest ih =>
    intro s hwf happs hpend hready
    obtain ⟨p1, p2, p3, p4, p5, p6⟩ := process_step c₀ rs ctx Hex s r hwf happs
      (hpend r (List.mem_cons_self r rest))
    have e1 : EventsExtendNC s (process_it_component s r (some rs) ctx).2 :=
      process_noCreate c₀ rs ctx s r hwf happs (hready r (hpend r (List.mem_cons_self r rest))).1
        (hready r (hpend r (List.mem_cons_self r rest))).2
    rw [processList_tail_state]
    refine extendNC_trans e1 (ih ((process_it_component s r (some rs) ctx).2) p1 p2
      (fun r' h' => hpend r' (List.mem_cons_of_mem r h')) ?_)
    intro r' h'
    obtain ⟨ha, hb⟩ := hready r' h'
    exact ⟨p3 r' ha, p4 r' h' hb⟩

/-! ## Claim C1 -/

/-- C1 (amended): running the full reconciliation a second time against an
unchanged resource set and the catalog left by the first run issues no
fact-sheet-creation and no relation-creation request, **provided** every
Application fact sheet whose normalized name matches a mapped application
name of the resource set bears exactly that name (and ids in the starting
catalog are well-formed): every create path re-finds the record the first
run created or found. -/
theorem second_run_creates_nothing (c₀ : Catalog) (rs : List Resource) (ctx₁ ctx₂ : RunCtx)
    (hwf : c₀.wf) (Hex : ExactNames c₀ rs) :
    ∀ e ∈ (main_run (main_run c₀ rs ctx₁).2.catalog rs ctx₂).2.events, e.isCreate = false := by
  obtain ⟨w1, w2, w3⟩ := processList_post c₀ rs ctx₁ Hex rs [] ⟨c₀, []⟩ hwf rfl
    (fun r h => h) (fun r h => absurd h (List.not_mem_nil r))
    (fun r h => absurd h (List.not_mem_nil r))
  have h2 := processList_noCreate c₀ rs ctx₂ Hex rs
    ⟨(main_run c₀ rs ctx₁).2.catalog, []⟩ w1 w2 (fun r h => h)
    (fun r h => w3 r (Or.inr h))
  obtain ⟨d, hd, hnc⟩ := h2
  intro e he
  have he2 : e ∈ ([] : List ApiEvent) ++ d := by
    rw [← hd]
    exact he
  rw [List.nil_append] at he2
  exact hnc e he2

/-- C1 (counterexample to the claim as stated): with an Application sheet
named `auth0-as` (matching the mapped name `Auth0-AS` only up to
normalization) and two storage resources tagged `xemay`, the second run of
the reconciler issues a relation-creation request: the cleanup pass deleted
the first run's relation, so the re-run's existence check misses. -/
theorem second_run_creates_relation_counterexample :
    ((main_run
        (main_run ⟨[⟨1, "Application", "auth0-as", "ACTIVE", "", ""⟩], [], 2⟩
          [⟨"/s/r1", "res1", "Storage", "Microsoft.Storage", "eastus", "sub1",
             [⟨"project", "xemay"⟩]⟩,
           ⟨"/s/r2", "res2", "Storage", "Microsoft.Storage", "eastus", "sub1",
             [⟨"project", "xemay"⟩]⟩]
          ⟨"2026-10-12", "2026-10-12 00:00:00", "tester"⟩).2.catalog
        [⟨"/s/r1", "res1", "Storage", "Microsoft.Storage", "eastus", "sub1",
           [⟨"project", "xemay"⟩]⟩,
         ⟨"/s/r2", "res2", "Storage", "Microsoft.Storage", "eastus", "sub1",
           [⟨"project", "xemay"⟩]⟩]
        ⟨"2026-10-12", "2026-10-12 00:00:00", "tester"⟩).2.events.any
      ApiEvent.isCreateRelation) = true := by
  decide

/-- C1 (witness): the amended theorem applied to a one-application,
one-resource catalog whose application name matches the mapping exactly. -/
theorem second_run_creates_nothing_witness :
    (Catalog.wf ⟨[⟨1, "Application", "Auth0-AS", "ACTIVE", "", ""⟩], [], 2⟩ ∧
     ExactNames ⟨[⟨1, "Application", "Auth0-AS", "ACTIVE", "", ""⟩], [], 2⟩
       [⟨"/s/r1", "res1", "Storage", "Microsoft.Storage", "eastus", "sub1",
          [⟨"project", "xemay"⟩]⟩]) ∧
    (∀ e ∈ (main_run
        (main_run ⟨[⟨1, "Application", "Auth0-AS", "ACTIVE", "", ""⟩], [], 2⟩
          [⟨"/s/r1", "res1", "Storage", "Microsoft.Storage", "eastus", "sub1",
             [⟨"project", "xemay"⟩]⟩]
          ⟨"2026-10-12", "2026-10-12 00:00:00", "tester"⟩).2.catalog
        [⟨"/s/r1", "res1", "Storage", "Microsoft.Storage", "eastus", "sub1",
           [⟨"project", "xemay"⟩]⟩]
        ⟨"2026-10-12", "2026-10-12 00:00:00", "tester"⟩).2.events, e.isCreate = false) :=
  ⟨⟨by decide, by decide⟩,
   second_run_creates_nothing
     ⟨[⟨1, "Application", "Auth0-AS", "ACTIVE", "", ""⟩], [], 2⟩
     [⟨"/s/r1", "res1", "Storage", "Microsoft.Storage", "eastus", "sub1",
        [⟨"project", "xemay"⟩]⟩]
     ⟨"2026-10-12", "2026-10-12 00:00:00", "tester"⟩
     ⟨"2026-10-12", "2026-10-12 00:00:00", "tester"⟩
     (by decide) (by decide)⟩

/-! ## Claim C3 -/

/-- C3: a resource carrying no tag whose key lowercases to `"project"` with
a value that is a key of `PROJECT_APP_MAPPING` is skipped outright: the
reconciler returns `None` for it, issues no request at all (its event trace
is unchanged), and leaves the remote catalog untouched. -/
theorem untagged_resource_skipped (s : St) (r : Resource) (all : Option (List Resource))
    (ctx : RunCtx)
    (h : ∀ tag ∈ r.tags, ¬ (pyLower tag.key = "project" ∧
      (PROJECT_APP_MAPPING.lookup tag.value).isSome = true)) :
    process_it_component s r all ctx = (none, s) := by
  have ht : getProjectTag r = none := by
    unfold getProjectTag
    have hf : r.tags.find? (fun tag =>
        pyLower tag.key == "project" && (PROJECT_APP_MAPPING.lookup tag.value).isSome) = none := by
      rw [List.find?_eq_none]
      intro tag hmem hp
      rw [Bool.and_eq_true, beq_iff_eq] at hp
      exact h tag hmem ⟨hp.1, hp.2⟩
    rw [hf]
    rfl
  exact process_none s r all ctx ht

/-- C3 (witness): a resource tagged only `env=prod` is skipped with no
catalog change and no requests. -/
theorem untagged_resource_skipped_witness :
    (∀ tag ∈ ([⟨"env", "prod"⟩] : List Tag), ¬ (pyLower tag.key = "project" ∧
      (PROJECT_APP_MAPPING.lookup tag.value).isSome = true)) ∧
    process_it_component ⟨⟨[], [], 0⟩, []⟩
        ⟨"/s/r9", "res9", "Storage", "Microsoft.Storage", "eastus", "sub1", [⟨"env", "prod"⟩]⟩
        none ⟨"2026-10-12", "ts", "u"⟩ =
      (none, ⟨⟨[], [], 0⟩, []⟩) :=
  ⟨by decide,
   untagged_resource_skipped ⟨⟨[], [], 0⟩, []⟩
     ⟨"/s/r9", "res9", "Storage", "Microsoft.Storage", "eastus", "sub1", [⟨"env", "prod"⟩]⟩
     none ⟨"2026-10-12", "ts", "u"⟩ (by decide)⟩

/-! ## Claim C5 -/

/-- C5: `get_application_id` performs the exact filtered search first and
returns the first normalized-name match from it; only on a miss does it
issue the broader query search, returning its first normalized-name match;
it yields an id exactly when one of the two searches holds a fact sheet
whose normalized name equals the normalized input, and raises the
`Application not found` error exactly when neither does. -/
theorem get_application_id_behavior (s : St) (name : String) :
    (∀ fs, (s.catalog.factSheets.filter
        (fun x => x.fsType == "Application" && x.name == name)).find?
        (fun x => normalize_application_name x.name == normalize_application_name name) =
        some fs →
      get_application_id s name = (.ok fs.id, emit s (.searchApplicationFilter name))) ∧
    ((s.catalog.factSheets.filter
        (fun x => x.fsType == "Application" && x.name == name)).find?
        (fun x => normalize_application_name x.name == normalize_application_name name) = none →
      ∀ fs, (s.catalog.factSheets.filter (fun x => x.fsType == "Application")).find?
        (fun x => normalize_application_name x.name == normalize_application_name name) =
        some fs →
      get_application_id s name =
        (.ok fs.id, emit (emit s (.searchApplicationFilter name))
          (.searchApplicationQuery name))) ∧
    ((∃ aid, (get_application_id s name).1 = .ok aid) ↔
      ∃ fs, (fs ∈ s.catalog.factSheets.filter
              (fun x => x.fsType == "Application" && x.name == name) ∨
             fs ∈ s.catalog.factSheets.filter (fun x => x.fsType == "Application")) ∧
        normalize_application_name fs.name = normalize_application_name name) ∧
    ((∃ e, (get_application_id s name).1 = .error e) ↔
      ¬ ∃ fs, (fs ∈ s.catalog.factSheets.filter
              (fun x => x.fsType == "Application" && x.name == name) ∨
             fs ∈ s.catalog.factSheets.filter (fun x => x.fsType == "Application")) ∧
        normalize_application_name fs.name = normalize_application_name name) := by
  have hmatch : (∃ fs, (fs ∈ s.catalog.factSheets.filter
          (fun x => x.fsType == "Application" && x.name == name) ∨
         fs ∈ s.catalog.factSheets.filter (fun x => x.fsType == "Application")) ∧
      normalize_application_name fs.name = normalize_application_name name) ↔
      ((s.catalog.factSheets.filter
          (fun x => x.fsType == "Application" && x.name == name)).find?
        (fun x => normalize_application_name x.name == normalize_application_name name)).isSome ∨
      ((s.catalog.factSheets.filter (fun x => x.fsType == "Application")).find?
        (fun x => normalize_application_name x.name == normalize_application_name name)).isSome := by
    constructor
    · rintro ⟨fs, hmem | hmem, hnorm⟩
      · exact Or.inl (List.find?_isSome.mpr ⟨fs, hmem, by simp [hnorm]⟩)
      · exact Or.inr (List.find?_isSome.mpr ⟨fs, hmem, by simp [hnorm]⟩)
    · rintro (h | h)
      · obtain ⟨fs, hf⟩ := Option.isSome_iff_exists.mp h
        refine ⟨fs, Or.inl (List.mem_of_find?_eq_some hf), ?_⟩
        have := List.find?_some hf
        rwa [beq_iff_eq] at this
      · obtain ⟨fs, hf⟩ := Option.isSome_iff_exists.mp h
        refine ⟨fs, Or.inr (List.mem_of_find?_eq_some hf), ?_⟩
        have := List.find?_some hf
        rwa [beq_iff_eq] at this
  refine ⟨fun fs h => get_application_id_filterHit s name fs h,
    fun h1 fs h2 => get_application_id_queryHit s name fs h1 h2, ?_, ?_⟩
  · rw [hmatch]
    rcases h1 : (s.catalog.factSheets.filter
        (fun x => x.fsType == "Application" && x.name == name)).find?
        (fun x => normalize_application_name x.name == normalize_application_name name)
        with _ | fs
    · rcases h2 : (s.catalog.factSheets.filter (fun x => x.fsType == "Application")).find?
          (fun x => normalize_application_name x.name == normalize_application_name name)
          with _ | fs
      · rw [get_application_id_miss s name h1 h2]
        constructor
        · rintro ⟨aid, ha⟩
          exact Except.noConfusion
            (show (Except.error ("Application not found: " ++ name) : Except String Nat) =
              Except.ok aid from ha)
        · rintro (h | h)
          · rw [h1] at h
            exact Bool.noConfusion h
          · rw [h2] at h
            exact Bool.noConfusion h
      · rw [get_application_id_queryHit s name fs h1 h2]
        exact ⟨fun _ => Or.inr (by rw [h2]; rfl), fun _ => ⟨fs.id, rfl⟩⟩
    · rw [get_application_id_filterHit s name fs h1]
      exact ⟨fun _ => Or.inl (by rw [h1]; rfl), fun _ => ⟨fs.id, rfl⟩⟩
  · rw [hmatch]
    rcases h1 : (s.catalog.factSheets.filter
        (fun x => x.fsType == "Application" && x.name == name)).find?
        (fun x => normalize_application_name x.name == normalize_application_name name)
        with _ | fs
    · rcases h2 : (s.catalog.factSheets.filter (fun x => x.fsType == "Application")).find?
          (fun x => normalize_application_name x.name == normalize_application_name name)
          with _ | fs
      · rw [get_application_id_miss s name h1 h2]
        constructor
        · rintro - (h | h)
          · rw [h1] at h
            exact Bool.noConfusion h
          · rw [h2] at h
            exact Bool.noConfusion h
        · intro _
          exact ⟨"Application not found: " ++ name, rfl⟩
      · rw [get_application_id_queryHit s name fs h1 h2]
        constructor
        · rintro ⟨e, he⟩
          exact Except.noConfusion
            (show (Except.ok fs.id : Except String Nat) = Except.error e from he)
        · intro h
          exact absurd (Or.inr (by rw [h2]; rfl)) h
    · rw [get_application_id_filterHit s name fs h1]
      constructor
      · rintro ⟨e, he⟩
        exact Except.noConfusion
          (show (Except.ok fs.id : Except String Nat) = Except.error e from he)
      · intro h
        exact absurd (Or.inl (by rw [h1]; rfl)) h

/-- C5 (witness): the exact filtered search finds `Auth0-AS` immediately,
so the broader query is skipped and the id is returned. -/
theorem get_application_id_behavior_witness :
    ((Catalog.factSheets ⟨[⟨1, "Application", "Auth0-AS", "ACTIVE", "", ""⟩], [], 2⟩).filter
        (fun x => x.fsType == "Application" && x.name == "Auth0-AS")).find?
        (fun x => normalize_application_name x.name ==
          normalize_application_name "Auth0-AS") =
      some ⟨1, "Application", "Auth0-AS", "ACTIVE", "", ""⟩ ∧
    get_application_id ⟨⟨[⟨1, "Application", "Auth0-AS", "ACTIVE", "", ""⟩], [], 2⟩, []⟩
        "Auth0-AS" =
      (.ok 1, emit ⟨⟨[⟨1, "Application", "Auth0-AS", "ACTIVE", "", ""⟩], [], 2⟩, []⟩
        (.searchApplicationFilter "Auth0-AS")) :=
  ⟨by decide,
   (get_application_id_behavior
     ⟨⟨[⟨1, "Application", "Auth0-AS", "ACTIVE", "", ""⟩], [], 2⟩, []⟩ "Auth0-AS").1
     ⟨1, "Application", "Auth0-AS", "ACTIVE", "", ""⟩ (by decide)⟩

/-! ## Claim C8 -/

/-- C8: the IT component name derived from a service type is exactly
`"AZURE-"` followed by the upper-cased service type; `virtualMachines`
yields `AZURE-VIRTUALMACHINES`; the existence check searches this very name
and any sheet it returns bears it, and the creation payload carries the
same name. -/
theorem component_name_derivation :
    ("AZURE-" ++ pyUpper "virtualMachines" = "AZURE-VIRTUALMACHINES") ∧
    (∀ (s : St) (n : String) (b : Bool),
      (get_existing_it_component s n b).2.events =
        s.events ++ [.searchITComponent ("AZURE-" ++ pyUpper n)]) ∧
    (∀ (s : St) (n : String) (b : Bool) (fs : FactSheet),
      (get_existing_it_component s n b).1 = some fs → fs.name = "AZURE-" ++ pyUpper n) ∧
    (∀ (s : St) (r : Resource) (ctx : RunCtx) (b : Bool),
      (create_it_component_factsheet s r ctx b).1.name = "AZURE-" ++ pyUpper r.service) := by
  refine ⟨by decide, ?_, ?_, ?_⟩
  · intro s n b
    cases b <;> rfl
  · intro s n b fs h
    cases b
    · rw [get_existing_it_component_eq] at h
      exact (findITC_spec h).2.2
    · rw [get_existing_it_component_fails] at h
      cases h
  · intro s r ctx b
    cases b
    · rcases hit : findITC s.catalog ("AZURE-" ++ pyUpper r.service) with _ | fs
      · rw [create_it_component_new s r ctx hit]
      · rw [create_it_component_found s r ctx fs hit]
        exact (findITC_spec hit).2.2
    · simp only [create_it_component_factsheet, get_existing_it_component_fails]

/-- C8 (witness): the existence check on a catalog holding
`AZURE-STORAGE` returns a sheet carrying that exact name. -/
theorem component_name_derivation_witness :
    (get_existing_it_component
        ⟨⟨[⟨0, "ITComponent", "AZURE-STORAGE", "ACTIVE", "", ""⟩], [], 1⟩, []⟩
        "Storage" false).1 = some ⟨0, "ITComponent", "AZURE-STORAGE", "ACTIVE", "", ""⟩ ∧
    FactSheet.name ⟨0, "ITComponent", "AZURE-STORAGE", "ACTIVE", "", ""⟩ =
      "AZURE-" ++ pyUpper "Storage" :=
  ⟨by decide,
   component_name_derivation.2.2.1
     ⟨⟨[⟨0, "ITComponent", "AZURE-STORAGE", "ACTIVE", "", ""⟩], [], 1⟩, []⟩
     "Storage" false ⟨0, "ITComponent", "AZURE-STORAGE", "ACTIVE", "", ""⟩ (by decide)⟩

/-! ## Claim C9 -/

/-- C9: a failing existence-check request is swallowed into `None` — the
same value as genuine absence — so `create_it_component_factsheet`'s
double-check misses an existing component and a transient lookup failure
produces a duplicate fact sheet: afterwards at least two ITComponent
sheets carry the derived name. -/
theorem lookup_failure_masks_existing_component :
    (∀ (s : St) (n : String), (get_existing_it_component s n true).1 = none) ∧
    (∀ (s : St) (r : Resource) (ctx : RunCtx),
      (∃ fs ∈ s.catalog.factSheets, fs.fsType = "ITComponent" ∧
        fs.name = "AZURE-" ++ pyUpper r.service) →
      2 ≤ ((create_it_component_factsheet s r ctx true).2.catalog.factSheets.filter
        (fun fs => fs.fsType == "ITComponent" &&
          fs.name == ("AZURE-" ++ pyUpper r.service))).length) := by
  refine ⟨fun s n => rfl, ?_⟩
  intro s r ctx hex
  obtain ⟨fs, hmem, hty, hname⟩ := hex
  have hcl : (create_it_component_factsheet s r ctx true).2.catalog.factSheets =
      s.catalog.factSheets ++
        [⟨s.catalog.nextId, "ITComponent", "AZURE-" ++ pyUpper r.service, "ACTIVE",
          "Azure " ++ r.service ++ " resource", ctx.today⟩] := by
    simp only [create_it_component_factsheet, get_existing_it_component_fails, emit_catalog]
  rw [hcl, List.filter_append]
  rw [List.length_append]
  have h1 : 1 ≤ (s.catalog.factSheets.filter
      (fun fs => fs.fsType == "ITComponent" &&
        fs.name == ("AZURE-" ++ pyUpper r.service))).length := by
    have : fs ∈ s.catalog.factSheets.filter
        (fun fs => fs.fsType == "ITComponent" &&
          fs.name == ("AZURE-" ++ pyUpper r.service)) :=
      List.mem_filter.mpr ⟨hmem, by simp [hty, hname]⟩
    exact List.length_pos.mpr (List.ne_nil_of_mem this)
  have h2 : (([⟨s.catalog.nextId, "ITComponent", "AZURE-" ++ pyUpper r.service, "ACTIVE",
      "Azure " ++ r.service ++ " resource", ctx.today⟩] : List FactSheet).filter
      (fun fs => fs.fsType == "ITComponent" &&
        fs.name == ("AZURE-" ++ pyUpper r.service))).length = 1 := by
    simp
  omega

/-- C9 (witness): with `AZURE-STORAGE` already present and a failing
lookup, the create path duplicates it. -/
theorem lookup_failure_masks_existing_component_witness :
    (∃ fs ∈ ([⟨0, "ITComponent", "AZURE-STORAGE", "ACTIVE", "", ""⟩] : List FactSheet),
      fs.fsType = "ITComponent" ∧ fs.name = "AZURE-" ++ pyUpper "Storage") ∧
    2 ≤ (((create_it_component_factsheet
        ⟨⟨[⟨0, "ITComponent", "AZURE-STORAGE", "ACTIVE", "", ""⟩], [], 1⟩, []⟩
        ⟨"/s/r1", "res1", "Storage", "Microsoft.Storage", "eastus", "sub1",
           [⟨"project", "xemay"⟩]⟩
        ⟨"2026-10-12", "ts", "u"⟩ true).2.catalog.factSheets).filter
      (fun fs => fs.fsType == "ITComponent" &&
        fs.name == ("AZURE-" ++ pyUpper "Storage"))).length :=
  ⟨by decide,
   lookup_failure_masks_existing_component.2
     ⟨⟨[⟨0, "ITComponent", "AZURE-STORAGE", "ACTIVE", "", ""⟩], [], 1⟩, []⟩
     ⟨"/s/r1", "res1", "Storage", "Microsoft.Storage", "eastus", "sub1",
        [⟨"project", "xemay"⟩]⟩
     ⟨"2026-10-12", "ts", "u"⟩ (by decide)⟩

/-! ## Claim C6 -/

/-- C6: `create_relation` re-checks existence and returns the existing
relation untouched when the component already relates to the application;
otherwise it inserts a new relation with status `ACTIVE` and
`activeFrom` = today; accordingly the per-resource report entry carries
either the existing relation marked `"existing"` or the fresh one marked
`"new"`, with the catalog relations extended exactly in the latter case. -/
theorem relation_upsert_and_report :
    (∀ (s : St) (cid aid : Nat) (ctx : RunCtx) (rel0 : Relation),
      (relationsOf s.catalog cid).find? (fun q => q.toId == aid) = some rel0 →
      create_relation s cid aid ctx = (rel0, emit s (.getRelations cid))) ∧
    (∀ (s : St) (cid aid : Nat) (ctx : RunCtx),
      (relationsOf s.catalog cid).find? (fun q => q.toId == aid) = none →
      (create_relation s cid aid ctx).1.status = "ACTIVE" ∧
      (create_relation s cid aid ctx).1.activeFrom = ctx.today ∧
      (create_relation s cid aid ctx).1.fromId = cid ∧
      (create_relation s cid aid ctx).1.toId = aid ∧
      (create_relation s cid aid ctx).2.catalog.relations =
        s.catalog.relations ++ [(create_relation s cid aid ctx).1]) ∧
    (∀ (s : St) (r : Resource) (ctx : RunCtx) (t A : String) (compFs : FactSheet) (aid : Nat)
      (rep : Report) (s' : St),
      getProjectTag r = some t → PROJECT_APP_MAPPING.lookup t = some A →
      findITC s.catalog ("AZURE-" ++ pyUpper r.service) = some compFs →
      resolveApp s.catalog.factSheets A = .ok aid →
      process_it_component s r none ctx = (some rep, s') →
      ∃ entry, rep.relations = [entry] ∧ entry.project = t ∧ entry.application = A ∧
        ((∃ rel0, (relationsOf s.catalog compFs.id).find? (fun q => q.toId == aid) = some rel0 ∧
          entry.status = some "existing" ∧ entry.relation = some rel0 ∧
          s'.catalog.relations = s.catalog.relations) ∨
         ((relationsOf s.catalog compFs.id).find? (fun q => q.toId == aid) = none ∧
          entry.status = some "new" ∧
          ∃ nr, entry.relation = some nr ∧ nr.status = "ACTIVE" ∧ nr.activeFrom = ctx.today ∧
            nr.fromId = compFs.id ∧ nr.toId = aid ∧
            s'.catalog.relations = s.catalog.relations ++ [nr]))) := by
  refine ⟨fun s cid aid ctx rel0 h => create_relation_found s cid aid ctx rel0 h, ?_, ?_⟩
  · intro s cid aid ctx h
    rw [create_relation_new s cid aid ctx h]
    exact ⟨rfl, rfl, rfl, rfl, rfl⟩
  · intro s r ctx t A compFs aid rep s' ht hA hit hres hproc
    have hga : get_application_id (emit s (.searchITComponent ("AZURE-" ++ pyUpper r.service))) A =
        (.ok aid,
         (get_application_id (emit s (.searchITComponent ("AZURE-" ++ pyUpper r.service))) A).2) :=
      Prod.ext ((get_application_id_spec
        (emit s (.searchITComponent ("AZURE-" ++ pyUpper r.service))) A).1.trans hres) rfl
    have hsgc : (get_application_id
        (emit s (.searchITComponent ("AZURE-" ++ pyUpper r.service))) A).2.catalog = s.catalog :=
      (get_application_id_spec (emit s (.searchITComponent ("AZURE-" ++ pyUpper r.service))) A).2.1
    rcases hchk : (relationsOf (get_application_id
        (emit s (.searchITComponent ("AZURE-" ++ pyUpper r.service))) A).2.catalog compFs.id).find?
        (fun q => q.toId == aid) with _ | rel0
    · have hchk' : (relationsOf s.catalog compFs.id).find? (fun q => q.toId == aid) = none := by
        rw [← hsgc]
        exact hchk
      have hcrel := create_relation_new
        (emit (get_application_id (emit s (.searchITComponent ("AZURE-" ++ pyUpper r.service))) A).2
          (.getRelations compFs.id)) compFs.id aid ctx hchk
      rw [process_exist_new_noall s r ctx t A compFs aid _ ht hA hit hga hchk] at hproc
      injection hproc with h1 h2
      injection h1 with h1
      subst h1
      subst h2
      refine ⟨_, rfl, rfl, rfl, Or.inr ⟨hchk', rfl, _, rfl, ?_, ?_, ?_, ?_, ?_⟩⟩
      · rw [hcrel]
      · rw [hcrel]
      · rw [hcrel]
      · rw [hcrel]
      · rw [hcrel]
        dsimp only
        rw [emit_catalog, hsgc]
    · have hchk' : (relationsOf s.catalog compFs.id).find? (fun q => q.toId == aid) =
          some rel0 := by
        rw [← hsgc]
        exact hchk
      rw [process_exist_found_noall s r ctx t A compFs aid _ rel0 ht hA hit hga hchk] at hproc
      injection hproc with h1 h2
      injection h1 with h1
      subst h1
      subst h2
      refine ⟨_, rfl, rfl, rfl, Or.inl ⟨rel0, hchk', rfl, rfl, ?_⟩⟩
      rw [emit_catalog, hsgc]

/-- C6 (witness): with the relation already present the re-check returns it
and nothing is inserted. -/
theorem relation_upsert_and_report_witness :
    (relationsOf (Catalog.mk
        [⟨0, "ITComponent", "AZURE-STORAGE", "ACTIVE", "", ""⟩,
         ⟨1, "Application", "Auth0-AS", "ACTIVE", "", ""⟩]
        [⟨5, 0, 1, "relITComponentToApplication", "ACTIVE", "2026-01-01"⟩] 6) 0).find?
      (fun q => q.toId == 1) =
      some ⟨5, 0, 1, "relITComponentToApplication", "ACTIVE", "2026-01-01"⟩ ∧
    create_relation ⟨⟨[⟨0, "ITComponent", "AZURE-STORAGE", "ACTIVE", "", ""⟩,
         ⟨1, "Application", "Auth0-AS", "ACTIVE", "", ""⟩],
        [⟨5, 0, 1, "relITComponentToApplication", "ACTIVE", "2026-01-01"⟩], 6⟩, []⟩ 0 1
        ⟨"2026-10-12", "ts", "u"⟩ =
      (⟨5, 0, 1, "relITComponentToApplication", "ACTIVE", "2026-01-01"⟩,
       emit ⟨⟨[⟨0, "ITComponent", "AZURE-STORAGE", "ACTIVE", "", ""⟩,
         ⟨1, "Application", "Auth0-AS", "ACTIVE", "", ""⟩],
        [⟨5, 0, 1, "relITComponentToApplication", "ACTIVE", "2026-01-01"⟩], 6⟩, []⟩
        (.getRelations 0)) :=
  ⟨by decide,
   relation_upsert_and_report.1
     ⟨⟨[⟨0, "ITComponent", "AZURE-STORAGE", "ACTIVE", "", ""⟩,
        ⟨1, "Application", "Auth0-AS", "ACTIVE", "", ""⟩],
       [⟨5, 0, 1, "relITComponentToApplication", "ACTIVE", "2026-01-01"⟩], 6⟩, []⟩ 0 1
     ⟨"2026-10-12", "ts", "u"⟩
     ⟨5, 0, 1, "relITComponentToApplication", "ACTIVE", "2026-01-01"⟩ (by decide)⟩

/-! ## Claim C7 -/

/-- C7: the batch decomposes resource by resource — processing `xs ++ ys`
is processing `xs`, then `ys` from the reached state, with the reports
concatenated — and an application-resolution failure on one resource is
captured in that resource's report entry (error recorded, no relation)
rather than raised, so the remaining resources are still processed. -/
theorem per_resource_failure_does_not_abort :
    (∀ (s : St) (xs ys all : List Resource) (ctx : RunCtx),
      processList s (xs ++ ys) all ctx =
        ((processList s xs all ctx).1 ++
          (processList (processList s xs all ctx).2 ys all ctx).1,
         (processList (processList s xs all ctx).2 ys all ctx).2)) ∧
    (∀ (s : St) (r : Resource) (ctx : RunCtx) (t A e : String) (compFs : FactSheet),
      getProjectTag r = some t → PROJECT_APP_MAPPING.lookup t = some A →
      findITC s.catalog ("AZURE-" ++ pyUpper r.service) = some compFs →
      resolveApp s.catalog.factSheets A = .error e →
      ∃ rep s', process_it_component s r none ctx = (some rep, s') ∧
        rep.relations = [⟨t, A, none, none, some e⟩]) := by
  refine ⟨fun s xs ys all ctx => processList_append s xs ys all ctx, ?_⟩
  intro s r ctx t A e compFs ht hA hit hres
  have hga : get_application_id (emit s (.searchITComponent ("AZURE-" ++ pyUpper r.service))) A =
      (.error e,
       (get_application_id (emit s (.searchITComponent ("AZURE-" ++ pyUpper r.service))) A).2) :=
    Prod.ext ((get_application_id_spec
      (emit s (.searchITComponent ("AZURE-" ++ pyUpper r.service))) A).1.trans hres) rfl
  rw [process_exist_err_noall s r ctx t A e compFs _ ht hA hit hga]
  exact ⟨_, _, rfl, rfl⟩

/-- C7 (witness): with no Application sheet in the catalog, the `xemay`
resource's `Auth0-AS` resolution fails and is recorded as a per-resource
error entry. -/
theorem per_resource_failure_does_not_abort_witness :
    getProjectTag ⟨"/s/r1", "res1", "Storage", "Microsoft.Storage", "eastus", "sub1",
        [⟨"project", "xemay"⟩]⟩ = some "xemay" ∧
    PROJECT_APP_MAPPING.lookup "xemay" = some "Auth0-AS" ∧
    findITC (Catalog.mk [⟨0, "ITComponent", "AZURE-STORAGE", "ACTIVE", "", ""⟩] [] 1)
      ("AZURE-" ++ pyUpper "Storage") = some ⟨0, "ITComponent", "AZURE-STORAGE", "ACTIVE", "", ""⟩ ∧
    resolveApp [⟨0, "ITComponent", "AZURE-STORAGE", "ACTIVE", "", ""⟩] "Auth0-AS" =
      .error ("Application not found: " ++ "Auth0-AS") ∧
    ∃ rep s', process_it_component
        ⟨⟨[⟨0, "ITComponent", "AZURE-STORAGE", "ACTIVE", "", ""⟩], [], 1⟩, []⟩
        ⟨"/s/r1", "res1", "Storage", "Microsoft.Storage", "eastus", "sub1",
          [⟨"project", "xemay"⟩]⟩ none ⟨"2026-10-12", "ts", "u"⟩ = (some rep, s') ∧
      rep.relations = [⟨"xemay", "Auth0-AS", none, none,
        some ("Application not found: " ++ "Auth0-AS")⟩] :=
  ⟨by decide, by decide, by decide, rfl,
   per_resource_failure_does_not_abort.2
     ⟨⟨[⟨0, "ITComponent", "AZURE-STORAGE", "ACTIVE", "", ""⟩], [], 1⟩, []⟩
     ⟨"/s/r1", "res1", "Storage", "Microsoft.Storage", "eastus", "sub1",
       [⟨"project", "xemay"⟩]⟩ ⟨"2026-10-12", "ts", "u"⟩
     "xemay" "Auth0-AS" ("Application not found: " ++ "Auth0-AS")
     ⟨0, "ITComponent", "AZURE-STORAGE", "ACTIVE", "", ""⟩
     (by decide) (by decide) (by decide) rfl⟩

/-! ## Cleanup deletion/retention helpers (shared by the cleanup claims) -/

/-- A stale relation of the component is removed and recorded by the
cleanup pass. -/
theorem cleanup_deletes_stale (s : St) (cid : Nat) (rs' : List Resource) (ctx : RunCtx)
    (hwf : s.catalog.wf) {rel : Relation} (hrel : rel ∈ s.catalog.relations)
    (hfrom : rel.fromId = cid)
    (hpre : "AZURE-".data.isPrefixOf
      (((findById s.catalog cid).map FactSheet.name).getD "").data = true)
    (hst : staleFor s.catalog (map_resources_by_app_and_service rs')
      (pyLower ⟨(((findById s.catalog cid).map FactSheet.name).getD "").data.drop 6⟩)
      rel = true) :
    rel ∉ (cleanup_it_component_relations s cid rs' ctx).2.catalog.relations ∧
    rel.id ∈ (cleanup_it_component_relations s cid rs' ctx).1.map DeletedRecord.relation_id := by
  obtain ⟨-, -, -, i4, -⟩ := cleanup_spec s cid rs' ctx
  obtain ⟨hrels, hrecs⟩ := i4 hpre
  have hqmem : rel ∈ relationsOf s.catalog cid :=
    List.mem_filter.mpr ⟨hrel, by simp [hfrom]⟩
  constructor
  · intro hmem'
    rw [hrels] at hmem'
    have hp := (List.mem_filter.mp hmem').2
    rw [Bool.not_eq_true', List.any_eq_false] at hp
    exact (hp rel hqmem) (by simp [hst])
  · rw [hrecs]
    exact List.mem_map_of_mem Relation.id (List.mem_filter.mpr ⟨hqmem, hst⟩)

/-- A non-stale relation survives the cleanup pass. -/
theorem cleanup_kept_of_not_stale (s : St) (cid : Nat) (rs' : List Resource) (ctx : RunCtx)
    (hwf : s.catalog.wf) {rel : Relation} (hrel : rel ∈ s.catalog.relations)
    (hst : staleFor s.catalog (map_resources_by_app_and_service rs')
      (pyLower ⟨(((findById s.catalog cid).map FactSheet.name).getD "").data.drop 6⟩)
      rel = false) :
    rel ∈ (cleanup_it_component_relations s cid rs' ctx).2.catalog.relations := by
  obtain ⟨-, -, -, i4, i5⟩ := cleanup_spec s cid rs' ctx
  by_cases hpre : ("AZURE-".data.isPrefixOf
      (((findById s.catalog cid).map FactSheet.name).getD "").data) = true
  · rw [(i4 hpre).1]
    refine List.mem_filter.mpr ⟨hrel, ?_⟩
    rw [Bool.not_eq_true', List.any_eq_false]
    intro q hq
    by_cases hid : (q.id == rel.id) = true
    · have hqmem : q ∈ s.catalog.relations := List.mem_of_mem_filter hq
      have hqeq : q = rel := eq_of_nodup_ids Relation.id hwf.2.1 hqmem hrel (beq_iff_eq.mp hid)
      subst hqeq
      simp [hst]
    · simp [hid]
  · rw [(i5 (bool_eq_false_of_ne_true hpre)).1]
    exact hrel

/-- A non-stale relation is never listed among the pruned records. -/
theorem cleanup_not_recorded (s : St) (cid : Nat) (rs' : List Resource) (ctx : RunCtx)
    (hwf : s.catalog.wf) {rel : Relation} (hrel : rel ∈ s.catalog.relations)
    (hst : staleFor s.catalog (map_resources_by_app_and_service rs')
      (pyLower ⟨(((findById s.catalog cid).map FactSheet.name).getD "").data.drop 6⟩)
      rel = false) :
    rel.id ∉ (cleanup_it_component_relations s cid rs' ctx).1.map DeletedRecord.relation_id := by
  obtain ⟨-, -, -, i4, i5⟩ := cleanup_spec s cid rs' ctx
  by_cases hpre : ("AZURE-".data.isPrefixOf
      (((findById s.catalog cid).map FactSheet.name).getD "").data) = true
  · rw [(i4 hpre).2]
    intro hmem
    obtain ⟨q, hqf, hqid⟩ := List.mem_map.mp hmem
    have hqmem : q ∈ s.catalog.relations :=
      List.mem_of_mem_filter (List.mem_of_mem_filter hqf)
    have hqeq : q = rel := eq_of_nodup_ids Relation.id hwf.2.1 hqmem hrel hqid
    subst hqeq
    have hqs := (List.mem_filter.mp hqf).2
    rw [hst] at hqs
    exact Bool.noConfusion hqs
  · rw [(i5 (bool_eq_false_of_ne_true hpre)).2]
    simp

/-- A freshly created component's report carries no pruned relations. -/
theorem process_created_no_deleted (s : St) (r : Resource) (all : Option (List Resource))
    (ctx : RunCtx) (rep : Report) (s' : St)
    (hit : findITC s.catalog ("AZURE-" ++ pyUpper r.service) = none)
    (hproc : process_it_component s r all ctx = (some rep, s')) :
    rep.deleted_relations = [] := by
  rcases ht : getProjectTag r with _ | t
  · rw [process_none s r all ctx ht] at hproc
    simp at hproc
  · obtain ⟨A, hA⟩ := getProjectTag_lookup ht
    rcases hga2 : get_application_id (create_it_component_factsheet
        (emit s (.searchITComponent ("AZURE-" ++ pyUpper r.service))) r ctx false).2 A
        with ⟨res, sg⟩
    rcases res with e | aid
    · rw [process_create_err s r all ctx t A e sg ht hA hit hga2] at hproc
      injection hproc with h1 h2
      injection h1 with h1
      subst h1
      rfl
    · rcases hchk : (relationsOf sg.catalog (create_it_component_factsheet
          (emit s (.searchITComponent ("AZURE-" ++ pyUpper r.service))) r ctx false).1.id).find?
          (fun q => q.toId == aid) with _ | rel0
      · rw [process_create_new s r all ctx t A aid sg ht hA hit hga2 hchk] at hproc
        injection hproc with h1 h2
        injection h1 with h1
        subst h1
        rfl
      · rw [process_create_found s r all ctx t A aid sg rel0 ht hA hit hga2 hchk] at hproc
        injection hproc with h1 h2
        injection h1 with h1
        subst h1
        rfl

/-- Without the full resource set the report carries no pruned relations. -/
theorem process_noall_no_deleted (s : St) (r : Resource) (ctx : RunCtx) (rep : Report) (s' : St)
    (hproc : process_it_component s r none ctx = (some rep, s')) :
    rep.deleted_relations = [] := by
  rcases ht : getProjectTag r with _ | t
  · rw [process_none s r none ctx ht] at hproc
    simp at hproc
  · obtain ⟨A, hA⟩ := getProjectTag_lookup ht
    rcases hit : findITC s.catalog ("AZURE-" ++ pyUpper r.service) with _ | compFs
    · exact process_created_no_deleted s r none ctx rep s' hit hproc
    · rcases hga2 : get_application_id
          (emit s (.searchITComponent ("AZURE-" ++ pyUpper r.service))) A with ⟨res, sg⟩
      rcases res with e | aid
      · rw [process_exist_err_noall s r ctx t A e compFs sg ht hA hit hga2] at hproc
        injection hproc with h1 h2
        injection h1 with h1
        subst h1
        rfl
      · rcases hchk : (relationsOf sg.catalog compFs.id).find? (fun q => q.toId == aid)
            with _ | rel0
        · rw [process_exist_new_noall s r ctx t A compFs aid sg ht hA hit hga2 hchk] at hproc
          injection hproc with h1 h2
          injection h1 with h1
          subst h1
          rfl
        · rw [process_exist_found_noall s r ctx t A compFs aid sg rel0 ht hA hit hga2 hchk]
            at hproc
          injection hproc with h1 h2
          injection h1 with h1
          subst h1
          rfl

/-- A recognized resource's application name is a mapping value. -/
theorem appNameOf_lookup {r : Resource} {a : String} (h : appNameOf r = some a) :
    ∃ t, PROJECT_APP_MAPPING.lookup t = some a := by
  unfold appNameOf at h
  rcases ht : getProjectTag r with _ | t
  · rw [ht] at h
    simp at h
  · rw [ht] at h
    exact ⟨t, h⟩

/-- A lookup hit is a member of the association list. -/
theorem mem_of_lookup {α β : Type} [BEq α] [LawfulBEq α] {l : List (α × β)} {a : α} {b : β}
    (h : l.lookup a = some b) : (a, b) ∈ l := by
  induction l with
  | nil => cases h
  | cons p rest ih =>
    obtain ⟨k, v⟩ := p
    by_cases hk : (a == k) = true
    · simp only [List.lookup, hk] at h
      injection h with h
      subst h
      rw [eq_of_beq hk]
      exact List.mem_cons_self (k, v) rest
    · simp only [List.lookup, bool_eq_false_of_ne_true hk] at h
      exact List.mem_cons_of_mem (k, v) (ih h)

/-- Mapped application names that agree under normalization agree exactly:
no two `PROJECT_APP_MAPPING` values collide after normalization. -/
theorem mapping_values_norm_injective :
    ∀ p ∈ PROJECT_APP_MAPPING, ∀ q ∈ PROJECT_APP_MAPPING,
      normalize_application_name p.2 = normalize_application_name q.2 → p.2 = q.2 := by
  decide

/-! ## Claim C2 -/

/-- C2: in the cleanup pass over a pre-existing component `AZURE-<upper X>`
with the full resource set supplied, a relation of the component is deleted
and recorded as pruned exactly when no current resource maps to the related
application's catalog name with service type `X`; relations still so backed
are kept and not recorded.  The guard conjuncts: with no full set, or with
a freshly created component, no relations are pruned at all. -/
theorem cleanup_prunes_exactly_unbacked :
    (∀ (s : St) (cid : Nat) (rs0 : List Resource) (ctx : RunCtx) (compFs appFs : FactSheet)
       (X : String) (rel : Relation),
      s.catalog.wf →
      findById s.catalog cid = some compFs →
      compFs.name = "AZURE-" ++ pyUpper X →
      rel ∈ s.catalog.relations → rel.fromId = cid →
      findById s.catalog rel.toId = some appFs →
      ((rs0.any (fun q => (appNameOf q == some appFs.name) &&
          (pyLower q.service == pyLower X)) = false →
        rel ∉ (cleanup_it_component_relations s cid rs0 ctx).2.catalog.relations ∧
        rel.id ∈ (cleanup_it_component_relations s cid rs0 ctx).1.map
          DeletedRecord.relation_id) ∧
       (rs0.any (fun q => (appNameOf q == some appFs.name) &&
          (pyLower q.service == pyLower X)) = true →
        rel ∈ (cleanup_it_component_relations s cid rs0 ctx).2.catalog.relations ∧
        rel.id ∉ (cleanup_it_component_relations s cid rs0 ctx).1.map
          DeletedRecord.relation_id))) ∧
    (∀ (s : St) (r : Resource) (ctx : RunCtx) (rep : Report) (s' : St),
      process_it_component s r none ctx = (some rep, s') → rep.deleted_relations = []) ∧
    (∀ (s : St) (r : Resource) (rs0 : List Resource) (ctx : RunCtx) (rep : Report) (s' : St),
      findITC s.catalog ("AZURE-" ++ pyUpper r.service) = none →
      process_it_component s r (some rs0) ctx = (some rep, s') →
      rep.deleted_relations = []) := by
  refine ⟨?_, fun s r ctx rep s' h => process_noall_no_deleted s r ctx rep s' h,
    fun s r rs0 ctx rep s' hit h => process_created_no_deleted s r (some rs0) ctx rep s' hit h⟩
  intro s cid rs0 ctx compFs appFs X rel hwf hfid hcname hrel hfrom hfapp
  have hsn : pyLower ⟨(((findById s.catalog cid).map FactSheet.name).getD "").data.drop 6⟩ =
      pyLower X := by
    rw [hfid]
    simp only [Option.map_some', Option.getD_some]
    rw [hcname]
    exact cleanup_service_name X
  have hpre : "AZURE-".data.isPrefixOf
      (((findById s.catalog cid).map FactSheet.name).getD "").data = true := by
    rw [hfid]
    simp only [Option.map_some', Option.getD_some]
    rw [hcname]
    exact azure_isPrefixOf (pyUpper X)
  have hbm : rs0.any (fun q => (appNameOf q == some appFs.name) &&
        (pyLower q.service == pyLower X)) = true ↔
      mapHas (map_resources_by_app_and_service rs0) appFs.name
        (pyLower ⟨(((findById s.catalog cid).map FactSheet.name).getD "").data.drop 6⟩) =
        true := by
    rw [hsn, mapHas_map_resources, List.any_eq_true]
    constructor
    · rintro ⟨r', hm, hp⟩
      rw [Bool.and_eq_true, beq_iff_eq, beq_iff_eq] at hp
      exact ⟨r', hm, hp.1, hp.2⟩
    · rintro ⟨r', hm, h1, h2⟩
      exact ⟨r', hm, by simp [h1, h2]⟩
  constructor
  · intro hb
    have hmh : mapHas (map_resources_by_app_and_service rs0) appFs.name
        (pyLower ⟨(((findById s.catalog cid).map FactSheet.name).getD "").data.drop 6⟩) =
        false := by
      refine bool_eq_false_of_ne_true (fun hm => ?_)
      rw [hbm.mpr hm] at hb
      exact Bool.noConfusion hb
    have hst : staleFor s.catalog (map_resources_by_app_and_service rs0)
        (pyLower ⟨(((findById s.catalog cid).map FactSheet.name).getD "").data.drop 6⟩)
        rel = true := by
      simp [staleFor, hfapp, hmh]
    exact cleanup_deletes_stale s cid rs0 ctx hwf hrel hfrom hpre hst
  · intro hb
    have hmh := hbm.mp hb
    have hst : staleFor s.catalog (map_resources_by_app_and_service rs0)
        (pyLower ⟨(((findById s.catalog cid).map FactSheet.name).getD "").data.drop 6⟩)
        rel = false := by
      simp [staleFor, hfapp, hmh]
    exact ⟨cleanup_kept_of_not_stale s cid rs0 ctx hwf hrel hst,
      cleanup_not_recorded s cid rs0 ctx hwf hrel hst⟩

/-- C2 (witness): with an empty current resource set, the `AZURE-STORAGE`
component's relation to `Auth0-AS` is pruned and recorded. -/
theorem cleanup_prunes_exactly_unbacked_witness :
    (Catalog.wf ⟨[⟨0, "ITComponent", "AZURE-STORAGE", "ACTIVE", "", ""⟩,
        ⟨1, "Application", "Auth0-AS", "ACTIVE", "", ""⟩],
       [⟨5, 0, 1, "relITComponentToApplication", "ACTIVE", "2026-01-01"⟩], 6⟩) ∧
    ([] : List Resource).any (fun q => (appNameOf q == some "Auth0-AS") &&
      (pyLower q.service == pyLower "Storage")) = false ∧
    (⟨5, 0, 1, "relITComponentToApplication", "ACTIVE", "2026-01-01"⟩ : Relation) ∉
      (cleanup_it_component_relations
        ⟨⟨[⟨0, "ITComponent", "AZURE-STORAGE", "ACTIVE", "", ""⟩,
           ⟨1, "Application", "Auth0-AS", "ACTIVE", "", ""⟩],
          [⟨5, 0, 1, "relITComponentToApplication", "ACTIVE", "2026-01-01"⟩], 6⟩, []⟩
        0 [] ⟨"2026-10-12", "ts", "u"⟩).2.catalog.relations ∧
    (5 : Nat) ∈ (cleanup_it_component_relations
        ⟨⟨[⟨0, "ITComponent", "AZURE-STORAGE", "ACTIVE", "", ""⟩,
           ⟨1, "Application", "Auth0-AS", "ACTIVE", "", ""⟩],
          [⟨5, 0, 1, "relITComponentToApplication", "ACTIVE", "2026-01-01"⟩], 6⟩, []⟩
        0 [] ⟨"2026-10-12", "ts", "u"⟩).1.map DeletedRecord.relation_id := by
  have h := (cleanup_prunes_exactly_unbacked.1
    ⟨⟨[⟨0, "ITComponent", "AZURE-STORAGE", "ACTIVE", "", ""⟩,
       ⟨1, "Application", "Auth0-AS", "ACTIVE", "", ""⟩],
      [⟨5, 0, 1, "relITComponentToApplication", "ACTIVE", "2026-01-01"⟩], 6⟩, []⟩
    0 [] ⟨"2026-10-12", "ts", "u"⟩
    ⟨0, "ITComponent", "AZURE-STORAGE", "ACTIVE", "", ""⟩
    ⟨1, "Application", "Auth0-AS", "ACTIVE", "", ""⟩ "Storage"
    ⟨5, 0, 1, "relITComponentToApplication", "ACTIVE", "2026-01-01"⟩
    (by decide) (by decide) (by decide) (by decide) (by decide) (by decide)).1 (by decide)
  exact ⟨by decide, by decide, h.1, h.2⟩

/-! ## Claim C10 -/

/-- C10: the cleanup pass matches the related application's catalog name
against the recomputed map by exact string equality while resolution
matches by normalized name; so when the catalog name of the application
agrees with its mapped name only up to normalization (case or whitespace),
its relation is deleted and recorded even though a backing resource of the
component's service type still exists (the map does list the mapped name
with that very service). -/
theorem cleanup_exact_name_mismatch_deletes (s : St) (cid : Nat) (rs0 : List Resource)
    (ctx : RunCtx) (compFs appFs : FactSheet) (X : String) (rel : Relation) (r : Resource)
    (A : String)
    (hwf : s.catalog.wf)
    (hfid : findById s.catalog cid = some compFs)
    (hcname : compFs.name = "AZURE-" ++ pyUpper X)
    (hrel : rel ∈ s.catalog.relations) (hfrom : rel.fromId = cid)
    (hfapp : findById s.catalog rel.toId = some appFs)
    (hr : r ∈ rs0) (hAname : appNameOf r = some A)
    (hserv : pyLower r.service = pyLower X)
    (hnorm : normalize_application_name appFs.name = normalize_application_name A)
    (hne : appFs.name ≠ A) :
    mapHas (map_resources_by_app_and_service rs0) A (pyLower X) = true ∧
    rel ∉ (cleanup_it_component_relations s cid rs0 ctx).2.catalog.relations ∧
    rel.id ∈ (cleanup_it_component_relations s cid rs0 ctx).1.map
      DeletedRecord.relation_id := by
  have hsn : pyLower ⟨(((findById s.catalog cid).map FactSheet.name).getD "").data.drop 6⟩ =
      pyLower X := by
    rw [hfid]
    simp only [Option.map_some', Option.getD_some]
    rw [hcname]
    exact cleanup_service_name X
  have hpre : "AZURE-".data.isPrefixOf
      (((findById s.catalog cid).map FactSheet.name).getD "").data = true := by
    rw [hfid]
    simp only [Option.map_some', Option.getD_some]
    rw [hcname]
    exact azure_isPrefixOf (pyUpper X)
  obtain ⟨t, hAval⟩ := appNameOf_lookup hAname
  have hmh : mapHas (map_resources_by_app_and_service rs0) appFs.name
      (pyLower ⟨(((findById s.catalog cid).map FactSheet.name).getD "").data.drop 6⟩) =
      false := by
    refine bool_eq_false_of_ne_true (fun hm => ?_)
    rw [hsn] at hm
    obtain ⟨r', hm', hname', hserv'⟩ := (mapHas_map_resources rs0 appFs.name
      (pyLower X)).mp hm
    obtain ⟨t', hval'⟩ := appNameOf_lookup hname'
    exact hne (mapping_values_norm_injective (t', appFs.name) (mem_of_lookup hval')
      (t, A) (mem_of_lookup hAval) hnorm)
  have hst : staleFor s.catalog (map_resources_by_app_and_service rs0)
      (pyLower ⟨(((findById s.catalog cid).map FactSheet.name).getD "").data.drop 6⟩)
      rel = true := by
    simp [staleFor, hfapp, hmh]
  refine ⟨?_, cleanup_deletes_stale s cid rs0 ctx hwf hrel hfrom hpre hst⟩
  exact (mapHas_map_resources rs0 A (pyLower X)).mpr ⟨r, hr, hAname, hserv⟩

/-- C10 (witness): the catalog application `auth0-as` (mapping name
`Auth0-AS`) loses its `AZURE-STORAGE` relation even though a backing
Storage resource tagged `xemay` exists. -/
theorem cleanup_exact_name_mismatch_deletes_witness :
    normalize_application_name "auth0-as" = normalize_application_name "Auth0-AS" ∧
    mapHas (map_resources_by_app_and_service
        [⟨"/s/r1", "res1", "Storage", "Microsoft.Storage", "eastus", "sub1",
          [⟨"project", "xemay"⟩]⟩]) "Auth0-AS" (pyLower "Storage") = true ∧
    (⟨5, 0, 1, "relITComponentToApplication", "ACTIVE", "2026-01-01"⟩ : Relation) ∉
      (cleanup_it_component_relations
        ⟨⟨[⟨0, "ITComponent", "AZURE-STORAGE", "ACTIVE", "", ""⟩,
           ⟨1, "Application", "auth0-as", "ACTIVE", "", ""⟩],
          [⟨5, 0, 1, "relITComponentToApplication", "ACTIVE", "2026-01-01"⟩], 6⟩, []⟩
        0 [⟨"/s/r1", "res1", "Storage", "Microsoft.Storage", "eastus", "sub1",
            [⟨"project", "xemay"⟩]⟩] ⟨"2026-10-12", "ts", "u"⟩).2.catalog.relations ∧
    (5 : Nat) ∈ (cleanup_it_component_relations
        ⟨⟨[⟨0, "ITComponent", "AZURE-STORAGE", "ACTIVE", "", ""⟩,
           ⟨1, "Application", "auth0-as", "ACTIVE", "", ""⟩],
          [⟨5, 0, 1, "relITComponentToApplication", "ACTIVE", "2026-01-01"⟩], 6⟩, []⟩
        0 [⟨"/s/r1", "res1", "Storage", "Microsoft.Storage", "eastus", "sub1",
            [⟨"project", "xemay"⟩]⟩] ⟨"2026-10-12", "ts", "u"⟩).1.map
      DeletedRecord.relation_id := by
  have h := cleanup_exact_name_mismatch_deletes
    ⟨⟨[⟨0, "ITComponent", "AZURE-STORAGE", "ACTIVE", "", ""⟩,
       ⟨1, "Application", "auth0-as", "ACTIVE", "", ""⟩],
      [⟨5, 0, 1, "relITComponentToApplication", "ACTIVE", "2026-01-01"⟩], 6⟩, []⟩
    0 [⟨"/s/r1", "res1", "Storage", "Microsoft.Storage", "eastus", "sub1",
        [⟨"project", "xemay"⟩]⟩] ⟨"2026-10-12", "ts", "u"⟩
    ⟨0, "ITComponent", "AZURE-STORAGE", "ACTIVE", "", ""⟩
    ⟨1, "Application", "auth0-as", "ACTIVE", "", ""⟩ "Storage"
    ⟨5, 0, 1, "relITComponentToApplication", "ACTIVE", "2026-01-01"⟩
    ⟨"/s/r1", "res1", "Storage", "Microsoft.Storage", "eastus", "sub1",
      [⟨"project", "xemay"⟩]⟩ "Auth0-AS"
    (by decide) (by decide) (by decide) (by decide) (by decide) (by decide)
    (by decide) (by decide) (by decide) (by decide) (by decide)
  exact ⟨by decide, h.1, h.2.1, h.2.2⟩

/-! ## The v1 cache: lemmas for the app-id cache claim -/

theorem v1_find_application_id_eq (s : V1.St) (n : String) :
    V1.find_application_id s n =
      (V1.findAppPure s.catalog n, V1.emit s (.findApplication n)) := rfl

theorem v1_countFind_append (evs d : List V1.Ev) (n : String) :
    V1.countFind (evs ++ d) n = V1.countFind evs n + V1.countFind d n := by
  simp [V1.countFind, List.filter_append]

theorem v1_countFind_single_self (n : String) :
    V1.countFind [V1.Ev.findApplication n] n = 1 := by
  simp [V1.countFind]

theorem v1_countFind_single_other (e : V1.Ev) (n : String)
    (h : (e == V1.Ev.findApplication n) = false) : V1.countFind [e] n = 0 := by
  simp [V1.countFind, h]

theorem v1_beq_findApp_false {e : V1.Ev} (h : V1.Ev.isFindApp e = false) (n : String) :
    (e == V1.Ev.findApplication n) = false := by
  refine beq_eq_false_iff_ne.mpr (fun hc => ?_)
  rw [hc] at h
  exact Bool.noConfusion h

theorem v1_countFind_nofind {s s' : V1.St} (h : V1.NoFindExtend s s') (n : String) :
    V1.countFind s'.events n = V1.countFind s.events n := by
  obtain ⟨d, hd, hall⟩ := h
  rw [hd, v1_countFind_append]
  have hz : V1.countFind d n = 0 := by
    rw [V1.countFind, List.length_eq_zero, List.filter_eq_nil_iff]
    intro e he hbeq
    rw [v1_beq_findApp_false (hall e he) n] at hbeq
    exact Bool.noConfusion hbeq
  omega

theorem v1_nofind_rfl (s : V1.St) : V1.NoFindExtend s s :=
  ⟨[], by simp, fun e he => absurd he (List.not_mem_nil e)⟩

theorem v1_nofind_trans {s s' s'' : V1.St} (h1 : V1.NoFindExtend s s')
    (h2 : V1.NoFindExtend s' s'') : V1.NoFindExtend s s'' := by
  obtain ⟨d1, hd1, ha1⟩ := h1
  obtain ⟨d2, hd2, ha2⟩ := h2
  refine ⟨d1 ++ d2, by rw [hd2, hd1, List.append_assoc], ?_⟩
  intro e he
  rcases List.mem_append.mp he with h | h
  · exact ha1 e h
  · exact ha2 e h

theorem v1_check_existing_relation_eq (s : V1.St) (cid aid : Nat) :
    V1.check_existing_relation s cid aid =
      ((relationsOf s.catalog cid).find?
        (fun r => r.toId == aid && r.rtype == "relITComponentToApplication"),
       V1.emit s (.getRelations cid)) := rfl

theorem v1_create_relation_nofind (s : V1.St) (cid aid : Nat) (today : String) :
    V1.NoFindExtend s (V1.create_relation s cid aid today).2 := by
  unfold V1.create_relation
  rw [v1_check_existing_relation_eq]
  rcases h : (relationsOf s.catalog cid).find?
      (fun r => r.toId == aid && r.rtype == "relITComponentToApplication") with _ | rel
  · simp only [h]
    refine ⟨[.getRelations cid, .createRelation cid aid], by simp [V1.emit], ?_⟩
    intro e he
    rcases List.mem_cons.mp he with rfl | he
    · rfl
    · rw [List.mem_singleton.mp he]
      rfl
  · simp only [h]
    exact ⟨[.getRelations cid], rfl, fun e he => by rw [List.mem_singleton.mp he]; rfl⟩

theorem v1_relateApps_nofind (names : List String) : ∀ (s : V1.St) (cid : Nat)
    (app_ids : List (String × Nat)) (today : String),
    V1.NoFindExtend s (V1.relateApps s cid names app_ids today) := by
  induction names with
  | nil => exact fun s cid app_ids today => v1_nofind_rfl s
  | cons m rest ih =>
    intro s cid app_ids today
    rcases h : app_ids.lookup m with _ | aid
    · simp only [V1.relateApps, h]
      exact ih s cid app_ids today
    · simp only [V1.relateApps, h]
      exact v1_nofind_trans (v1_create_relation_nofind s cid aid today)
        (ih _ cid app_ids today)

theorem v1_find_itcomponent_id_eq (s : V1.St) (n : String) :
    V1.find_itcomponent_id s n =
      (((s.catalog.factSheets.filter (fun fs => fs.fsType == "ITComponent")).find?
          (fun fs => fs.name == n)).map FactSheet.id,
       V1.emit s (.findITComponent n)) := rfl

theorem v1_processComponent_nofind (s : V1.St) (component : V1.Component)
    (app_ids : List (String × Nat)) (today : String) :
    V1.NoFindExtend s (V1.processComponent s component app_ids today) := by
  unfold V1.processComponent
  rw [v1_find_itcomponent_id_eq]
  rcases h : ((s.catalog.factSheets.filter (fun fs => fs.fsType == "ITComponent")).find?
      (fun fs => fs.name == component.name)).map FactSheet.id with _ | cid
  · simp only [h]
    refine v1_nofind_trans ⟨[.findITComponent component.name, .createFactSheet component.name],
      by simp [V1.emit], ?_⟩ (v1_relateApps_nofind component.applications _ _ _ today)
    intro e he
    rcases List.mem_cons.mp he with rfl | he
    · rfl
    · rw [List.mem_singleton.mp he]
      rfl
  · simp only [h]
    exact v1_nofind_trans
      ⟨[.findITComponent component.name], rfl, fun e he => by rw [List.mem_singleton.mp he]; rfl⟩
      (v1_relateApps_nofind component.applications _ _ _ today)

theorem v1_processComponents_nofind (components : List V1.Component) : ∀ (s : V1.St)
    (app_ids : List (String × Nat)) (today : String),
    V1.NoFindExtend s (V1.processComponents s components app_ids today) := by
  induction components with
  | nil => exact fun s app_ids today => v1_nofind_rfl s
  | cons comp rest ih =>
    intro s app_ids today
    exact v1_nofind_trans (v1_processComponent_nofind s comp app_ids today)
      (ih _ app_ids today)

theorem v1_lookup_append_some {α β : Type} [BEq α] {l l' : List (α × β)} {a : α} {v : β}
    (h : l.lookup a = some v) : (l ++ l').lookup a = some v := by
  induction l with
  | nil => cases h
  | cons p rest ih =>
    obtain ⟨k, w⟩ := p
    by_cases hk : (a == k) = true
    · simp only [List.lookup, hk] at h ⊢
      exact h
    · simp only [List.lookup, bool_eq_false_of_ne_true hk] at h ⊢
      exact ih h

theorem v1_lookup_append_none {α β : Type} [BEq α] {l : List (α × β)} (l' : List (α × β))
    {a : α} (h : l.lookup a = none) : (l ++ l').lookup a = l'.lookup a := by
  induction l with
  | nil => rfl
  | cons p rest ih =>
    obtain ⟨k, w⟩ := p
    by_cases hk : (a == k) = true
    · simp only [List.lookup, hk] at h
      cases h
    · simp only [List.lookup, bool_eq_false_of_ne_true hk] at h ⊢
      exact ih h

theorem v1_collectApps_catalog (names : List String) : ∀ (s : V1.St)
    (app_ids : List (String × Nat)),
    (V1.collectApps s names app_ids).2.catalog = s.catalog := by
  induction names with
  | nil => exact fun s app_ids => rfl
  | cons m rest ih =>
    intro s app_ids
    by_cases hc : (app_ids.lookup m).isSome = true
    · simp only [V1.collectApps, hc, if_true]
      exact ih s app_ids
    · simp only [V1.collectApps, bool_eq_false_of_ne_true hc, Bool.false_eq_true, if_false]
      rcases hq : (V1.find_application_id s m).1 with _ | aid
      · simp only [hq]
        exact ih _ _
      · simp only [hq]
        exact ih _ _

/-- The invariant carried through the cache-population loop: the trace has
looked `n` up at most once, and once it has, the cache resolves `n`. -/
theorem v1_collectApps_invariant (c : Catalog) (names : List String) : ∀ (s : V1.St)
    (app_ids : List (String × Nat)) (n : String),
    s.catalog = c →
    (∀ m ∈ names, (V1.findAppPure c m).isSome = true) →
    V1.countFind s.events n ≤ 1 →
    (V1.countFind s.events n = 1 → (app_ids.lookup n).isSome = true) →
    V1.countFind (V1.collectApps s names app_ids).2.events n ≤ 1 ∧
    (V1.countFind (V1.collectApps s names app_ids).2.events n = 1 →
      ((V1.collectApps s names app_ids).1.lookup n).isSome = true) := by
  induction names with
  | nil => exact fun s app_ids n hc H h1 h2 => ⟨h1, h2⟩
  | cons m rest ih =>
    intro s app_ids n hc H h1 h2
    by_cases hcache : (app_ids.lookup m).isSome = true
    · simp only [V1.collectApps, hcache, if_true]
      exact ih s app_ids n hc (fun m' hm' => H m' (List.mem_cons_of_mem m hm')) h1 h2
    · have hcache' : (app_ids.lookup m).isSome = false := bool_eq_false_of_ne_true hcache
      simp only [V1.collectApps, hcache', Bool.false_eq_true, if_false]
      have hfind : (V1.find_application_id s m).1 = V1.findAppPure c m := by
        rw [v1_find_application_id_eq, hc]
      rcases hq : (V1.find_application_id s m).1 with _ | aid
      · rw [hfind] at hq
        have hx := H m (List.mem_cons_self m rest)
        rw [hq] at hx
        exact Bool.noConfusion hx
      · simp only [hq]
        have hc2 : (V1.find_application_id s m).2.catalog = c := hc
        have H' : ∀ m' ∈ rest, (V1.findAppPure c m').isSome = true :=
          fun m' hm' => H m' (List.mem_cons_of_mem m hm')
        have hev : (V1.find_application_id s m).2.events =
            s.events ++ [.findApplication m] := rfl
        by_cases hmn : m = n
        · subst hmn
          have hcount : V1.countFind (V1.find_application_id s m).2.events m =
              V1.countFind s.events m + 1 := by
            rw [hev, v1_countFind_append, v1_countFind_single_self]
          have hold : V1.countFind s.events m = 0 := by
            by_cases h01 : V1.countFind s.events m = 1
            · exact absurd (h2 h01) (by simp [hcache'])
            · omega
          have h1' : V1.countFind (V1.find_application_id s m).2.events m ≤ 1 := by
            rw [hcount, hold]
          have h2' : V1.countFind (V1.find_application_id s m).2.events m = 1 →
              ((app_ids ++ [(m, aid)]).lookup m).isSome = true := by
            intro _
            have hnone : app_ids.lookup m = none := by
              rcases hl : app_ids.lookup m with _ | v
              · rfl
              · rw [hl] at hcache'
                exact Bool.noConfusion hcache'
            rw [v1_lookup_append_none _ hnone]
            simp [List.lookup]
          exact ih _ _ m hc2 H' h1' h2'
        · have hne : (V1.Ev.findApplication m == V1.Ev.findApplication n) = false := by
            rw [beq_eq_false_iff_ne]
            intro hcon
            exact hmn (V1.Ev.findApplication.inj hcon)
          have hcount : V1.countFind (V1.find_application_id s m).2.events n =
              V1.countFind s.events n := by
            rw [hev, v1_countFind_append, v1_countFind_single_other _ _ hne, Nat.add_zero]
          have h1' : V1.countFind (V1.find_application_id s m).2.events n ≤ 1 := by
            rw [hcount]
            exact h1
          have h2' : V1.countFind (V1.find_application_id s m).2.events n = 1 →
              ((app_ids ++ [(m, aid)]).lookup n).isSome = true := by
            intro hone
            rw [hcount] at hone
            obtain ⟨v, hv⟩ := Option.isSome_iff_exists.mp (h2 hone)
            rw [v1_lookup_append_some hv]
            rfl
          exact ih _ _ n hc2 H' h1' h2'

theorem v1_collectAppIds_catalog (components : List V1.Component) : ∀ (s : V1.St)
    (app_ids : List (String × Nat)),
    (V1.collectAppIds s components app_ids).2.catalog = s.catalog := by
  induction components with
  | nil => exact fun s app_ids => rfl
  | cons comp rest ih =>
    intro s app_ids
    exact (ih _ _).trans (v1_collectApps_catalog comp.applications s app_ids)

theorem v1_collectAppIds_invariant (c : Catalog) (components : List V1.Component) :
    ∀ (s : V1.St) (app_ids : List (String × Nat)) (n : String),
    s.catalog = c →
    (∀ comp ∈ components, ∀ m ∈ comp.applications, (V1.findAppPure c m).isSome = true) →
    V1.countFind s.events n ≤ 1 →
    (V1.countFind s.events n = 1 → (app_ids.lookup n).isSome = true) →
    V1.countFind (V1.collectAppIds s components app_ids).2.events n ≤ 1 ∧
    (V1.countFind (V1.collectAppIds s components app_ids).2.events n = 1 →
      ((V1.collectAppIds s components app_ids).1.lookup n).isSome = true) := by
  induction components with
  | nil => exact fun s app_ids n hc H h1 h2 => ⟨h1, h2⟩
  | cons comp rest ih =>
    intro s app_ids n hc H h1 h2
    obtain ⟨j1, j2⟩ := v1_collectApps_invariant c comp.applications s app_ids n hc
      (fun m hm => H comp (List.mem_cons_self comp rest) m hm) h1 h2
    exact ih (V1.collectApps s comp.applications app_ids).2
      (V1.collectApps s comp.applications app_ids).1 n
      ((v1_collectApps_catalog comp.applications s app_ids).trans hc)
      (fun comp' hc' m hm => H comp' (List.mem_cons_of_mem comp hc') m hm) j1 j2

/-! ## Claim C4 -/

/-- C4 (amended, on the v1 script that owns the `app_ids` cache): in one
`create_leanix_components` run from an empty trace, provided every
referenced application name resolves, each name is looked up at most once,
and the relation phase (step 3) adds no lookups at all — its lookup count
equals that of the cache-population phase (step 2). -/
theorem v1_app_lookup_at_most_once (c : Catalog) (components : List V1.Component)
    (today n : String)
    (H : ∀ comp ∈ components, ∀ m ∈ comp.applications, (V1.findAppPure c m).isSome = true) :
    V1.countFind (V1.create_leanix_components ⟨c, []⟩ components today).events n =
      V1.countFind (V1.collectAppIds ⟨c, []⟩ components []).2.events n ∧
    V1.countFind (V1.create_leanix_components ⟨c, []⟩ components today).events n ≤ 1 := by
  have heq : V1.countFind (V1.create_leanix_components ⟨c, []⟩ components today).events n =
      V1.countFind (V1.collectAppIds ⟨c, []⟩ components []).2.events n :=
    v1_countFind_nofind (v1_processComponents_nofind components
      (V1.collectAppIds ⟨c, []⟩ components []).2
      (V1.collectAppIds ⟨c, []⟩ components []).1 today) n
  obtain ⟨j1, -⟩ := v1_collectAppIds_invariant c components ⟨c, []⟩ [] n rfl H
    (by simp [V1.countFind]) (by intro h; simp [V1.countFind] at h)
  refine ⟨heq, ?_⟩
  rw [heq]
  exact j1

/-- C4 (v2 counterexample): the v2 reconciler has no such cache — two
resources mapping to the same application make one run issue the same
filtered application search twice. -/
theorem v2_app_lookup_twice_counterexample :
    ((main_run ⟨[⟨1, "Application", "Auth0-AS", "ACTIVE", "", ""⟩], [], 2⟩
        [⟨"/s/r1", "res1", "Storage", "Microsoft.Storage", "eastus", "sub1",
           [⟨"project", "xemay"⟩]⟩,
         ⟨"/s/r2", "res2", "Compute", "Microsoft.Compute", "eastus", "sub1",
           [⟨"project", "xemay"⟩]⟩]
        ⟨"2026-10-12", "ts", "u"⟩).2.events.filter
      (fun e => e == ApiEvent.searchApplicationFilter "Auth0-AS")).length = 2 := by
  decide

/-- C4 (witness): the amended theorem at a two-component catalog sharing
one application name: exactly one lookup happens. -/
theorem v1_app_lookup_at_most_once_witness :
    (∀ comp ∈ [V1.Component.mk "Azure Storage" "d" ["Auth0-AS"],
               V1.Component.mk "Azure Compute" "d" ["Auth0-AS"]],
      ∀ m ∈ comp.applications,
        (V1.findAppPure ⟨[⟨1, "Application", "Auth0-AS", "ACTIVE", "", ""⟩], [], 2⟩
          m).isSome = true) ∧
    V1.countFind (V1.create_leanix_components
        ⟨⟨[⟨1, "Application", "Auth0-AS", "ACTIVE", "", ""⟩], [], 2⟩, []⟩
        [V1.Component.mk "Azure Storage" "d" ["Auth0-AS"],
         V1.Component.mk "Azure Compute" "d" ["Auth0-AS"]] "2026-10-12").events
      "Auth0-AS" ≤ 1 :=
  ⟨by decide,
   (v1_app_lookup_at_most_once ⟨[⟨1, "Application", "Auth0-AS", "ACTIVE", "", ""⟩], [], 2⟩
     [V1.Component.mk "Azure Storage" "d" ["Auth0-AS"],
      V1.Component.mk "Azure Compute" "d" ["Auth0-AS"]] "2026-10-12" "Auth0-AS"
     (by decide)).2⟩

end AzLx
